import Mathlib

/-! Paterson bleep timer clone: embedding of `src/main.cpp`.

The sketch targets an Arduino Nano (ATmega328P), so `int` is a 16-bit two's
complement integer and `long` a 32-bit one.  Integers are modelled as `Int`
with explicit wrap-around; a division or modulo by zero (undefined behaviour in
C++) makes the embedded function return `none`.

The global variables of the sketch, the output pins, the display, the serial
sink and the task table of the `arduino-timer` scheduler form one `State`.
Hardware inputs (`millis()`, `analogRead`, `digitalRead`) are explicit
arguments.
-/

namespace BleepTimer

/-! ## Machine integers -/

/-- Wrap an integer into the range of a 16-bit `int`. -/
def wrap16 (x : Int) : Int := (x + 32768) % 65536 - 32768

/-- Wrap an integer into the range of a 32-bit `long`. -/
def wrap32 (x : Int) : Int := (x + 2147483648) % 4294967296 - 2147483648

/-- `a + b` on `int`. -/
def iadd (a b : Int) : Int := wrap16 (a + b)

/-- `a - b` on `int`. -/
def isub (a b : Int) : Int := wrap16 (a - b)

/-- `a * b` on `int`. -/
def imul (a b : Int) : Int := wrap16 (a * b)

/-- `a / b` on `int`: truncating division, undefined for a zero divisor. -/
def idiv (a b : Int) : Option Int :=
  if b = 0 then none else some (wrap16 (Int.tdiv a b))

/-- `a % b` on `int`: remainder of the truncating division, undefined for a
zero divisor. -/
def imod (a b : Int) : Option Int :=
  if b = 0 then none else some (Int.tmod a b)

/-- `a - b` on `unsigned long` (32 bits, wraps). -/
def usub (a b : Nat) : Nat := (a % 4294967296 + 4294967296 - b % 4294967296) % 4294967296

/-! ## Constants of the sketch -/

def DISPLAY_BLINK_INTERVAL : Nat := 500
def SHORT_BLINK_DURATION : Nat := 50
def LONG_BLINK_DURATION : Nat := 200
def SHORT_BEEP_DURATION : Nat := 30
def LONG_BEEP_DURATION : Nat := 150
def DOUBLE_BLINK_INTERVAL : Nat := 100
def DISPLAY_BLINK_DURATION : Nat := 100

/-- The global `potReadInterval` is initialised to 100 and never assigned. -/
def potReadInterval : Nat := 100

/-! ## Scheduler, display and serial sink -/

/-- The functions and lambdas handed to `timer.in` / `timer.every`, named after
the place where the sketch creates them. -/
inductive Handler
  /-- `timerCallback`, registered by `startTimer` every 1000 ms. -/
  | timerCallback
  /-- `tenthsCallback`, registered by `startTimer` every 100 ms. -/
  | tenthsCallback
  /-- Lambda of `shortSignal`: LED low. -/
  | shortLedOff
  /-- Lambda of `shortSignal`: buzzer low. -/
  | shortBuzzerOff
  /-- Lambda of `longSignal`: LED low. -/
  | longLedOff
  /-- Lambda of `longSignal`: buzzer low. -/
  | longBuzzerOff
  /-- First lambda of `doubleSignal`: end of the first pulse. -/
  | doubleFirstOff
  /-- Second lambda of `doubleSignal`: the second pulse. -/
  | doubleSecondPulse
  /-- Lambda nested in the second pulse: delayed `blinkDisplay`. -/
  | doubleSecondBlink
  /-- Lambda nested in the second pulse: end of the second pulse. -/
  | doubleSecondOff
  /-- Lambda of `blinkDisplay`: does nothing. -/
  | blinkDone
  deriving DecidableEq, Repr

/-- One occupied slot of the scheduler: the handler, its delay in ms and its
repeat period in ms (0 for a one-shot task). -/
structure Task where
  handler : Handler
  delay : Nat
  period : Nat
  deriving DecidableEq, Repr

/-- What the TM1637 display was last told to do. -/
inductive Display
  /-- After `display.clear()`. -/
  | cleared
  /-- After `display.showNumberDecEx(value, dots, true, 4, 0)`; `colon` says
  that `dots` is `0b01000000`. -/
  | number (value : Int) (colon : Bool)
  deriving DecidableEq, Repr

/-- The status lines the sketch writes to `Serial`, one constructor per message
with the numbers it prints. -/
inductive SerialLine
  /-- "EXPOSURE INTERVAL REACHED: sec seconds (mult x interval) ..." -/
  | intervalReached (sec mult : Int)
  /-- "Absolute second: sec - RED Display: disp.tenths" -/
  | absoluteSecond (sec disp tenths : Int)
  /-- "DARKROOM TIMER STARTED", interval and mode. -/
  | timerStarted (target : Int) (sound : Bool)
  /-- "DARKROOM TIMER STOPPED", final time and last completed exposure. -/
  | timerStopped (sec final : Int)
  /-- "RESET BUTTON PRESSED!" -/
  | resetPressed
  /-- "COMPLETE RESET" and the two lines after it. -/
  | completeReset
  /-- "Potentiometer moved - Exposure interval changed: target seconds ..." -/
  | potMoved (target : Int)
  /-- "START/STOP BUTTON PRESSED!" -/
  | startStopPressed
  /-- "Returned to setting mode - reading potentiometer" -/
  | returnedToSetting
  /-- "Timer running - STOPPING timer" -/
  | stopping
  /-- "Timer stopped - STARTING timer" -/
  | starting
  /-- "Darkroom mode changed: " and the mode. -/
  | modeChanged (sound : Bool)
  deriving DecidableEq, Repr

/-! ## State -/

/-- The global variables of the sketch together with the devices it drives. -/
structure State where
  targetSeconds : Int
  currentSecond : Int
  displaySecond : Int
  currentTenths : Int
  lastCompletedInterval : Int
  isRunning : Bool
  soundEnabled : Bool
  lastSecondTime : Nat
  timerActive : Bool
  showingFinalResult : Bool
  displayBlinkState : Bool
  displayVisible : Bool
  lastDisplayBlink : Nat
  lastPotValue : Int
  lastPotRead : Nat
  /-- The static local `lastSwitchState` of `readModeSwitch`. -/
  lastSwitchState : Bool
  /-- Level of `LED_PIN`. -/
  led : Bool
  /-- Level of `BUZZER_PIN`. -/
  buzzer : Bool
  display : Display
  /-- Occupied slots of `Timer<10> timer`, in registration order. -/
  tasks : List Task
  /-- Lines written to `Serial`, oldest first. -/
  serial : List SerialLine
  deriving DecidableEq, Repr

/-- The values the globals are initialised with, all outputs low, the display
cleared, nothing scheduled and nothing printed. -/
def initialState : State where
  targetSeconds := 0
  currentSecond := 0
  displaySecond := 0
  currentTenths := 0
  lastCompletedInterval := 0
  isRunning := false
  soundEnabled := true
  lastSecondTime := 0
  timerActive := false
  showingFinalResult := false
  displayBlinkState := false
  displayVisible := true
  lastDisplayBlink := 0
  lastPotValue := 0
  lastPotRead := 0
  lastSwitchState := true
  led := false
  buzzer := false
  display := Display.cleared
  tasks := []
  serial := []

/-- `Serial.print...`: append one status line. -/
def serialPrint (l : SerialLine) (s : State) : State :=
  { s with serial := s.serial ++ [l] }

/-- Modelled from the spec: the `arduino-timer` library is not part of the
source. `Timer<10>` holds at most ten pending tasks (the fixed upper bound of
the Event Scheduler); a request made while the table is full is dropped. -/
def MAX_TASKS : Nat := 10

/-- Modelled from the spec: registration of a task in the table of the absent
`arduino-timer` library; a request made while the table is full is dropped. -/
def addTask (t : Task) (ts : List Task) : List Task :=
  if ts.length < MAX_TASKS then ts ++ [t] else ts

/-- Modelled from the spec: `timer.in(delay, h)` of the absent `arduino-timer`
library, the scheduler's one-shot registration. -/
def timer_in (delay : Nat) (h : Handler) (s : State) : State :=
  { s with tasks := addTask { handler := h, delay := delay, period := 0 } s.tasks }

/-- Modelled from the spec: `timer.every(period, h)` of the absent
`arduino-timer` library, the scheduler's recurring registration. -/
def timer_every (period : Nat) (h : Handler) (s : State) : State :=
  { s with tasks := addTask { handler := h, delay := period, period := period } s.tasks }

/-- Modelled from the spec: what the scheduler's bulk cancellation leaves in
the table. `cancelAll()` "removes all recurring callbacks (used on stop)"; a
pending one-shot event is destroyed only when it fires, so one-shots from a
just-ended session stay scheduled. -/
def oneShots (ts : List Task) : List Task :=
  ts.filter (fun t => decide (t.period = 0))

/-- Modelled from the spec: `timer.cancel()` of the absent `arduino-timer`
library, the bulk cancellation used on stop: it removes the recurring events
and keeps the pending one-shot events. -/
def timer_cancel (s : State) : State :=
  { s with tasks := oneShots s.tasks }

/-! ## Signal patterns -/

/-- `blinkDisplay`: clear the display and schedule a callback that does
nothing. -/
def blinkDisplay (s : State) : State :=
  let s := { s with display := Display.cleared }
  timer_in DISPLAY_BLINK_DURATION Handler.blinkDone s

/-- `shortSignal`. -/
def shortSignal (s : State) : State :=
  let s := { s with led := true }
  let s := timer_in SHORT_BLINK_DURATION Handler.shortLedOff s
  let s := blinkDisplay s
  if s.soundEnabled then
    let s := { s with buzzer := true }
    timer_in SHORT_BEEP_DURATION Handler.shortBuzzerOff s
  else s

/-- `longSignal`. -/
def longSignal (s : State) : State :=
  let s := { s with led := true }
  let s := timer_in LONG_BLINK_DURATION Handler.longLedOff s
  if s.soundEnabled then
    let s := { s with buzzer := true }
    timer_in LONG_BEEP_DURATION Handler.longBuzzerOff s
  else s

/-- `doubleSignal`: the part that runs at once; the two lambdas it schedules
are `Handler.doubleFirstOff` and `Handler.doubleSecondPulse`. -/
def doubleSignal (s : State) : State :=
  let s := { s with led := true }
  let s := if s.soundEnabled then { s with buzzer := true } else s
  let s := blinkDisplay s
  let s := timer_in SHORT_BLINK_DURATION Handler.doubleFirstOff s
  timer_in DOUBLE_BLINK_INTERVAL Handler.doubleSecondPulse s

/-- Body shared by the two "turn off" lambdas of `doubleSignal`: LED low, and
buzzer low if `soundEnabled` holds when the lambda runs. -/
def doubleOff (s : State) : State :=
  let s := { s with led := false }
  if s.soundEnabled then { s with buzzer := false } else s

/-- Body of the second lambda of `doubleSignal` (the second pulse). -/
def doubleSecondPulse (s : State) : State :=
  let s := { s with led := true }
  let s := if s.soundEnabled then { s with buzzer := true } else s
  let s := timer_in 10 Handler.doubleSecondBlink s
  timer_in SHORT_BLINK_DURATION Handler.doubleSecondOff s

/-! ## Scheduler callbacks -/

/-- `timerCallback`: the second tick. The result is the new state and the
returned `bool` (true keeps the task scheduled). -/
def timerCallback (s : State) : Option (State × Bool) :=
  if !s.isRunning then some (s, false) else
  let s := { s with currentSecond := iadd s.currentSecond 1 }
  let s := { s with displaySecond := iadd s.displaySecond 1 }
  let s := { s with currentTenths := 0 }
  match imod s.currentSecond s.targetSeconds with
  | none => none
  | some r =>
    if r = 0 then
      let s := { s with lastCompletedInterval := s.currentSecond }
      let s := { s with displaySecond := 0 }
      let s := doubleSignal s
      match idiv s.currentSecond s.targetSeconds with
      | none => none
      | some q =>
        let s := serialPrint (SerialLine.intervalReached s.currentSecond q) s
        let s := serialPrint
          (SerialLine.absoluteSecond s.currentSecond s.displaySecond s.currentTenths) s
        some (s, true)
    else
      let s := shortSignal s
      let s := serialPrint
        (SerialLine.absoluteSecond s.currentSecond s.displaySecond s.currentTenths) s
      some (s, true)

/-- `tenthsCallback`: the tenth tick. -/
def tenthsCallback (s : State) : State × Bool :=
  if !s.isRunning then (s, false) else
  let s := { s with currentTenths := iadd s.currentTenths 1 }
  let s := if s.currentTenths > 9 then { s with currentTenths := 0 } else s
  (s, true)

/-- What the scheduler runs when a task fires: the state after the handler and
the handler's return value. -/
def runHandler : Handler → State → Option (State × Bool)
  | Handler.timerCallback, s => timerCallback s
  | Handler.tenthsCallback, s => some (tenthsCallback s)
  | Handler.shortLedOff, s => some ({ s with led := false }, false)
  | Handler.shortBuzzerOff, s => some ({ s with buzzer := false }, false)
  | Handler.longLedOff, s => some ({ s with led := false }, false)
  | Handler.longBuzzerOff, s => some ({ s with buzzer := false }, false)
  | Handler.doubleFirstOff, s => some (doubleOff s, false)
  | Handler.doubleSecondPulse, s => some (doubleSecondPulse s, false)
  | Handler.doubleSecondBlink, s => some (blinkDisplay s, false)
  | Handler.doubleSecondOff, s => some (doubleOff s, false)
  | Handler.blinkDone, s => some (s, false)

/-! ## Session control -/

/-- `startTimer`. -/
def startTimer (s : State) : State :=
  if s.isRunning then s else
  let s := { s with
    isRunning := true, currentSecond := 0, displaySecond := 0, currentTenths := 0,
    lastCompletedInterval := 0, showingFinalResult := false, timerActive := true }
  let s := timer_every 1000 Handler.timerCallback s
  let s := timer_every 100 Handler.tenthsCallback s
  serialPrint (SerialLine.timerStarted s.targetSeconds s.soundEnabled) s

/-- `stopTimer`. -/
def stopTimer (s : State) : Option State :=
  if !s.isRunning then some s else
  match idiv s.currentSecond s.targetSeconds with
  | none => none
  | some q =>
    let finalInterval := imul q s.targetSeconds
    let finalInterval :=
      if finalInterval = 0 ∧ s.currentSecond > 0 then 0 else finalInterval
    let s := { s with
      isRunning := false, timerActive := false, showingFinalResult := true,
      lastCompletedInterval := finalInterval }
    let s := timer_cancel s
    let s := { s with led := false, buzzer := false }
    let s := serialPrint (SerialLine.timerStopped s.currentSecond finalInterval) s
    some { s with currentSecond := 0, displaySecond := 0, currentTenths := 0 }

/-! ## Display -/

/-- `updateDisplay`. -/
def updateDisplay (s : State) : State :=
  let selected : Option (Int × Int) :=
    if s.showingFinalResult then
      if s.displayVisible then some (s.lastCompletedInterval, 0) else none
    else if s.isRunning then some (s.displaySecond, s.currentTenths)
    else some (s.targetSeconds, 0)
  match selected with
  | none => { s with display := Display.cleared }
  | some (displaySeconds, displayTenths) =>
    let displayValue := iadd (imul displaySeconds 100) (imul displayTenths 10)
    { s with display := Display.number displayValue true }

/-! ## Inputs -/

/-- Modelled from the spec: Arduino's `map` is not part of the source. It is
the integer linear interpolation
`(x - in_min) * (out_max - out_min) / (in_max - in_min) + out_min` on `long`;
the sketch calls it only with `in_max - in_min = 1023`. -/
def map (x in_min in_max out_min out_max : Int) : Int :=
  wrap32 (wrap32 (Int.tdiv (wrap32 (wrap32 (x - in_min) * wrap32 (out_max - out_min)))
    (wrap32 (in_max - in_min))) + out_min)

/-- Arduino's `abs` on `int`. -/
def iabs (x : Int) : Int := if x > 0 then x else wrap16 (-x)

/-- The target interval `readPotentiometer` computes from its three
`analogRead` results: `sum / 3` mapped from 0..1023 to 0..60. -/
def potTarget (r1 r2 r3 : Int) : Int :=
  let sum := iadd (iadd (iadd 0 r1) r2) r3
  let rawValue := wrap16 (Int.tdiv sum 3)
  wrap16 (map rawValue 0 1023 0 60)

/-- `readPotentiometer`; `now` is the value of `millis()` and `r1 r2 r3` are
the three `analogRead` results. -/
def readPotentiometer (now : Nat) (r1 r2 r3 : Int) (s : State) : State :=
  if usub now s.lastPotRead < potReadInterval then s else
  let s := { s with lastPotRead := now }
  let newTarget := potTarget r1 r2 r3
  if iabs (isub newTarget s.targetSeconds) > 0 then
    let s := { s with targetSeconds := newTarget }
    if s.showingFinalResult then
      let s := { s with showingFinalResult := false }
      serialPrint (SerialLine.potMoved s.targetSeconds) s
    else s
  else s

/-- `readModeSwitch`; `currentSwitchState` is the level read from
`MODE_SWITCH_PIN` (an `INPUT_PULLUP` pin: false when the switch connects it to
ground). -/
def readModeSwitch (currentSwitchState : Bool) (s : State) : State :=
  if currentSwitchState != s.lastSwitchState then
    let s := { s with soundEnabled := !currentSwitchState }
    let s := serialPrint (SerialLine.modeChanged s.soundEnabled) s
    { s with lastSwitchState := currentSwitchState }
  else s

/-- `resetButtonClick`. -/
def resetButtonClick (now : Nat) (r1 r2 r3 : Int) (s : State) : Option State :=
  let s := serialPrint SerialLine.resetPressed s
  match stopTimer s with
  | none => none
  | some s =>
    let s := { s with
      showingFinalResult := false, displayVisible := true, lastCompletedInterval := 0 }
    let s := readPotentiometer now r1 r2 r3 s
    some (serialPrint SerialLine.completeReset s)

/-- `startStopButtonClick`. -/
def startStopButtonClick (now : Nat) (r1 r2 r3 : Int) (s : State) : Option State :=
  let s := serialPrint SerialLine.startStopPressed s
  if s.showingFinalResult then
    let s := { s with showingFinalResult := false, displayVisible := true }
    let s := readPotentiometer now r1 r2 r3 s
    some (serialPrint SerialLine.returnedToSetting s)
  else if s.isRunning then
    stopTimer (serialPrint SerialLine.stopping s)
  else
    some (startTimer (serialPrint SerialLine.starting s))

/-! ## Runs and observers -/

/-- The state after `n` second ticks (`timerCallback` fired `n` times), if none
of them is undefined. -/
def secondTicks : Nat → State → Option State
  | 0, s => some s
  | n + 1, s =>
    match secondTicks n s with
    | none => none
    | some s' => (timerCallback s').map Prod.fst

/-- The elapsed seconds of the interval completions reported on `Serial`
("EXPOSURE INTERVAL REACHED"), oldest first. -/
def completions (s : State) : List Int :=
  s.serial.filterMap fun l =>
    match l with
    | SerialLine.intervalReached sec _ => some sec
    | _ => none

/-- The state a completing second tick produces. -/
def afterCompletion (s : State) : State :=
  serialPrint (SerialLine.absoluteSecond (s.currentSecond + 1) 0 0)
    (serialPrint
      (SerialLine.intervalReached (s.currentSecond + 1)
        ((s.currentSecond + 1) / s.targetSeconds))
      (doubleSignal { s with
        currentSecond := s.currentSecond + 1, currentTenths := 0,
        displaySecond := 0, lastCompletedInterval := s.currentSecond + 1 }))

/-- The state a non-completing second tick produces. -/
def afterShortTick (s : State) : State :=
  serialPrint
    (SerialLine.absoluteSecond (s.currentSecond + 1) (iadd s.displaySecond 1) 0)
    (shortSignal { s with
      currentSecond := s.currentSecond + 1, currentTenths := 0,
      displaySecond := iadd s.displaySecond 1 })

/-- A session just started from the power-on state with the given target. -/
def freshRun (target : Int) : State :=
  startTimer { initialState with targetSeconds := target }

/-- States reached from `startTimer s0` by second ticks and tenth ticks; the
index counts the second ticks. -/
inductive TickReach (s0 : State) : Nat → State → Prop
  | start : TickReach s0 0 (startTimer s0)
  | second {k : Nat} {s s' : State} {b : Bool} :
      TickReach s0 k s → timerCallback s = some (s', b) → TickReach s0 (k + 1) s'
  | tenth {k : Nat} {s : State} :
      TickReach s0 k s → TickReach s0 k (tenthsCallback s).1

/-- Scenario C: a double pattern starts in the power-on state (sound enabled),
its first pulse ends, and then the mode switch is sampled LOW and HIGH, which
leaves soundEnabled false before the second pulse fires. -/
def mutedMidPattern : State :=
  readModeSwitch true (readModeSwitch false (doubleOff (doubleSignal initialState)))

/-! ## The control loop as events -/

/-- The display-blink part of `loop()`; `now` is the value of `millis()`. -/
def loopBlink (now : Nat) (s : State) : State :=
  if s.showingFinalResult then
    if usub now s.lastDisplayBlink > DISPLAY_BLINK_INTERVAL then
      { s with displayVisible := !s.displayVisible, lastDisplayBlink := now }
    else s
  else { s with displayVisible := true }

/-- The potentiometer part of `loop()`: `readPotentiometer` is called only
when the timer is not running. -/
def loopPot (now : Nat) (r1 r2 r3 : Int) (s : State) : State :=
  if !s.isRunning then readPotentiometer now r1 r2 r3 s else s

/-- What can happen in one pass of `loop()`: a button click reported by
`OneButton`, a potentiometer sample, a mode-switch sample, a handler run by
`timer.tick()`, the blink update, and `updateDisplay`. Each carries the
hardware inputs it reads. Which handlers are due depends on real time, so
`fire` lets any handler run at any moment; this covers every order in which
the scheduler can run them. -/
inductive Event
  | startStopClick (now : Nat) (r1 r2 r3 : Int)
  | resetClick (now : Nat) (r1 r2 r3 : Int)
  | potSample (now : Nat) (r1 r2 r3 : Int)
  | modeSample (level : Bool)
  | fire (h : Handler)
  | blink (now : Nat)
  | display
  deriving DecidableEq, Repr

/-- The analog reads carried by an event are 10-bit values, 0..1023. -/
def Event.inRange : Event → Bool
  | Event.startStopClick _ r1 r2 r3 =>
    decide (0 ≤ r1 ∧ r1 ≤ 1023 ∧ 0 ≤ r2 ∧ r2 ≤ 1023 ∧ 0 ≤ r3 ∧ r3 ≤ 1023)
  | Event.resetClick _ r1 r2 r3 =>
    decide (0 ≤ r1 ∧ r1 ≤ 1023 ∧ 0 ≤ r2 ∧ r2 ≤ 1023 ∧ 0 ≤ r3 ∧ r3 ≤ 1023)
  | Event.potSample _ r1 r2 r3 =>
    decide (0 ≤ r1 ∧ r1 ≤ 1023 ∧ 0 ≤ r2 ∧ r2 ≤ 1023 ∧ 0 ≤ r3 ∧ r3 ≤ 1023)
  | _ => true

/-- The state after one event, if it is defined. -/
def step : Event → State → Option State
  | Event.startStopClick now r1 r2 r3, s => startStopButtonClick now r1 r2 r3 s
  | Event.resetClick now r1 r2 r3, s => resetButtonClick now r1 r2 r3 s
  | Event.potSample now r1 r2 r3, s => some (loopPot now r1 r2 r3 s)
  | Event.modeSample level, s => some (readModeSwitch level s)
  | Event.fire h, s => (runHandler h s).map Prod.fst
  | Event.blink now, s => some (loopBlink now s)
  | Event.display, s => some (updateDisplay s)

/-- States the sketch reaches from power-on (the initial values of the globals)
by events whose analog reads are in range. -/
inductive Reach : State → Prop
  | init : Reach initialState
  | next {s s' : State} (e : Event) :
      Reach s → e.inRange = true → step e s = some s' → Reach s'

/-- The state after a list of events, applied in order, if every one of them
is defined. -/
def runEvents : List Event → State → Option State
  | [], s => some s
  | e :: es, s =>
    match step e s with
    | none => none
    | some s' => runEvents es s'

/-- Start of the long session of Scenario "target 60, 120 second ticks, stop":
the potentiometer is sampled at 1023 (target 60) 100 ms after power-on and the
start/stop button is clicked. -/
def longSessionStart : State :=
  startTimer (serialPrint SerialLine.starting (serialPrint SerialLine.startStopPressed
    (readPotentiometer 100 1023 1023 1023 initialState)))

/-- The recurring events in a task table. -/
def recurring (ts : List Task) : List Task :=
  ts.filter (fun t => decide (t.period ≠ 0))

/-- A session with target 10 after its first second tick (short pattern, three
one-shot events pending). -/
def tickedRun : State :=
  (secondTicks 1 (freshRun 10)).getD initialState

/-- Potentiometer sampled at 200 (target 11), start click, one second tick. -/
def tickedEvents : List Event :=
  [Event.potSample 100 200 200 200, Event.startStopClick 200 200 200 200,
   Event.fire Handler.timerCallback]

/-- The Running state reached by `tickedEvents`. -/
def tickedReachable : State :=
  (runEvents tickedEvents initialState).getD initialState

/-- Facts about the session fields that hold in every reachable state. -/
def SessionInv (s : State) : Prop :=
  (0 ≤ s.targetSeconds ∧ s.targetSeconds ≤ 60) ∧
  (0 ≤ s.currentTenths ∧ s.currentTenths ≤ 9) ∧
  (-32768 ≤ s.currentSecond ∧ s.currentSecond ≤ 32767) ∧
  ¬ (s.isRunning = true ∧ s.showingFinalResult = true) ∧
  (s.isRunning = false →
    s.currentSecond = 0 ∧ s.displaySecond = 0 ∧ s.currentTenths = 0) ∧
  (s.isRunning = true → s.targetSeconds = 0 → s.currentSecond = 0) ∧
  (s.isRunning = true → 0 ≤ s.currentSecond →
    s.displaySecond = s.currentSecond % s.targetSeconds)

/-- The mode switch sampled at the given levels, one `readModeSwitch` call per
level, in order. -/
def modeSamples (levels : List Bool) (s : State) : State :=
  levels.foldl (fun st level => readModeSwitch level st) s

/-- A complete double pattern: `doubleSignal`, then its callbacks in the order
they fall due (first off at 50 ms, second pulse at 100 ms, the delayed
`blinkDisplay` 10 ms later, second off 50 ms after the second pulse), with the
mode switch sampled at the given levels between them. -/
def doublePatternRun (l1 l2 l3 l4 : List Bool) (s : State) : State :=
  let s := doubleSignal s
  let s := modeSamples l1 s
  let s := doubleOff s
  let s := modeSamples l2 s
  let s := doubleSecondPulse s
  let s := modeSamples l3 s
  let s := blinkDisplay s
  let s := modeSamples l4 s
  doubleOff s

/-! ## The scheduler in time

`Reach` lets any handler run at any moment and never removes a task, which is
sound for facts about the session fields but says nothing about how full the
scheduler table can get. The definitions below follow the Event Scheduler of
the spec more closely: a task carries the time left until it is due, time
passes in steps of any length, and a handler runs only inside `timer.tick()`,
for a task that is due. -/

/-- Modelled from the spec: `ms` milliseconds pass without a call of
`timer.tick()`. The `delay` of a pending task is the time left until it is
due, so every task is `ms` closer to being due; a task that is already due
stays due. -/
def elapse (ms : Nat) (s : State) : State :=
  { s with tasks := s.tasks.map (fun t => { t with delay := t.delay - ms }) }

/-- Modelled from the spec: what `timer.tick()` does with the first due task
of the table once its handler has returned `keep`: a recurring task whose
handler returned true (the sketch's "Continue timer") is re-armed with its
period, any other fired task is destroyed. -/
def settle (keep : Bool) : List Task → List Task
  | [] => []
  | t :: ts =>
    if t.delay = 0 then
      if keep = true ∧ t.period ≠ 0 then { t with delay := t.period } :: ts else ts
    else t :: settle keep ts

/-- Modelled from the spec: the loop of `timer.tick()`: as long as a task is
due, run the handler of the first due task (registration order) and settle the
task. The first argument bounds the number of handlers run. -/
def tickLoop : Nat → State → Option State
  | 0, s => some s
  | n + 1, s =>
    match s.tasks.find? (fun t => decide (t.delay = 0)) with
    | none => some s
    | some t =>
      match runHandler t.handler s with
      | none => none
      | some (s', keep) => tickLoop n { s' with tasks := settle keep s'.tasks }

/-- Modelled from the spec: `timer.tick()` of the absent `arduino-timer`
library: it "fires all due callbacks", and "if multiple are due in the same
tick, firing order is the order of registration among those due". A callback
registered during the call is not due (every delay and period of the sketch is
positive), so at most as many handlers run as tasks are pending when the call
starts. The result is undefined when a handler is (a second tick with target
0). -/
def timer_tick (s : State) : Option State :=
  tickLoop s.tasks.length s

/-- What can happen between two observations of the sketch when time is taken
into account: `ms` milliseconds pass, `loop()` calls `timer.tick()`, or one of
the other parts of `loop()` runs (an `Event` that is not `fire`). -/
inductive Moment
  | elapse (ms : Nat)
  | tick
  | act (e : Event)
  deriving DecidableEq, Repr

/-- A `fire` event: a handler run outside `timer.tick()`. -/
def Event.isFire : Event → Bool
  | Event.fire _ => true
  | _ => false

/-- The analog reads of a moment are in range, and handlers run only inside
`timer.tick()`. -/
def Moment.inRange : Moment → Bool
  | Moment.act e => e.inRange && !e.isFire
  | _ => true

/-- The state after one moment, if it is defined. -/
def timedStep : Moment → State → Option State
  | Moment.elapse ms, s => some (elapse ms s)
  | Moment.tick, s => timer_tick s
  | Moment.act e, s => step e s

/-- States the sketch reaches from power-on (the initial values of the globals)
when time passes in steps of any length, `timer.tick()` is called at any of
these points and the other parts of `loop()` run in any order with analog
reads in range. -/
inductive TimedReach : State → Prop
  | init : TimedReach initialState
  | next {s s' : State} (m : Moment) :
      TimedReach s → m.inRange = true → timedStep m s = some s' → TimedReach s'

/-- The state after a list of moments, applied in order, if every one of them
is defined. -/
def runMoments : List Moment → State → Option State
  | [], s => some s
  | m :: ms, s =>
    match timedStep m s with
    | none => none
    | some s' => runMoments ms s'

/-- The task has the given handler. -/
def hasHandler (h : Handler) (t : Task) : Bool := decide (t.handler = h)

/-- The task is due and has the given handler. -/
def dueWith (h : Handler) (t : Task) : Bool := decide (t.handler = h ∧ t.delay = 0)

/-- The one-shot tasks a second tick registers besides the display blink: the
turn-off callbacks of the short pattern, the first turn-off callback and the
second pulse of the double pattern. -/
def isSignalTask (t : Task) : Bool :=
  decide (t.handler = Handler.shortLedOff ∨ t.handler = Handler.shortBuzzerOff ∨
    t.handler = Handler.doubleFirstOff ∨ t.handler = Handler.doubleSecondPulse)

/-- The task is a `blinkDone` that is due later than `d` ms from now. -/
def blinkAfter (d : Nat) (t : Task) : Bool :=
  decide (t.handler = Handler.blinkDone ∧ d < t.delay)

/-- The registrations the sketch makes: which period and which delay a task of
each handler can have. -/
def TaskOk (t : Task) : Prop :=
  match t.handler with
  | Handler.timerCallback => t.period = 1000 ∧ t.delay ≤ 1000
  | Handler.tenthsCallback => t.period = 100 ∧ t.delay ≤ 100
  | Handler.shortLedOff => t.period = 0 ∧ t.delay ≤ 50
  | Handler.shortBuzzerOff => t.period = 0 ∧ t.delay ≤ 30
  | Handler.longLedOff => False
  | Handler.longBuzzerOff => False
  | Handler.doubleFirstOff => t.period = 0 ∧ t.delay ≤ 50
  | Handler.doubleSecondPulse => t.period = 0 ∧ t.delay ≤ 100
  | Handler.doubleSecondBlink => t.period = 0 ∧ t.delay ≤ 10
  | Handler.doubleSecondOff => t.period = 0 ∧ t.delay ≤ 50
  | Handler.blinkDone => t.period = 0 ∧ t.delay ≤ 100

/-- The tasks a handler can leave in the table when it runs: a part (what the
table has room for) of the registrations it requests. -/
def Spawn (h : Handler) (new : List Task) : Prop :=
  match h with
  | Handler.timerCallback =>
    new.Sublist
      [{ handler := Handler.shortLedOff, delay := 50, period := 0 },
       { handler := Handler.blinkDone, delay := 100, period := 0 },
       { handler := Handler.shortBuzzerOff, delay := 30, period := 0 }] ∨
    new.Sublist
      [{ handler := Handler.blinkDone, delay := 100, period := 0 },
       { handler := Handler.doubleFirstOff, delay := 50, period := 0 },
       { handler := Handler.doubleSecondPulse, delay := 100, period := 0 }]
  | Handler.doubleSecondPulse =>
    new.Sublist
      [{ handler := Handler.doubleSecondBlink, delay := 10, period := 0 },
       { handler := Handler.doubleSecondOff, delay := 50, period := 0 }]
  | Handler.doubleSecondBlink =>
    new.Sublist [{ handler := Handler.blinkDone, delay := 100, period := 0 }]
  | _ => new = []

/-- Facts about the scheduler table that hold whenever `loop()` is between two
of its parts. In this order: every task has the shape of a registration of the
sketch; only one-shot tasks are pending while no session runs; at most one
second-tick task, two signal tasks, one second pulse, one of each callback of
a second pulse, and three display blinks (counting a pending delayed blink)
are pending; a signal task is due no later than the second tick; a callback of
a second pulse is due no later than a pending second pulse; of the display
blinks that are due after a pending second pulse (counting a pending delayed
blink) there is at most one, and of those due after the second tick at most
two. -/
def SchedInv (s : State) : Prop :=
  (∀ t ∈ s.tasks, TaskOk t) ∧
  (s.isRunning = false → ∀ t ∈ s.tasks, t.period = 0) ∧
  s.tasks.countP (hasHandler Handler.timerCallback) ≤ 1 ∧
  s.tasks.countP isSignalTask ≤ 2 ∧
  s.tasks.countP (hasHandler Handler.doubleSecondPulse) ≤ 1 ∧
  s.tasks.countP (hasHandler Handler.doubleSecondBlink) ≤ 1 ∧
  s.tasks.countP (hasHandler Handler.doubleSecondOff) ≤ 1 ∧
  s.tasks.countP (hasHandler Handler.blinkDone) +
    s.tasks.countP (hasHandler Handler.doubleSecondBlink) ≤ 3 ∧
  (∀ r ∈ s.tasks, r.handler = Handler.timerCallback →
    ∀ g ∈ s.tasks, isSignalTask g = true → g.delay ≤ r.delay) ∧
  (∀ p ∈ s.tasks, p.handler = Handler.doubleSecondPulse →
    ∀ c ∈ s.tasks,
      c.handler = Handler.doubleSecondBlink ∨ c.handler = Handler.doubleSecondOff →
      c.delay ≤ p.delay) ∧
  (∀ p ∈ s.tasks, p.handler = Handler.doubleSecondPulse →
    s.tasks.countP (blinkAfter p.delay) +
      s.tasks.countP (hasHandler Handler.doubleSecondBlink) ≤ 1) ∧
  (∀ r ∈ s.tasks, r.handler = Handler.timerCallback →
    s.tasks.countP (blinkAfter r.delay) +
      s.tasks.countP (hasHandler Handler.doubleSecondBlink) ≤ 2)

/-- Potentiometer sampled at 200 (target 11), start click, 1000 ms pass, a
call of `timer.tick()` (the first second tick and tenth tick fire), 20 ms
pass, a stop click and a click that dismisses the result: the session is Idle
and the three one-shot events of the short pattern are still pending. -/
def leftoverMoments : List Moment :=
  [Moment.act (Event.potSample 100 200 200 200),
   Moment.act (Event.startStopClick 200 200 200 200),
   Moment.elapse 1000, Moment.tick, Moment.elapse 20,
   Moment.act (Event.startStopClick 1500 200 200 200),
   Moment.act (Event.startStopClick 2000 200 200 200)]

/-- The Idle state reached by `leftoverMoments`. -/
def idleWithLeftovers : State :=
  (runMoments leftoverMoments initialState).getD initialState

/-! ## Arithmetic lemmas -/

theorem wrap16_of_range {x : Int} (h1 : -32768 ≤ x) (h2 : x ≤ 32767) : wrap16 x = x := by
  unfold wrap16
  omega

theorem wrap32_of_range {x : Int} (h1 : -2147483648 ≤ x) (h2 : x ≤ 2147483647) :
    wrap32 x = x := by
  unfold wrap32
  omega

theorem wrap16_idem (x : Int) : wrap16 (wrap16 x) = wrap16 x := by
  unfold wrap16
  omega

theorem imod_pos {a b : Int} (ha : 0 ≤ a) (hb : 0 < b) : imod a b = some (a % b) := by
  unfold imod
  rw [if_neg (by omega), Int.tmod_eq_emod ha (by omega)]

theorem ediv_bounds {a b : Int} (ha : 0 ≤ a) (hb : 0 < b) : 0 ≤ a / b ∧ a / b ≤ a := by
  constructor
  · exact Int.ediv_nonneg ha (by omega)
  · exact Int.ediv_le_self b ha

theorem idiv_pos {a b : Int} (ha : 0 ≤ a) (ha2 : a ≤ 32767) (hb : 0 < b) :
    idiv a b = some (a / b) := by
  have hq := ediv_bounds ha hb
  unfold idiv
  rw [if_neg (by omega), Int.tdiv_eq_ediv ha (by omega), wrap16_of_range (by omega) (by omega)]

theorem emod_le_of_nonneg {n T : Int} (hn : 0 ≤ n) (hT : 0 < T) : n % T ≤ n := by
  have hdec : n % T + T * (n / T) = n := Int.emod_add_ediv n T
  have hq : 0 ≤ T * (n / T) := Int.mul_nonneg (by omega) (Int.ediv_nonneg hn (by omega))
  omega

theorem succ_emod_ediv (n T : Int) (hT : 0 < T) :
    ((n + 1) % T = 0 → (n + 1) / T * T = n + 1) ∧
    ((n + 1) % T ≠ 0 → (n + 1) % T = n % T + 1 ∧ (n + 1) / T = n / T) := by
  have hr0 : 0 ≤ n % T := Int.emod_nonneg n (by omega)
  have hr1 : n % T < T := Int.emod_lt_of_pos n hT
  have hdec : n % T + T * (n / T) = n := Int.emod_add_ediv n T
  constructor
  · intro h
    exact Int.ediv_mul_cancel (Int.dvd_of_emod_eq_zero h)
  · intro h
    by_cases hlt : n % T + 1 < T
    · have hu := (Int.ediv_emod_unique (a := n + 1) (r := n % T + 1) (q := n / T) hT).2
        ⟨by omega, by omega, hlt⟩
      exact ⟨hu.2, hu.1⟩
    · exfalso
      have hu := (Int.ediv_emod_unique (a := n + 1) (r := 0) (q := n / T + 1) hT).2
        ⟨by rw [Int.mul_add]; omega, by omega, hT⟩
      exact h hu.2

theorem displayValue_tenths_zero (x : Int) : iadd (imul x 100) (imul 0 10) = imul x 100 := by
  unfold iadd imul
  have h0 : wrap16 (0 * 10) = 0 := by decide
  rw [h0, Int.add_zero, wrap16_idem]

/-! ## Effects of the single operations -/

theorem addTask_of_lt (t : Task) (ts : List Task) (h : ts.length < MAX_TASKS) :
    addTask t ts = ts ++ [t] := by
  simp [addTask, h]

theorem timerCallback_completion (s : State)
    (hrun : s.isRunning = true) (hT1 : 1 ≤ s.targetSeconds)
    (h0 : 0 ≤ s.currentSecond) (hmax : s.currentSecond < 32767)
    (hc : (s.currentSecond + 1) % s.targetSeconds = 0) :
    timerCallback s = some (afterCompletion s, true) := by
  have hcs : iadd s.currentSecond 1 = s.currentSecond + 1 :=
    wrap16_of_range (by omega) (by omega)
  have hmod := imod_pos (a := s.currentSecond + 1) (b := s.targetSeconds) (by omega) (by omega)
  have hdiv := idiv_pos (a := s.currentSecond + 1) (b := s.targetSeconds) (by omega)
    (by omega) (by omega)
  simp only [timerCallback, hrun, hcs, hmod, hc]
  cases hs : s.soundEnabled <;>
    simp [doubleSignal, blinkDisplay, timer_in, serialPrint, hdiv, hs, afterCompletion, hrun]

theorem timerCallback_short (s : State)
    (hrun : s.isRunning = true) (hT1 : 1 ≤ s.targetSeconds)
    (h0 : 0 ≤ s.currentSecond) (hmax : s.currentSecond < 32767)
    (hc : (s.currentSecond + 1) % s.targetSeconds ≠ 0) :
    timerCallback s = some (afterShortTick s, true) := by
  have hcs : iadd s.currentSecond 1 = s.currentSecond + 1 :=
    wrap16_of_range (by omega) (by omega)
  have hmod := imod_pos (a := s.currentSecond + 1) (b := s.targetSeconds) (by omega) (by omega)
  simp only [timerCallback, hrun, hcs, hmod]
  cases hs : s.soundEnabled <;>
    simp [shortSignal, blinkDisplay, timer_in, serialPrint, hs, afterShortTick, hc, hrun]

theorem afterCompletion_fields (s : State) :
    (afterCompletion s).currentSecond = s.currentSecond + 1 ∧
    (afterCompletion s).lastCompletedInterval = s.currentSecond + 1 ∧
    (afterCompletion s).displaySecond = 0 ∧
    (afterCompletion s).currentTenths = 0 ∧
    (afterCompletion s).targetSeconds = s.targetSeconds ∧
    (afterCompletion s).isRunning = s.isRunning ∧
    (afterCompletion s).showingFinalResult = s.showingFinalResult ∧
    completions (afterCompletion s) = completions s ++ [s.currentSecond + 1] := by
  cases hs : s.soundEnabled <;>
    simp [afterCompletion, completions, serialPrint, doubleSignal, blinkDisplay, timer_in, hs,
      List.filterMap_append]

theorem afterShortTick_fields (s : State) :
    (afterShortTick s).currentSecond = s.currentSecond + 1 ∧
    (afterShortTick s).lastCompletedInterval = s.lastCompletedInterval ∧
    (afterShortTick s).displaySecond = iadd s.displaySecond 1 ∧
    (afterShortTick s).currentTenths = 0 ∧
    (afterShortTick s).targetSeconds = s.targetSeconds ∧
    (afterShortTick s).isRunning = s.isRunning ∧
    (afterShortTick s).showingFinalResult = s.showingFinalResult ∧
    completions (afterShortTick s) = completions s := by
  cases hs : s.soundEnabled <;>
    simp [afterShortTick, completions, serialPrint, shortSignal, blinkDisplay, timer_in, hs,
      List.filterMap_append]

theorem timerCallback_running (s : State) (hrun : s.isRunning = true)
    (hT : s.targetSeconds ≠ 0) :
    ∃ s', timerCallback s = some (s', true) ∧
      s'.isRunning = true ∧ s'.targetSeconds = s.targetSeconds ∧
      s'.showingFinalResult = s.showingFinalResult ∧
      s'.soundEnabled = s.soundEnabled ∧
      s'.currentSecond = iadd s.currentSecond 1 ∧ s'.currentTenths = 0 ∧
      s'.displaySecond =
        (if Int.tmod (iadd s.currentSecond 1) s.targetSeconds = 0 then 0
         else iadd s.displaySecond 1) ∧
      s'.lastCompletedInterval =
        (if Int.tmod (iadd s.currentSecond 1) s.targetSeconds = 0 then iadd s.currentSecond 1
         else s.lastCompletedInterval) := by
  by_cases hc : Int.tmod (iadd s.currentSecond 1) s.targetSeconds = 0 <;>
    cases hs : s.soundEnabled <;>
    simp [timerCallback, imod, idiv, hrun, hT, hc, hs, doubleSignal, shortSignal, blinkDisplay,
      timer_in, serialPrint]

theorem timerCallback_completion_resets (s s' : State) (b : Bool)
    (h : timerCallback s = some (s', b)) (hc : completions s' ≠ completions s) :
    s'.displaySecond = 0 ∧ s'.lastCompletedInterval = s'.currentSecond := by
  unfold timerCallback at h
  cases hr : s.isRunning
  · simp [hr] at h
    rw [h.1] at hc
    exact absurd rfl hc
  · by_cases hT : s.targetSeconds = 0
    · simp [hr, imod, hT] at h
    · by_cases hm : Int.tmod (iadd s.currentSecond 1) s.targetSeconds = 0
      · cases hs : s.soundEnabled <;>
          simp [hr, imod, idiv, hT, hm, doubleSignal, blinkDisplay, timer_in, serialPrint, hs]
            at h <;>
          (obtain ⟨h1, -⟩ := h; subst h1; simp)
      · exfalso
        apply hc
        cases hs : s.soundEnabled <;>
          simp [hr, imod, idiv, hT, hm, shortSignal, blinkDisplay, timer_in, serialPrint, hs]
            at h <;>
          (obtain ⟨h1, -⟩ := h; subst h1; simp [completions, List.filterMap_append])

theorem timerCallback_displayVisible (s s' : State) (b : Bool)
    (h : timerCallback s = some (s', b)) : s'.displayVisible = s.displayVisible := by
  unfold timerCallback at h
  cases hr : s.isRunning
  · simp [hr] at h
    rw [h.1]
  · by_cases hT : s.targetSeconds = 0
    · simp [hr, imod, hT] at h
    · by_cases hm : Int.tmod (iadd s.currentSecond 1) s.targetSeconds = 0 <;>
        cases hs : s.soundEnabled <;>
        simp [hr, imod, idiv, hT, hm, doubleSignal, shortSignal, blinkDisplay, timer_in,
          serialPrint, hs] at h <;>
        (obtain ⟨h1, -⟩ := h; subst h1; rfl)

theorem tenthsCallback_fields (s : State) :
    (tenthsCallback s).1.isRunning = s.isRunning ∧
    (tenthsCallback s).1.targetSeconds = s.targetSeconds ∧
    (tenthsCallback s).1.currentSecond = s.currentSecond ∧
    (tenthsCallback s).1.displaySecond = s.displaySecond ∧
    (tenthsCallback s).1.lastCompletedInterval = s.lastCompletedInterval ∧
    (tenthsCallback s).1.showingFinalResult = s.showingFinalResult ∧
    (tenthsCallback s).1.soundEnabled = s.soundEnabled := by
  unfold tenthsCallback
  cases hr : s.isRunning
  · simp [hr]
  · by_cases h : iadd s.currentTenths 1 > 9 <;> simp [h, hr]

theorem startTimer_idle (s0 : State) (hidle : s0.isRunning = false) :
    (startTimer s0).isRunning = true ∧ (startTimer s0).targetSeconds = s0.targetSeconds ∧
    (startTimer s0).currentSecond = 0 ∧ (startTimer s0).displaySecond = 0 ∧
    (startTimer s0).currentTenths = 0 ∧ (startTimer s0).lastCompletedInterval = 0 ∧
    (startTimer s0).showingFinalResult = false ∧
    (startTimer s0).soundEnabled = s0.soundEnabled := by
  simp [startTimer, hidle, timer_every, serialPrint]

theorem stopTimer_running (s : State) (hrun : s.isRunning = true) (hT : s.targetSeconds ≠ 0) :
    ∃ s', stopTimer s = some s' ∧
      s'.lastCompletedInterval = imul (wrap16 (Int.tdiv s.currentSecond s.targetSeconds))
        s.targetSeconds ∧
      s'.isRunning = false ∧ s'.showingFinalResult = true ∧ s'.tasks = oneShots s.tasks ∧
      s'.led = false ∧ s'.buzzer = false ∧
      s'.currentSecond = 0 ∧ s'.displaySecond = 0 ∧ s'.currentTenths = 0 ∧
      s'.targetSeconds = s.targetSeconds ∧ s'.soundEnabled = s.soundEnabled := by
  by_cases h : imul (wrap16 (Int.tdiv s.currentSecond s.targetSeconds)) s.targetSeconds = 0
  · simp [stopTimer, idiv, hrun, hT, timer_cancel, serialPrint, h]
  · simp [stopTimer, idiv, hrun, hT, timer_cancel, serialPrint, h]

theorem stopTimer_displayVisible (s s' : State) (h : stopTimer s = some s') :
    s'.displayVisible = s.displayVisible := by
  unfold stopTimer at h
  cases hr : s.isRunning
  · simp [hr] at h
    rw [h]
  · by_cases hT : s.targetSeconds = 0
    · simp [hr, idiv, hT] at h
    · simp [hr, idiv, hT, timer_cancel, serialPrint] at h
      subst h
      rfl

/-! ## Runs of second ticks -/

theorem secondTicks_succ (n : Nat) (s0 s : State) (h : secondTicks n s0 = some s) :
    secondTicks (n + 1) s0 = (timerCallback s).map Prod.fst := by
  simp [secondTicks, h]

/-- The session fields after `n` second ticks of a just started session, as
long as the elapsed count fits in an `int`. -/
theorem secondTicks_fields (s0 : State) (hrun : s0.isRunning = true)
    (hT : 1 ≤ s0.targetSeconds) (hc0 : s0.currentSecond = 0) (hd0 : s0.displaySecond = 0)
    (hl0 : s0.lastCompletedInterval = 0) (n : Nat) (hn : n ≤ 32767) :
    ∃ s, secondTicks n s0 = some s ∧ s.isRunning = true ∧
      s.targetSeconds = s0.targetSeconds ∧
      s.showingFinalResult = s0.showingFinalResult ∧
      s.soundEnabled = s0.soundEnabled ∧
      s.currentSecond = n ∧
      s.displaySecond = (n : Int) % s0.targetSeconds ∧
      s.lastCompletedInterval = (n : Int) / s0.targetSeconds * s0.targetSeconds := by
  induction n with
  | zero =>
    exact ⟨s0, rfl, hrun, rfl, rfl, rfl, by simpa using hc0, by simpa using hd0, by simpa using hl0⟩
  | succ k ih =>
    obtain ⟨s, hs, hr, ht, hf, hse, hc, hd, hl⟩ := ih (by omega)
    obtain ⟨s', hs', hr', ht', hf', hse', hc', -, hd', hl'⟩ :=
      timerCallback_running s hr (by omega)
    have hk : iadd s.currentSecond 1 = (k : Int) + 1 := by
      rw [hc]; exact wrap16_of_range (by omega) (by omega)
    have htm : Int.tmod ((k : Int) + 1) s.targetSeconds = ((k : Int) + 1) % s0.targetSeconds := by
      rw [ht]; exact Int.tmod_eq_emod (by omega) (by omega)
    have hsd := succ_emod_ediv (k : Int) s0.targetSeconds (by omega)
    have hr0 : 0 ≤ (k : Int) % s0.targetSeconds := Int.emod_nonneg _ (by omega)
    have hr1 : (k : Int) % s0.targetSeconds ≤ k := emod_le_of_nonneg (by omega) (by omega)
    refine ⟨s', ?_, hr', ht'.trans ht, hf'.trans hf, hse'.trans hse, ?_, ?_, ?_⟩
    · rw [secondTicks_succ k s0 s hs, hs']; rfl
    · rw [hc', hk]; push_cast; rfl
    · rw [hd', hk, htm]
      push_cast
      by_cases hz : ((k : Int) + 1) % s0.targetSeconds = 0
      · rw [if_pos hz, hz]
      · rw [if_neg hz, (hsd.2 hz).1, hd]
        exact wrap16_of_range (by omega) (by omega)
    · rw [hl', hk, htm]
      push_cast
      by_cases hz : ((k : Int) + 1) % s0.targetSeconds = 0
      · rw [if_pos hz, hsd.1 hz]
      · rw [if_neg hz, (hsd.2 hz).2, hl]

theorem secondTicks_displayVisible (n : Nat) (s0 s : State)
    (h : secondTicks n s0 = some s) : s.displayVisible = s0.displayVisible := by
  induction n generalizing s with
  | zero =>
    simp [secondTicks] at h
    rw [h]
  | succ k ih =>
    cases hk : secondTicks k s0 with
    | none => simp [secondTicks, hk] at h
    | some s1 =>
      rw [secondTicks_succ k _ s1 hk] at h
      cases ht : timerCallback s1 with
      | none => simp [ht] at h
      | some r =>
        obtain ⟨s2, b⟩ := r
        simp [ht] at h
        subst h
        exact (timerCallback_displayVisible s1 s2 b ht).trans (ih s1 hk)

theorem tickReach_secondTicks (s0 : State) (n : Nat) (s : State)
    (h : secondTicks n (startTimer s0) = some s) : TickReach s0 n s := by
  induction n generalizing s with
  | zero =>
    simp [secondTicks] at h
    subst h
    exact TickReach.start
  | succ k ih =>
    cases hk : secondTicks k (startTimer s0) with
    | none => simp [secondTicks, hk] at h
    | some s1 =>
      rw [secondTicks_succ k _ s1 hk] at h
      cases ht : timerCallback s1 with
      | none => simp [ht] at h
      | some r =>
        obtain ⟨s2, b⟩ := r
        simp [ht] at h
        subst h
        exact TickReach.second (ih s1 hk) ht

/-- Session fields of every state reached by at most 32767 second ticks. -/
theorem tickReach_fields (s0 : State) (hidle : s0.isRunning = false)
    (hT : 1 ≤ s0.targetSeconds) (k : Nat) (s : State) (hreach : TickReach s0 k s)
    (hk : k ≤ 32767) :
    s.isRunning = true ∧ s.targetSeconds = s0.targetSeconds ∧
      s.currentSecond = k ∧
      s.displaySecond = (k : Int) % s0.targetSeconds ∧
      s.lastCompletedInterval = (k : Int) / s0.targetSeconds * s0.targetSeconds := by
  induction hreach with
  | start =>
    obtain ⟨hr, ht, hc, hd, -, hl, -, -⟩ := startTimer_idle s0 hidle
    exact ⟨hr, ht, by simpa using hc, by simpa using hd, by simpa using hl⟩
  | @second j s s' b _ hstep ih =>
    obtain ⟨hr, ht, hc, hd, hl⟩ := ih (by omega)
    obtain ⟨s2, hs2, hr', ht', -, -, hc', -, hd', hl'⟩ :=
      timerCallback_running s hr (by omega)
    rw [hstep] at hs2
    have hss : s' = s2 := (Prod.mk.inj (Option.some.inj hs2)).1
    subst hss
    have hk1 : iadd s.currentSecond 1 = (j : Int) + 1 := by
      rw [hc]; exact wrap16_of_range (by omega) (by omega)
    have htm : Int.tmod ((j : Int) + 1) s.targetSeconds = ((j : Int) + 1) % s0.targetSeconds := by
      rw [ht]; exact Int.tmod_eq_emod (by omega) (by omega)
    have hsd := succ_emod_ediv (j : Int) s0.targetSeconds (by omega)
    have hr0 : 0 ≤ (j : Int) % s0.targetSeconds := Int.emod_nonneg _ (by omega)
    have hr1 : (j : Int) % s0.targetSeconds ≤ j := emod_le_of_nonneg (by omega) (by omega)
    refine ⟨hr', ht'.trans ht, ?_, ?_, ?_⟩
    · rw [hc', hk1]; push_cast; rfl
    · rw [hd', hk1, htm]
      push_cast
      by_cases hz : ((j : Int) + 1) % s0.targetSeconds = 0
      · rw [if_pos hz, hz]
      · rw [if_neg hz, (hsd.2 hz).1, hd]
        exact wrap16_of_range (by omega) (by omega)
    · rw [hl', hk1, htm]
      push_cast
      by_cases hz : ((j : Int) + 1) % s0.targetSeconds = 0
      · rw [if_pos hz, hsd.1 hz]
      · rw [if_neg hz, (hsd.2 hz).2, hl]
  | @tenth j s _ ih =>
    obtain ⟨hr, ht, hc, hd, hl⟩ := ih hk
    obtain ⟨h1, h2, h3, h4, h5, -, -⟩ := tenthsCallback_fields s
    exact ⟨h1.trans hr, h2.trans ht, h3.trans hc, h4.trans hd, h5.trans hl⟩

/-! ## Second tick and interval completion -/

/-- C1: in a Running session with target in [1,60] and an elapsed count that is
non-negative and below the largest `int`, one second tick returns true and
fires an interval completion (double pattern, reported on Serial,
lastCompletedInterval set to the incremented count, displaySecond reset to 0)
if and only if the incremented count is positive and divisible by the target;
in every other case it runs the short pattern and leaves lastCompletedInterval
unchanged. -/
theorem second_tick_completion_iff (s : State)
    (hrun : s.isRunning = true) (hT1 : 1 ≤ s.targetSeconds) (hT60 : s.targetSeconds ≤ 60)
    (h0 : 0 ≤ s.currentSecond) (hmax : s.currentSecond < 32767) :
    ∃ s', timerCallback s = some (s', true) ∧
      s'.currentSecond = s.currentSecond + 1 ∧
      ((0 < s.currentSecond + 1 ∧ (s.currentSecond + 1) % s.targetSeconds = 0) ↔
        (s' = afterCompletion s ∧
          s'.lastCompletedInterval = s.currentSecond + 1 ∧
          s'.displaySecond = 0 ∧
          completions s' = completions s ++ [s.currentSecond + 1])) ∧
      (¬ (0 < s.currentSecond + 1 ∧ (s.currentSecond + 1) % s.targetSeconds = 0) ↔
        (s' = afterShortTick s ∧
          s'.lastCompletedInterval = s.lastCompletedInterval ∧
          completions s' = completions s)) := by
  have hT60' := hT60
  by_cases hc : (s.currentSecond + 1) % s.targetSeconds = 0
  · have hf := afterCompletion_fields s
    refine ⟨afterCompletion s, timerCallback_completion s hrun hT1 h0 hmax hc, hf.1, ?_, ?_⟩
    · constructor
      · intro _
        exact ⟨rfl, hf.2.1, hf.2.2.1, hf.2.2.2.2.2.2.2⟩
      · intro _
        exact ⟨by omega, hc⟩
    · constructor
      · intro h
        exact absurd ⟨by omega, hc⟩ h
      · intro h
        have h3 := h.2.2
        rw [hf.2.2.2.2.2.2.2] at h3
        simp at h3
  · have hf := afterShortTick_fields s
    refine ⟨afterShortTick s, timerCallback_short s hrun hT1 h0 hmax hc, hf.1, ?_, ?_⟩
    · constructor
      · intro h
        exact absurd h.2 hc
      · intro h
        have h3 := h.2.2.2
        rw [hf.2.2.2.2.2.2.2] at h3
        simp at h3
    · constructor
      · intro _
        exact ⟨rfl, hf.2.1, hf.2.2.2.2.2.2.2⟩
      · intro _ h
        exact hc h.2

theorem second_tick_completion_iff_witness :
    ((freshRun 1).isRunning = true ∧ (0 : Int) ≤ (freshRun 1).currentSecond ∧
      (freshRun 1).currentSecond < 32767) ∧
    (∃ s', timerCallback (freshRun 1) = some (s', true) ∧ s'.currentSecond = 1 ∧
      s'.lastCompletedInterval = 1 ∧ s'.displaySecond = 0 ∧ completions s' = [1]) ∧
    (∃ s', timerCallback (freshRun 10) = some (s', true) ∧ s'.currentSecond = 1 ∧
      s'.lastCompletedInterval = 0 ∧ completions s' = []) ∧
    (secondTicks 25 (freshRun 10)).map completions = some [10, 20] := by
  refine ⟨⟨rfl, by decide, by decide⟩, ?_, ?_, by decide⟩
  · obtain ⟨s', h1, h2, h3, -⟩ :=
      second_tick_completion_iff (freshRun 1) rfl (by decide) (by decide) (by decide) (by decide)
    obtain ⟨-, h5, h6, h7⟩ := h3.1 ⟨by decide, by decide⟩
    exact ⟨s', h1, h2, h5, h6, h7⟩
  · obtain ⟨s', h1, h2, -, h4⟩ :=
      second_tick_completion_iff (freshRun 10) rfl (by decide) (by decide) (by decide) (by decide)
    obtain ⟨-, h5, h6⟩ := h4.1 (by decide)
    exact ⟨s', h1, h2, h5, h6⟩

/-! ## Target zero -/

/-- C2 (code evaluated at the failing input): whatever the rest of the state, a
Running session with targetSeconds = 0 makes the second tick evaluate
currentSecond % 0 and stopTimer evaluate currentSecond / 0, both undefined;
startTimer accepts the power-on state (target 0), after which the first second
tick, a stop click and a reset click are all undefined. -/
theorem zero_target_undefined :
    (∀ s : State, timerCallback { s with isRunning := true, targetSeconds := 0 } = none) ∧
    (∀ s : State, stopTimer { s with isRunning := true, targetSeconds := 0 } = none) ∧
    (startTimer initialState).isRunning = true ∧
    (startTimer initialState).targetSeconds = 0 ∧
    timerCallback (startTimer initialState) = none ∧
    stopTimer (startTimer initialState) = none ∧
    (∀ now r1 r2 r3, startStopButtonClick now r1 r2 r3 (startTimer initialState) = none) ∧
    (∀ now r1 r2 r3, resetButtonClick now r1 r2 r3 (startTimer initialState) = none) := by
  refine ⟨fun s => by simp [timerCallback, imod], fun s => by simp [stopTimer, idiv],
    rfl, rfl, rfl, rfl, fun _ _ _ _ => rfl, fun _ _ _ _ => rfl⟩

/-! ## Stop after N second ticks -/

/-- C3 (amended): for a target T in [1,60] and N second ticks, N at most 32767,
starting from a non-running state, ticking N times and stopping is defined and
leaves lastCompletedInterval equal to floor(N / T) * T, which is N itself when
N is a multiple of T. -/
theorem stop_after_ticks (s0 : State) (N : Nat) (hidle : s0.isRunning = false)
    (hT1 : 1 ≤ s0.targetSeconds) (hT60 : s0.targetSeconds ≤ 60) (hN : N ≤ 32767) :
    ∃ s', (secondTicks N (startTimer s0)).bind stopTimer = some s' ∧
      s'.lastCompletedInterval = (N : Int) / s0.targetSeconds * s0.targetSeconds ∧
      ((N : Int) % s0.targetSeconds = 0 → s'.lastCompletedInterval = N) := by
  have hT60' := hT60
  obtain ⟨hr, ht, hc, hd, -, hl, -, -⟩ := startTimer_idle s0 hidle
  obtain ⟨s, hs, hsr, hst, -, -, hsc, -, -⟩ :=
    secondTicks_fields (startTimer s0) hr (by omega) hc hd hl N hN
  obtain ⟨s', hs', hl', -⟩ := stopTimer_running s hsr (by omega)
  have hq := ediv_bounds (a := (N : Int)) (b := s0.targetSeconds) (by omega) (by omega)
  have hqm : 0 ≤ (N : Int) / s0.targetSeconds * s0.targetSeconds :=
    Int.mul_nonneg hq.1 (by omega)
  have hqle : (N : Int) / s0.targetSeconds * s0.targetSeconds ≤ N :=
    Int.ediv_mul_le _ (by omega)
  have hval : s'.lastCompletedInterval = (N : Int) / s0.targetSeconds * s0.targetSeconds := by
    rw [hl', hsc, hst, ht, Int.tdiv_eq_ediv (by omega) (by omega),
      wrap16_of_range (by omega) (by omega)]
    exact wrap16_of_range (by omega) (by omega)
  refine ⟨s', ?_, hval, ?_⟩
  · rw [hs]; exact hs'
  · intro h
    rw [hval]
    exact Int.ediv_mul_cancel (Int.dvd_of_emod_eq_zero h)

theorem stop_after_ticks_witness :
    (initialState.isRunning = false ∧
      (1 : Int) ≤ ({ initialState with targetSeconds := 10 } : State).targetSeconds) ∧
    (∃ s', (secondTicks 25 (startTimer { initialState with targetSeconds := 10 })).bind
        stopTimer = some s' ∧ s'.lastCompletedInterval = 20) ∧
    (∃ s', (secondTicks 5 (startTimer { initialState with targetSeconds := 5 })).bind
        stopTimer = some s' ∧ s'.lastCompletedInterval = 5) := by
  refine ⟨⟨rfl, by decide⟩, ?_, ?_⟩
  · obtain ⟨s', h1, h2, -⟩ := stop_after_ticks { initialState with targetSeconds := 10 } 25
      rfl (by decide) (by decide) (by decide)
    exact ⟨s', h1, by rw [h2]; decide⟩
  · obtain ⟨s', h1, h2, -⟩ := stop_after_ticks { initialState with targetSeconds := 5 } 5
      rfl (by decide) (by decide) (by decide)
    exact ⟨s', h1, by rw [h2]; decide⟩

/-- C3 (as stated, refuted): with target 10, after 32768 second ticks the
16-bit elapsed count has wrapped to -32768 and stopping leaves
lastCompletedInterval = -32760, not floor(32768 / 10) * 10 = 32760. -/
theorem stop_after_ticks_overflow :
    ∃ s', (secondTicks 32768 (freshRun 10)).bind stopTimer = some s' ∧
      s'.lastCompletedInterval = -32760 ∧
      s'.lastCompletedInterval ≠ (32768 : Int) / 10 * 10 := by
  obtain ⟨s, hs, hsr, hst, -, -, hsc, -, -⟩ :=
    secondTicks_fields (freshRun 10) rfl (by decide) rfl rfl rfl 32767 (by omega)
  have ht : s.targetSeconds = 10 := hst
  obtain ⟨s1, hs1, hr1, ht1, -, -, hc1, -⟩ := timerCallback_running s hsr (by omega)
  have hc1' : s1.currentSecond = -32768 := by rw [hc1, hsc]; decide
  obtain ⟨s', hs', hl', -⟩ := stopTimer_running s1 hr1 (by omega)
  refine ⟨s', ?_, ?_, ?_⟩
  · rw [secondTicks_succ 32767 _ s hs, hs1]; exact hs'
  · rw [hl', hc1', ht1, ht]; decide
  · rw [hl', hc1', ht1, ht]; decide

/-! ## The displayed second -/

/-- C4 (amended): in every state reached from startTimer (target in [1,60]) by
tenth ticks and at most 32767 second ticks, while isRunning holds,
displaySecond equals currentSecond mod targetSeconds and so lies in
[0, targetSeconds); and displaySecond is 0 right after a second tick that
reports a completion. -/
theorem display_second_invariant (s0 s : State) (k : Nat) (hidle : s0.isRunning = false)
    (hT1 : 1 ≤ s0.targetSeconds) (hT60 : s0.targetSeconds ≤ 60)
    (hreach : TickReach s0 k s) (hk : k ≤ 32767) (hrun : s.isRunning = true) :
    s.displaySecond = s.currentSecond % s.targetSeconds ∧
      0 ≤ s.displaySecond ∧ s.displaySecond < s.targetSeconds ∧
      (∀ s' b, timerCallback s = some (s', b) → completions s' ≠ completions s →
        s'.displaySecond = 0) := by
  have hT60' := hT60
  have hrun' := hrun
  obtain ⟨-, ht, hc, hd, -⟩ := tickReach_fields s0 hidle hT1 k s hreach hk
  refine ⟨by rw [hd, hc, ht], ?_, ?_, ?_⟩
  · rw [hd]; exact Int.emod_nonneg _ (by omega)
  · rw [hd, ht]; exact Int.emod_lt_of_pos _ (by omega)
  · intro s' b h hc'
    exact (timerCallback_completion_resets s s' b h hc').1

theorem display_second_invariant_witness :
    ∃ s, secondTicks 12 (freshRun 10) = some s ∧
      TickReach { initialState with targetSeconds := 10 } 12 s ∧
      s.isRunning = true ∧
      s.displaySecond = s.currentSecond % s.targetSeconds ∧
      0 ≤ s.displaySecond ∧ s.displaySecond < s.targetSeconds := by
  obtain ⟨s, hs, hr, -⟩ :=
    secondTicks_fields (freshRun 10) rfl (by decide) rfl rfl rfl 12 (by omega)
  have hreach := tickReach_secondTicks { initialState with targetSeconds := 10 } 12 s hs
  obtain ⟨h1, h2, h3, -⟩ :=
    display_second_invariant { initialState with targetSeconds := 10 } s 12 rfl
      (by decide) (by decide) hreach (by omega) hr
  exact ⟨s, hs, hreach, hr, h1, h2, h3⟩

/-- C4 (as stated, refuted): with target 3, after 32769 second ticks the 16-bit
elapsed count has wrapped to -32767 and displaySecond is 3, which is neither
below targetSeconds nor equal to currentSecond mod targetSeconds. -/
theorem display_second_overflow :
    ∃ s, TickReach { initialState with targetSeconds := 3 } 32769 s ∧
      s.isRunning = true ∧ s.targetSeconds = 3 ∧ s.currentSecond = -32767 ∧
      s.displaySecond = 3 ∧ ¬ (s.displaySecond < s.targetSeconds) ∧
      s.displaySecond ≠ s.currentSecond % s.targetSeconds ∧
      s.displaySecond ≠ Int.tmod s.currentSecond s.targetSeconds := by
  obtain ⟨s, hs, hr, ht, -, -, hc, hd, -⟩ :=
    secondTicks_fields (freshRun 3) rfl (by decide) rfl rfl rfl 32767 (by omega)
  have ht3 : s.targetSeconds = 3 := ht
  have hd1 : s.displaySecond = 1 := by rw [hd]; decide
  have hreach := tickReach_secondTicks { initialState with targetSeconds := 3 } 32767 s hs
  obtain ⟨s1, hs1, hr1, ht1, -, -, hc1, -, hd1', -⟩ := timerCallback_running s hr (by omega)
  rw [hc, ht3, hd1] at hd1'
  rw [hc] at hc1
  have hc1v : s1.currentSecond = -32768 := by rw [hc1]; decide
  have hd1v : s1.displaySecond = 2 := by rw [hd1']; decide
  have ht1v : s1.targetSeconds = 3 := ht1.trans ht3
  obtain ⟨s2, hs2, hr2, ht2, -, -, hc2, -, hd2, -⟩ := timerCallback_running s1 hr1 (by omega)
  rw [hc1v, ht1v, hd1v] at hd2
  rw [hc1v] at hc2
  have hc2v : s2.currentSecond = -32767 := by rw [hc2]; decide
  have hd2v : s2.displaySecond = 3 := by rw [hd2]; decide
  have ht2v : s2.targetSeconds = 3 := ht2.trans ht1v
  refine ⟨s2, TickReach.second (TickReach.second hreach hs1) hs2, hr2, ht2v, hc2v, hd2v, ?_, ?_, ?_⟩
  · rw [hd2v, ht2v]; decide
  · rw [hd2v, hc2v, ht2v]; decide
  · rw [hd2v, hc2v, ht2v]; decide

/-! ## stopTimer when not running -/

/-- C5: in every state with isRunning false, stopTimer returns the state
unchanged (every session field, LED, buzzer, display, pending scheduler tasks
and serial output), so applying it twice equals applying it once. -/
theorem stopTimer_not_running (s : State) (h : s.isRunning = false) :
    stopTimer s = some s ∧ (stopTimer s).bind stopTimer = stopTimer s := by
  have h1 : stopTimer s = some s := by simp [stopTimer, h]
  exact ⟨h1, by rw [h1]; exact h1⟩

theorem stopTimer_not_running_witness :
    initialState.isRunning = false ∧ stopTimer initialState = some initialState ∧
      (stopTimer initialState).bind stopTimer = stopTimer initialState :=
  ⟨rfl, stopTimer_not_running initialState rfl⟩

/-! ## Mode switch -/

/-- C6 (code evaluated at the failing input): when the remembered level is HIGH
and the switch is grounded (the pin reads LOW, false), readModeSwitch sets
soundEnabled to true; when the remembered level is LOW and the pin reads HIGH,
it sets soundEnabled to false; an unchanged level leaves the state as it is. -/
theorem readModeSwitch_inverted :
    (∀ s : State, (readModeSwitch false { s with lastSwitchState := true }).soundEnabled = true) ∧
    (∀ s : State, (readModeSwitch true { s with lastSwitchState := false }).soundEnabled = false) ∧
    (∀ (s : State) (level : Bool), readModeSwitch level { s with lastSwitchState := level } =
      { s with lastSwitchState := level }) ∧
    (readModeSwitch false initialState).soundEnabled = true := by
  refine ⟨fun s => by simp [readModeSwitch, serialPrint],
    fun s => by simp [readModeSwitch, serialPrint],
    fun s level => by simp [readModeSwitch], rfl⟩

/-! ## Double pattern -/

/-- C7: a double pattern started while soundEnabled holds (with room for its
three tasks) turns the buzzer on and registers its second-pulse callback as a
one-shot at DOUBLE_BLINK_INTERVAL = 100 ms; whenever that callback runs, in any
state, it sets the LED high and reads soundEnabled then: the buzzer becomes
high if soundEnabled is true and keeps its level if soundEnabled is false. -/
theorem second_pulse_reads_sound_at_fire_time (s0 s : State)
    (h0 : s0.soundEnabled = true) (hcap : s0.tasks.length + 3 ≤ MAX_TASKS) :
    (doubleSignal s0).buzzer = true ∧
    (doubleSignal s0).tasks = s0.tasks ++
      [{ handler := Handler.blinkDone, delay := DISPLAY_BLINK_DURATION, period := 0 },
       { handler := Handler.doubleFirstOff, delay := SHORT_BLINK_DURATION, period := 0 },
       { handler := Handler.doubleSecondPulse, delay := DOUBLE_BLINK_INTERVAL, period := 0 }] ∧
    DOUBLE_BLINK_INTERVAL = 100 ∧
    ∃ s', runHandler Handler.doubleSecondPulse s = some (s', false) ∧
      s'.led = true ∧
      (s.soundEnabled = false → s'.buzzer = s.buzzer) ∧
      (s.soundEnabled = true → s'.buzzer = true) ∧
      s'.soundEnabled = s.soundEnabled := by
  have hc : s0.tasks.length + 3 ≤ 10 := hcap
  refine ⟨?_, ?_, rfl, ?_⟩
  · simp [doubleSignal, blinkDisplay, timer_in, h0]
  · simp only [doubleSignal, blinkDisplay, timer_in, h0, if_true]
    rw [addTask_of_lt _ s0.tasks (by omega)]
    rw [addTask_of_lt _ (s0.tasks ++ [_])
      (by simp only [List.length_append, List.length_singleton]; omega)]
    rw [addTask_of_lt _ _ (by simp only [List.length_append, List.length_singleton]; omega)]
    simp
  · refine ⟨doubleSecondPulse s, rfl, ?_, ?_, ?_, ?_⟩ <;>
      cases hs : s.soundEnabled <;> simp [doubleSecondPulse, timer_in, hs]

theorem second_pulse_reads_sound_at_fire_time_witness :
    (initialState.soundEnabled = true ∧ initialState.tasks.length + 3 ≤ MAX_TASKS) ∧
    (doubleSignal initialState).buzzer = true ∧
    mutedMidPattern.soundEnabled = false ∧ mutedMidPattern.buzzer = false ∧
    ∃ s', runHandler Handler.doubleSecondPulse mutedMidPattern = some (s', false) ∧
      s'.led = true ∧ s'.buzzer = false := by
  obtain ⟨h1, -, -, s', h2, h3, h4, -⟩ :=
    second_pulse_reads_sound_at_fire_time initialState mutedMidPattern rfl (by decide)
  exact ⟨⟨rfl, by decide⟩, h1, rfl, rfl, s', h2, h3, (h4 rfl).trans rfl⟩

/-! ## Potentiometer mapping -/

/-- C8: for three raw reads in [0,1023], the target readPotentiometer computes
is floor(floor((r1+r2+r3)/3) * 60 / 1023); it lies in [0,60], is 0 when the
averaged raw value is 0 and 60 when it is 1023; and an un-throttled
readPotentiometer leaves exactly this value in targetSeconds (for a previous
target in 0..60). -/
theorem potTarget_formula (r1 r2 r3 : Int)
    (h1 : 0 ≤ r1 ∧ r1 ≤ 1023) (h2 : 0 ≤ r2 ∧ r2 ≤ 1023) (h3 : 0 ≤ r3 ∧ r3 ≤ 1023) :
    potTarget r1 r2 r3 = (r1 + r2 + r3) / 3 * 60 / 1023 ∧
    0 ≤ potTarget r1 r2 r3 ∧ potTarget r1 r2 r3 ≤ 60 ∧
    ((r1 + r2 + r3) / 3 = 0 → potTarget r1 r2 r3 = 0) ∧
    ((r1 + r2 + r3) / 3 = 1023 → potTarget r1 r2 r3 = 60) ∧
    (∀ (s : State) (now : Nat), ¬ (usub now s.lastPotRead < potReadInterval) →
      0 ≤ s.targetSeconds → s.targetSeconds ≤ 60 →
      (readPotentiometer now r1 r2 r3 s).targetSeconds = potTarget r1 r2 r3) := by
  have hf : potTarget r1 r2 r3 = (r1 + r2 + r3) / 3 * 60 / 1023 := by
    simp only [potTarget, map, iadd]
    have e1 : wrap16 (0 + r1) = r1 := by
      rw [Int.zero_add]; exact wrap16_of_range (by omega) (by omega)
    have e2 : wrap16 (r1 + r2) = r1 + r2 := wrap16_of_range (by omega) (by omega)
    have e3 : wrap16 (r1 + r2 + r3) = r1 + r2 + r3 := wrap16_of_range (by omega) (by omega)
    have e4 : Int.tdiv (r1 + r2 + r3) 3 = (r1 + r2 + r3) / 3 :=
      Int.tdiv_eq_ediv (by omega) (by omega)
    have e5 : wrap16 ((r1 + r2 + r3) / 3) = (r1 + r2 + r3) / 3 :=
      wrap16_of_range (by omega) (by omega)
    have e6 : wrap32 ((r1 + r2 + r3) / 3 - 0) = (r1 + r2 + r3) / 3 := by
      rw [Int.sub_zero]; exact wrap32_of_range (by omega) (by omega)
    have e7 : wrap32 ((60 : Int) - 0) = 60 := by decide
    have e8 : wrap32 ((1023 : Int) - 0) = 1023 := by decide
    have e9 : wrap32 ((r1 + r2 + r3) / 3 * 60) = (r1 + r2 + r3) / 3 * 60 :=
      wrap32_of_range (by omega) (by omega)
    have e10 : Int.tdiv ((r1 + r2 + r3) / 3 * 60) 1023 = (r1 + r2 + r3) / 3 * 60 / 1023 :=
      Int.tdiv_eq_ediv (by omega) (by omega)
    have e11 : wrap32 ((r1 + r2 + r3) / 3 * 60 / 1023) = (r1 + r2 + r3) / 3 * 60 / 1023 :=
      wrap32_of_range (by omega) (by omega)
    rw [e1, e2, e3, e4, e5, e6, e7, e8, e9, e10, e11, Int.add_zero, e11]
    exact wrap16_of_range (by omega) (by omega)
  refine ⟨hf, by rw [hf]; omega, by rw [hf]; omega, fun h => by rw [hf]; omega,
    fun h => by rw [hf]; omega, ?_⟩
  intro s now hth ht0 ht60
  have hp0 : 0 ≤ potTarget r1 r2 r3 := by rw [hf]; omega
  have hp60 : potTarget r1 r2 r3 ≤ 60 := by rw [hf]; omega
  simp only [readPotentiometer, if_neg hth]
  by_cases hch : iabs (isub (potTarget r1 r2 r3) s.targetSeconds) > 0
  · cases hsh : s.showingFinalResult <;> simp [hch, hsh, serialPrint]
  · have heq : potTarget r1 r2 r3 = s.targetSeconds := by
      by_contra hne
      apply hch
      unfold iabs isub
      rw [wrap16_of_range (x := potTarget r1 r2 r3 - s.targetSeconds) (by omega) (by omega)]
      by_cases hpos : potTarget r1 r2 r3 - s.targetSeconds > 0
      · rw [if_pos hpos]; exact hpos
      · rw [if_neg hpos, wrap16_of_range (by omega) (by omega)]
        omega
    rw [if_neg hch]
    exact heq.symm

theorem potTarget_formula_witness :
    ((0 : Int) ≤ 1023 ∧ (1023 : Int) ≤ 1023) ∧
    potTarget 1023 1023 1023 = 60 ∧ potTarget 0 0 0 = 0 ∧
    (readPotentiometer 100 1023 1023 1023 initialState).targetSeconds = 60 := by
  have h := potTarget_formula 1023 1023 1023 ⟨by decide, by decide⟩ ⟨by decide, by decide⟩
    ⟨by decide, by decide⟩
  exact ⟨⟨by decide, by decide⟩, h.2.2.2.2.1 (by decide), by decide,
    (h.2.2.2.2.2 initialState 100 (by decide) (by decide) (by decide)).trans
      (h.2.2.2.2.1 (by decide))⟩

/-! ## Display -/

/-- C9 (amended): updateDisplay changes nothing but the display. While showing
the final result it renders the 16-bit int product lastCompletedInterval*100
with the colon on if displayVisible, and clears the display otherwise; else if
Running it renders the int value displaySecond*100 + currentTenths*10 with the
colon on; else it renders the int product targetSeconds*100 with the colon on.
The int values are the exact ones whenever these fit in 16 bits (seconds within
-327..327 with tenths 0, or seconds in 0..326 with tenths in 0..9). -/
theorem updateDisplay_cases (s : State) :
    updateDisplay s = { s with display := (updateDisplay s).display } ∧
    (s.showingFinalResult = true ∧ s.displayVisible = true →
      (updateDisplay s).display = Display.number (imul s.lastCompletedInterval 100) true) ∧
    (s.showingFinalResult = true ∧ s.displayVisible = false →
      (updateDisplay s).display = Display.cleared) ∧
    (s.showingFinalResult = false ∧ s.isRunning = true →
      (updateDisplay s).display =
        Display.number (iadd (imul s.displaySecond 100) (imul s.currentTenths 10)) true) ∧
    (s.showingFinalResult = false ∧ s.isRunning = false →
      (updateDisplay s).display = Display.number (imul s.targetSeconds 100) true) ∧
    (∀ x : Int, -327 ≤ x → x ≤ 327 → imul x 100 = x * 100) ∧
    (∀ x t : Int, 0 ≤ x → x ≤ 326 → 0 ≤ t → t ≤ 9 →
      iadd (imul x 100) (imul t 10) = x * 100 + t * 10) := by
  refine ⟨?_, ?_, ?_, ?_, ?_, ?_, ?_⟩
  · unfold updateDisplay
    cases s.showingFinalResult <;> cases s.displayVisible <;> cases s.isRunning <;> rfl
  · rintro ⟨h1, h2⟩
    simp [updateDisplay, h1, h2, displayValue_tenths_zero]
  · rintro ⟨h1, h2⟩
    simp [updateDisplay, h1, h2]
  · rintro ⟨h1, h2⟩
    simp [updateDisplay, h1, h2]
  · rintro ⟨h1, h2⟩
    simp [updateDisplay, h1, h2, displayValue_tenths_zero]
  · intro x h1 h2
    exact wrap16_of_range (by omega) (by omega)
  · intro x t h1 h2 h3 h4
    unfold iadd imul
    rw [wrap16_of_range (x := x * 100) (by omega) (by omega),
      wrap16_of_range (x := t * 10) (by omega) (by omega)]
    exact wrap16_of_range (by omega) (by omega)

theorem updateDisplay_cases_witness :
    (initialState.showingFinalResult = false ∧ initialState.isRunning = false) ∧
    (updateDisplay initialState).display = Display.number 0 true ∧
    (updateDisplay (freshRun 10)).display = Display.number 0 true ∧
    (updateDisplay { initialState with targetSeconds := 45 }).display =
      Display.number 4500 true := by
  have h := updateDisplay_cases initialState
  exact ⟨⟨rfl, rfl⟩, (h.2.2.2.2.1 ⟨rfl, rfl⟩).trans (by decide), by decide, by decide⟩

/-- C9 (as stated, refuted): after a session with target 40 that ran for 400
second ticks and was stopped, the result is shown with lastCompletedInterval =
400, and updateDisplay renders the wrapped 16-bit value -25536, not
400*100 = 40000. -/
theorem updateDisplay_overflow :
    ∃ s, (secondTicks 400 (freshRun 40)).bind stopTimer = some s ∧
      s.showingFinalResult = true ∧ s.displayVisible = true ∧
      s.lastCompletedInterval = 400 ∧
      (updateDisplay s).display = Display.number (-25536) true ∧
      (updateDisplay s).display ≠ Display.number (s.lastCompletedInterval * 100) true := by
  obtain ⟨s1, hs1, hr1, ht1, -, -, hc1, -, -⟩ :=
    secondTicks_fields (freshRun 40) rfl (by decide) rfl rfl rfl 400 (by omega)
  have ht : s1.targetSeconds = 40 := ht1
  obtain ⟨s, hs, hl, -, hshow, -⟩ := stopTimer_running s1 hr1 (by omega)
  have hvis : s.displayVisible = true :=
    (stopTimer_displayVisible s1 s hs).trans (secondTicks_displayVisible 400 _ s1 hs1)
  have hlv : s.lastCompletedInterval = 400 := by rw [hl, hc1, ht]; decide
  have hd : (updateDisplay s).display = Display.number (-25536) true := by
    simp only [updateDisplay, hshow, hvis, hlv, if_true]
    decide
  refine ⟨s, by rw [hs1]; exact hs, hshow, hvis, hlv, hd, ?_⟩
  rw [hd, hlv]
  decide

/-! ## Invariants of the reachable states -/

theorem wrap16_range (x : Int) : -32768 ≤ wrap16 x ∧ wrap16 x ≤ 32767 := by
  unfold wrap16
  omega

theorem potTarget_bounds (r1 r2 r3 : Int)
    (h1 : 0 ≤ r1 ∧ r1 ≤ 1023) (h2 : 0 ≤ r2 ∧ r2 ≤ 1023) (h3 : 0 ≤ r3 ∧ r3 ≤ 1023) :
    0 ≤ potTarget r1 r2 r3 ∧ potTarget r1 r2 r3 ≤ 60 := by
  have hf : potTarget r1 r2 r3 = (r1 + r2 + r3) / 3 * 60 / 1023 := by
    simp only [potTarget, map, iadd]
    have e1 : wrap16 (0 + r1) = r1 := by
      rw [Int.zero_add]; exact wrap16_of_range (by omega) (by omega)
    have e2 : wrap16 (r1 + r2) = r1 + r2 := wrap16_of_range (by omega) (by omega)
    have e3 : wrap16 (r1 + r2 + r3) = r1 + r2 + r3 := wrap16_of_range (by omega) (by omega)
    have e4 : Int.tdiv (r1 + r2 + r3) 3 = (r1 + r2 + r3) / 3 :=
      Int.tdiv_eq_ediv (by omega) (by omega)
    have e5 : wrap16 ((r1 + r2 + r3) / 3) = (r1 + r2 + r3) / 3 :=
      wrap16_of_range (by omega) (by omega)
    have e6 : wrap32 ((r1 + r2 + r3) / 3 - 0) = (r1 + r2 + r3) / 3 := by
      rw [Int.sub_zero]; exact wrap32_of_range (by omega) (by omega)
    have e7 : wrap32 ((60 : Int) - 0) = 60 := by decide
    have e8 : wrap32 ((1023 : Int) - 0) = 1023 := by decide
    have e9 : wrap32 ((r1 + r2 + r3) / 3 * 60) = (r1 + r2 + r3) / 3 * 60 :=
      wrap32_of_range (by omega) (by omega)
    have e10 : Int.tdiv ((r1 + r2 + r3) / 3 * 60) 1023 = (r1 + r2 + r3) / 3 * 60 / 1023 :=
      Int.tdiv_eq_ediv (by omega) (by omega)
    have e11 : wrap32 ((r1 + r2 + r3) / 3 * 60 / 1023) = (r1 + r2 + r3) / 3 * 60 / 1023 :=
      wrap32_of_range (by omega) (by omega)
    rw [e1, e2, e3, e4, e5, e6, e7, e8, e9, e10, e11, Int.add_zero, e11]
    exact wrap16_of_range (by omega) (by omega)
  rw [hf]
  omega

theorem target_changed_iff (a b : Int) (ha : 0 ≤ a ∧ a ≤ 60) (hb : 0 ≤ b ∧ b ≤ 60) :
    iabs (isub a b) > 0 ↔ a ≠ b := by
  unfold iabs isub
  rw [wrap16_of_range (x := a - b) (by omega) (by omega)]
  by_cases hpos : a - b > 0
  · rw [if_pos hpos]
    constructor
    · intro _; omega
    · intro _; exact hpos
  · rw [if_neg hpos, wrap16_of_range (by omega) (by omega)]
    constructor
    · intro h; omega
    · intro h; omega

theorem sessionInv_of_fields {s s' : State}
    (hT : s'.targetSeconds = s.targetSeconds) (hc : s'.currentSecond = s.currentSecond)
    (hd : s'.displaySecond = s.displaySecond) (ht : s'.currentTenths = s.currentTenths)
    (hr : s'.isRunning = s.isRunning) (hs : s'.showingFinalResult = s.showingFinalResult)
    (h : SessionInv s) : SessionInv s' := by
  unfold SessionInv at *
  rw [hT, hc, hd, ht, hr, hs]
  exact h

theorem sessionInv_readModeSwitch (level : Bool) (s : State) (h : SessionInv s) :
    SessionInv (readModeSwitch level s) := by
  apply sessionInv_of_fields _ _ _ _ _ _ h <;>
    (unfold readModeSwitch serialPrint; split <;> rfl)

theorem sessionInv_updateDisplay (s : State) (h : SessionInv s) :
    SessionInv (updateDisplay s) := by
  apply sessionInv_of_fields _ _ _ _ _ _ h <;>
    (unfold updateDisplay
     cases s.showingFinalResult <;> cases s.displayVisible <;> cases s.isRunning <;> rfl)

theorem sessionInv_loopBlink (now : Nat) (s : State) (h : SessionInv s) :
    SessionInv (loopBlink now s) := by
  apply sessionInv_of_fields _ _ _ _ _ _ h <;>
    (unfold loopBlink; split <;> [split; skip] <;> rfl)

theorem sessionInv_serialPrint (l : SerialLine) (s : State) (h : SessionInv s) :
    SessionInv (serialPrint l s) :=
  sessionInv_of_fields rfl rfl rfl rfl rfl rfl h

theorem sessionInv_doubleOff (s : State) (h : SessionInv s) : SessionInv (doubleOff s) := by
  apply sessionInv_of_fields _ _ _ _ _ _ h <;>
    (unfold doubleOff; cases s.soundEnabled <;> rfl)

theorem sessionInv_doubleSecondPulse (s : State) (h : SessionInv s) :
    SessionInv (doubleSecondPulse s) := by
  apply sessionInv_of_fields _ _ _ _ _ _ h <;>
    (unfold doubleSecondPulse timer_in; cases s.soundEnabled <;> rfl)

theorem sessionInv_blinkDisplay (s : State) (h : SessionInv s) :
    SessionInv (blinkDisplay s) :=
  sessionInv_of_fields rfl rfl rfl rfl rfl rfl h

theorem sessionInv_tenthsCallback (s : State) (h : SessionInv s) :
    SessionInv (tenthsCallback s).1 := by
  obtain ⟨hT, ht, hc, hrs, hn, hz, hd⟩ := h
  obtain ⟨f1, f2, f3, f4, -, f6, -⟩ := tenthsCallback_fields s
  cases hr : s.isRunning
  · have e : (tenthsCallback s).1 = s := by simp [tenthsCallback, hr]
    rw [e]
    exact ⟨hT, ht, hc, hrs, hn, hz, hd⟩
  · have hten : 0 ≤ (tenthsCallback s).1.currentTenths ∧ (tenthsCallback s).1.currentTenths ≤ 9 := by
      have hi : iadd s.currentTenths 1 = s.currentTenths + 1 :=
        wrap16_of_range (by omega) (by omega)
      by_cases h9 : iadd s.currentTenths 1 > 9
      · simp [tenthsCallback, hr, h9]
      · simp only [tenthsCallback, hr, h9]
        simp
        omega
    unfold SessionInv
    rw [f1, f2, f3, f4, f6]
    refine ⟨hT, hten, hc, hrs, ?_, hz, hd⟩
    intro h0
    rw [hr] at h0
    exact absurd h0 (by decide)

theorem sessionInv_timerCallback (s s' : State) (b : Bool) (h : SessionInv s)
    (hstep : timerCallback s = some (s', b)) : SessionInv s' := by
  obtain ⟨hT, ht, hc, hrs, hn, hz, hd⟩ := h
  cases hr : s.isRunning
  · have e : timerCallback s = some (s, false) := by simp [timerCallback, hr]
    rw [e] at hstep
    have hs : s' = s := ((Prod.mk.inj (Option.some.inj hstep)).1).symm
    subst hs
    exact ⟨hT, ht, hc, hrs, hn, hz, hd⟩
  · have hT0 : s.targetSeconds ≠ 0 := by
      intro h0
      simp [timerCallback, hr, imod, h0] at hstep
    obtain ⟨s2, hs2, r2, t2, sh2, -, c2, ten2, d2, -⟩ := timerCallback_running s hr hT0
    rw [hstep] at hs2
    have hs : s' = s2 := (Prod.mk.inj (Option.some.inj hs2)).1
    subst hs
    have hw := wrap16_range (s.currentSecond + 1)
    have hcs' : s'.currentSecond = wrap16 (s.currentSecond + 1) := c2
    unfold SessionInv
    rw [t2, sh2, r2, ten2]
    refine ⟨hT, by omega, by rw [hcs']; exact hw, ?_, ?_, ?_, ?_⟩
    · intro hboth
      exact hrs ⟨hr, hboth.2⟩
    · intro h0
      exact absurd h0 (by decide)
    · intro _ h0
      exact absurd h0 hT0
    · intro _ hnn
      rw [d2]
      have hiadd : iadd s.currentSecond 1 = s'.currentSecond := c2.symm
      rw [hiadd]
      by_cases hneg : s.currentSecond < 0
      · -- only -1 can step to a non-negative count
        have hm1 : s.currentSecond = -1 := by
          by_contra hne
          have : wrap16 (s.currentSecond + 1) = s.currentSecond + 1 :=
            wrap16_of_range (by omega) (by omega)
          omega
        have hc0 : s'.currentSecond = 0 := by rw [hcs', hm1]; decide
        rw [hc0]
        simp
      · have hlt : s.currentSecond ≤ 32766 := by
          by_contra hge
          have h32 : s.currentSecond = 32767 := by omega
          have : s'.currentSecond = -32768 := by rw [hcs', h32]; decide
          omega
        have hc1 : s'.currentSecond = s.currentSecond + 1 := by
          rw [hcs']; exact wrap16_of_range (by omega) (by omega)
        have hdd := hd hr (by omega)
        have hTpos : 0 < s.targetSeconds := by omega
        have hsd := succ_emod_ediv s.currentSecond s.targetSeconds hTpos
        have htm : Int.tmod (s.currentSecond + 1) s.targetSeconds =
            (s.currentSecond + 1) % s.targetSeconds :=
          Int.tmod_eq_emod (by omega) (by omega)
        have hr0 : 0 ≤ s.currentSecond % s.targetSeconds := Int.emod_nonneg _ (by omega)
        have hr1 : s.currentSecond % s.targetSeconds ≤ s.currentSecond :=
          emod_le_of_nonneg (by omega) hTpos
        rw [hc1, htm]
        by_cases hz0 : (s.currentSecond + 1) % s.targetSeconds = 0
        · rw [if_pos hz0, hz0]
        · rw [if_neg hz0, (hsd.2 hz0).1, hdd]
          exact wrap16_of_range (by omega) (by omega)

theorem readPotentiometer_fields (now : Nat) (r1 r2 r3 : Int) (s : State) :
    (readPotentiometer now r1 r2 r3 s).currentSecond = s.currentSecond ∧
    (readPotentiometer now r1 r2 r3 s).displaySecond = s.displaySecond ∧
    (readPotentiometer now r1 r2 r3 s).currentTenths = s.currentTenths ∧
    (readPotentiometer now r1 r2 r3 s).lastCompletedInterval = s.lastCompletedInterval ∧
    (readPotentiometer now r1 r2 r3 s).isRunning = s.isRunning ∧
    (readPotentiometer now r1 r2 r3 s).soundEnabled = s.soundEnabled ∧
    (readPotentiometer now r1 r2 r3 s).displayVisible = s.displayVisible ∧
    (readPotentiometer now r1 r2 r3 s).tasks = s.tasks ∧
    (readPotentiometer now r1 r2 r3 s).led = s.led ∧
    (readPotentiometer now r1 r2 r3 s).buzzer = s.buzzer ∧
    ((readPotentiometer now r1 r2 r3 s).targetSeconds = s.targetSeconds ∨
      (readPotentiometer now r1 r2 r3 s).targetSeconds = potTarget r1 r2 r3) ∧
    ((readPotentiometer now r1 r2 r3 s).showingFinalResult = s.showingFinalResult ∨
      (readPotentiometer now r1 r2 r3 s).showingFinalResult = false) := by
  unfold readPotentiometer
  by_cases h1 : usub now s.lastPotRead < potReadInterval
  · simp [h1]
  · by_cases h2 : iabs (isub (potTarget r1 r2 r3) s.targetSeconds) > 0
    · cases h3 : s.showingFinalResult <;> simp [h1, h2, h3, serialPrint]
    · simp [h1, h2]

theorem sessionInv_readPotentiometer (now : Nat) (r1 r2 r3 : Int) (s : State)
    (h1 : 0 ≤ r1 ∧ r1 ≤ 1023) (h2 : 0 ≤ r2 ∧ r2 ≤ 1023) (h3 : 0 ≤ r3 ∧ r3 ≤ 1023)
    (hrun : s.isRunning = false) (h : SessionInv s) :
    SessionInv (readPotentiometer now r1 r2 r3 s) := by
  obtain ⟨hT, ht, hc, -, hn, -, -⟩ := h
  obtain ⟨f1, f2, f3, -, f5, -, -, -, -, -, f11, -⟩ := readPotentiometer_fields now r1 r2 r3 s
  have hp := potTarget_bounds r1 r2 r3 h1 h2 h3
  unfold SessionInv
  rw [f1, f2, f3, f5, hrun]
  refine ⟨?_, ht, hc, ?_, fun _ => hn hrun, ?_, ?_⟩
  · rcases f11 with e | e <;> rw [e] <;> omega
  · intro hb
    exact absurd hb.1 (by decide)
  · intro h0
    exact absurd h0 (by decide)
  · intro h0
    exact absurd h0 (by decide)

theorem sessionInv_startTimer (s : State) (h : SessionInv s) : SessionInv (startTimer s) := by
  cases hr : s.isRunning
  · obtain ⟨hT, -⟩ := h
    obtain ⟨g1, g2, g3, g4, g5, -, g7, -⟩ := startTimer_idle s hr
    unfold SessionInv
    rw [g1, g2, g3, g4, g5, g7]
    refine ⟨hT, by omega, by omega, ?_, ?_, fun _ _ => rfl, fun _ _ => by simp⟩
    · intro hb
      exact absurd hb.2 (by decide)
    · intro h0
      exact absurd h0 (by decide)
  · have e : startTimer s = s := by simp [startTimer, hr]
    rw [e]
    exact h

theorem sessionInv_stopTimer (s s' : State) (h : SessionInv s)
    (hstep : stopTimer s = some s') : SessionInv s' := by
  cases hr : s.isRunning
  · have e : stopTimer s = some s := by simp [stopTimer, hr]
    rw [e] at hstep
    rw [← Option.some.inj hstep]
    exact h
  · have hT0 : s.targetSeconds ≠ 0 := by
      intro h0
      simp [stopTimer, hr, idiv, h0] at hstep
    obtain ⟨s2, hs2, -, g2, g3, -, -, -, g7, g8, g9, g10, -⟩ := stopTimer_running s hr hT0
    rw [hstep] at hs2
    have hs : s' = s2 := Option.some.inj hs2
    subst hs
    obtain ⟨hT, -⟩ := h
    unfold SessionInv
    rw [g2, g3, g7, g8, g9, g10]
    refine ⟨hT, by omega, by omega, ?_, fun _ => ⟨rfl, rfl, rfl⟩, ?_, ?_⟩
    · intro hb
      exact absurd hb.1 (by decide)
    · intro h0
      exact absurd h0 (by decide)
    · intro h0
      exact absurd h0 (by decide)

theorem sessionInv_clearShowing (s : State) (h : SessionInv s) :
    SessionInv { s with showingFinalResult := false, displayVisible := true } := by
  obtain ⟨hT, ht, hc, -, hn, hz, hd⟩ := h
  refine ⟨hT, ht, hc, ?_, hn, hz, hd⟩
  intro hb
  exact Bool.false_ne_true hb.2

theorem startStopButtonClick_idle (now : Nat) (r1 r2 r3 : Int) (s : State)
    (hsh : s.showingFinalResult = false) (hr : s.isRunning = false) :
    startStopButtonClick now r1 r2 r3 s =
      some (startTimer (serialPrint SerialLine.starting
        (serialPrint SerialLine.startStopPressed s))) := by
  have e1 : (serialPrint SerialLine.startStopPressed s).showingFinalResult = false := hsh
  have e2 : (serialPrint SerialLine.startStopPressed s).isRunning = false := hr
  simp only [startStopButtonClick, e1, e2]
  rfl

theorem startStopButtonClick_running (now : Nat) (r1 r2 r3 : Int) (s : State)
    (hsh : s.showingFinalResult = false) (hr : s.isRunning = true) :
    startStopButtonClick now r1 r2 r3 s =
      stopTimer (serialPrint SerialLine.stopping
        (serialPrint SerialLine.startStopPressed s)) := by
  have e1 : (serialPrint SerialLine.startStopPressed s).showingFinalResult = false := hsh
  have e2 : (serialPrint SerialLine.startStopPressed s).isRunning = true := hr
  simp only [startStopButtonClick, e1, e2]
  rfl

theorem startStopButtonClick_showing (now : Nat) (r1 r2 r3 : Int) (s : State)
    (hsh : s.showingFinalResult = true) :
    startStopButtonClick now r1 r2 r3 s =
      some (serialPrint SerialLine.returnedToSetting
        (readPotentiometer now r1 r2 r3
          { serialPrint SerialLine.startStopPressed s with
            showingFinalResult := false, displayVisible := true })) := by
  have e1 : (serialPrint SerialLine.startStopPressed s).showingFinalResult = true := hsh
  simp only [startStopButtonClick, e1]
  rfl

theorem resetButtonClick_eq (now : Nat) (r1 r2 r3 : Int) (s s1 : State)
    (hst : stopTimer (serialPrint SerialLine.resetPressed s) = some s1) :
    resetButtonClick now r1 r2 r3 s =
      some (serialPrint SerialLine.completeReset
        (readPotentiometer now r1 r2 r3
          { s1 with
            showingFinalResult := false, displayVisible := true,
            lastCompletedInterval := 0 })) := by
  simp only [resetButtonClick, hst]

theorem sessionInv_startStopButtonClick (now : Nat) (r1 r2 r3 : Int) (s s' : State)
    (h1 : 0 ≤ r1 ∧ r1 ≤ 1023) (h2 : 0 ≤ r2 ∧ r2 ≤ 1023) (h3 : 0 ≤ r3 ∧ r3 ≤ 1023)
    (h : SessionInv s) (hstep : startStopButtonClick now r1 r2 r3 s = some s') :
    SessionInv s' := by
  have hp := sessionInv_serialPrint SerialLine.startStopPressed s h
  cases hsh : s.showingFinalResult
  · cases hr : s.isRunning
    · rw [startStopButtonClick_idle now r1 r2 r3 s hsh hr] at hstep
      rw [← Option.some.inj hstep]
      exact sessionInv_startTimer _ (sessionInv_serialPrint SerialLine.starting _ hp)
    · rw [startStopButtonClick_running now r1 r2 r3 s hsh hr] at hstep
      exact sessionInv_stopTimer _ s' (sessionInv_serialPrint SerialLine.stopping _ hp) hstep
  · have hnr : s.isRunning = false := by
      cases hr : s.isRunning
      · rfl
      · exact absurd ⟨hr, hsh⟩ h.2.2.2.1
    rw [startStopButtonClick_showing now r1 r2 r3 s hsh] at hstep
    rw [← Option.some.inj hstep]
    apply sessionInv_serialPrint
    exact sessionInv_readPotentiometer now r1 r2 r3
      { serialPrint SerialLine.startStopPressed s with
        showingFinalResult := false, displayVisible := true }
      h1 h2 h3 hnr (sessionInv_clearShowing _ hp)

theorem sessionInv_resetButtonClick (now : Nat) (r1 r2 r3 : Int) (s s' : State)
    (h1 : 0 ≤ r1 ∧ r1 ≤ 1023) (h2 : 0 ≤ r2 ∧ r2 ≤ 1023) (h3 : 0 ≤ r3 ∧ r3 ≤ 1023)
    (h : SessionInv s) (hstep : resetButtonClick now r1 r2 r3 s = some s') :
    SessionInv s' := by
  have hp := sessionInv_serialPrint SerialLine.resetPressed s h
  cases hst : stopTimer (serialPrint SerialLine.resetPressed s) with
  | none => simp [resetButtonClick, hst] at hstep
  | some s1 =>
    have hi1 := sessionInv_stopTimer _ s1 hp hst
    have hnr : s1.isRunning = false := by
      cases hr : (serialPrint SerialLine.resetPressed s).isRunning
      · have e : stopTimer (serialPrint SerialLine.resetPressed s) =
            some (serialPrint SerialLine.resetPressed s) := by simp [stopTimer, hr]
        rw [e] at hst
        rw [← Option.some.inj hst]
        exact hr
      · have hT0 : (serialPrint SerialLine.resetPressed s).targetSeconds ≠ 0 := by
          intro h0
          simp [stopTimer, hr, idiv, h0] at hst
        obtain ⟨s2, hs2, -, g2, -⟩ := stopTimer_running _ hr hT0
        rw [hst] at hs2
        rw [Option.some.inj hs2]
        exact g2
    rw [resetButtonClick_eq now r1 r2 r3 s s1 hst] at hstep
    rw [← Option.some.inj hstep]
    apply sessionInv_serialPrint
    refine sessionInv_readPotentiometer now r1 r2 r3
      { s1 with
        showingFinalResult := false, displayVisible := true, lastCompletedInterval := 0 }
      h1 h2 h3 hnr ?_
    obtain ⟨hT, ht, hc, -, hn, hz, hd⟩ := hi1
    refine ⟨hT, ht, hc, ?_, hn, hz, hd⟩
    intro hb
    exact Bool.false_ne_true hb.2

theorem sessionInv_runHandler (hd : Handler) (s s' : State) (b : Bool) (h : SessionInv s)
    (hstep : runHandler hd s = some (s', b)) : SessionInv s' := by
  cases hd <;> simp only [runHandler] at hstep
  case timerCallback => exact sessionInv_timerCallback s s' b h hstep
  case tenthsCallback =>
    have e := (Prod.mk.inj (Option.some.inj hstep)).1
    rw [← e]
    exact sessionInv_tenthsCallback s h
  case doubleFirstOff =>
    rw [← (Prod.mk.inj (Option.some.inj hstep)).1]
    exact sessionInv_doubleOff s h
  case doubleSecondOff =>
    rw [← (Prod.mk.inj (Option.some.inj hstep)).1]
    exact sessionInv_doubleOff s h
  case doubleSecondPulse =>
    rw [← (Prod.mk.inj (Option.some.inj hstep)).1]
    exact sessionInv_doubleSecondPulse s h
  case doubleSecondBlink =>
    rw [← (Prod.mk.inj (Option.some.inj hstep)).1]
    exact sessionInv_blinkDisplay s h
  all_goals
    rw [← (Prod.mk.inj (Option.some.inj hstep)).1]
    exact sessionInv_of_fields rfl rfl rfl rfl rfl rfl h

theorem sessionInv_step (e : Event) (s s' : State) (h : SessionInv s)
    (hr : e.inRange = true) (hstep : step e s = some s') : SessionInv s' := by
  cases e with
  | startStopClick now r1 r2 r3 =>
    simp [Event.inRange] at hr
    exact sessionInv_startStopButtonClick now r1 r2 r3 s s' ⟨hr.1, hr.2.1⟩
      ⟨hr.2.2.1, hr.2.2.2.1⟩ ⟨hr.2.2.2.2.1, hr.2.2.2.2.2⟩ h hstep
  | resetClick now r1 r2 r3 =>
    simp [Event.inRange] at hr
    exact sessionInv_resetButtonClick now r1 r2 r3 s s' ⟨hr.1, hr.2.1⟩
      ⟨hr.2.2.1, hr.2.2.2.1⟩ ⟨hr.2.2.2.2.1, hr.2.2.2.2.2⟩ h hstep
  | potSample now r1 r2 r3 =>
    simp [Event.inRange] at hr
    simp only [step, Option.some.injEq] at hstep
    rw [← hstep]
    unfold loopPot
    cases hrun : s.isRunning
    · simp only [Bool.not_false, if_true]
      exact sessionInv_readPotentiometer now r1 r2 r3 s ⟨hr.1, hr.2.1⟩
        ⟨hr.2.2.1, hr.2.2.2.1⟩ ⟨hr.2.2.2.2.1, hr.2.2.2.2.2⟩ hrun h
    · simpa using h
  | modeSample level =>
    simp only [step, Option.some.injEq] at hstep
    rw [← hstep]
    exact sessionInv_readModeSwitch level s h
  | fire hd =>
    simp only [step] at hstep
    cases hrh : runHandler hd s with
    | none => simp [hrh] at hstep
    | some r =>
      obtain ⟨s2, b⟩ := r
      simp [hrh] at hstep
      subst hstep
      exact sessionInv_runHandler hd s s2 b h hrh
  | blink now =>
    simp only [step, Option.some.injEq] at hstep
    rw [← hstep]
    exact sessionInv_loopBlink now s h
  | display =>
    simp only [step, Option.some.injEq] at hstep
    rw [← hstep]
    exact sessionInv_updateDisplay s h

theorem sessionInv_initialState : SessionInv initialState := by
  unfold SessionInv
  decide

theorem reach_sessionInv (s : State) (h : Reach s) : SessionInv s := by
  induction h with
  | init => exact sessionInv_initialState
  | next e _ hr hstep ih => exact sessionInv_step e _ _ ih hr hstep

theorem reach_runEvents (es : List Event) (s s' : State) (h : Reach s)
    (hr : ∀ e ∈ es, e.inRange = true) (hrun : runEvents es s = some s') : Reach s' := by
  induction es generalizing s with
  | nil =>
    simp [runEvents] at hrun
    rw [← hrun]
    exact h
  | cons e es ih =>
    cases hst : step e s with
    | none => simp [runEvents, hst] at hrun
    | some s1 =>
      simp [runEvents, hst] at hrun
      exact ih s1 (Reach.next e h (hr e (List.mem_cons_self e es)) hst)
        (fun e' he' => hr e' (List.mem_cons_of_mem e he')) hrun

theorem reach_secondTicks (n : Nat) (s s' : State) (h : Reach s)
    (hrun : secondTicks n s = some s') : Reach s' := by
  induction n generalizing s' with
  | zero =>
    simp [secondTicks] at hrun
    rw [← hrun]
    exact h
  | succ k ih =>
    cases hk : secondTicks k s with
    | none => simp [secondTicks, hk] at hrun
    | some s1 =>
      rw [secondTicks_succ k _ s1 hk] at hrun
      cases ht : timerCallback s1 with
      | none => simp [ht] at hrun
      | some r =>
        obtain ⟨s2, b⟩ := r
        simp [ht] at hrun
        subst hrun
        refine Reach.next (Event.fire Handler.timerCallback) (ih s1 hk) rfl ?_
        simp [step, runHandler, ht]

theorem readPotentiometer_throttled (now : Nat) (r1 r2 r3 : Int) (s : State)
    (h : usub now s.lastPotRead < potReadInterval) :
    readPotentiometer now r1 r2 r3 s = s := by
  simp only [readPotentiometer, h, if_true]

theorem doubleOff_led (s : State) : (doubleOff s).led = false := by
  unfold doubleOff
  cases s.soundEnabled <;> rfl

/-! ## Stop click -/

theorem recurring_oneShots (ts : List Task) : recurring (oneShots ts) = [] := by
  unfold recurring oneShots
  rw [List.filter_filter]
  apply List.filter_eq_nil_iff.2
  intro t _
  by_cases h : t.period = 0 <;> simp [h]

/-- C11 (amended): from every Running state (running, not showing a result)
with targetSeconds at least 1, a start/stop click is defined and yields a
ShowingResult state (isRunning false, showingFinalResult true) in which every
recurring scheduler event has been cancelled while the pending one-shot events
stay scheduled, LED and buzzer are low, currentSecond, displaySecond and
currentTenths are 0, and targetSeconds and soundEnabled are unchanged. -/
theorem stop_click_from_running (s : State) (now : Nat) (r1 r2 r3 : Int)
    (hrun : s.isRunning = true) (hshow : s.showingFinalResult = false)
    (hT : 1 ≤ s.targetSeconds) :
    ∃ s', startStopButtonClick now r1 r2 r3 s = some s' ∧
      s'.isRunning = false ∧ s'.showingFinalResult = true ∧
      s'.tasks = oneShots s.tasks ∧ recurring s'.tasks = [] ∧
      s'.led = false ∧ s'.buzzer = false ∧
      s'.currentSecond = 0 ∧ s'.displaySecond = 0 ∧ s'.currentTenths = 0 ∧
      s'.targetSeconds = s.targetSeconds ∧ s'.soundEnabled = s.soundEnabled := by
  have hT0 : (serialPrint SerialLine.stopping
      (serialPrint SerialLine.startStopPressed s)).targetSeconds ≠ 0 := by
    show s.targetSeconds ≠ 0
    omega
  obtain ⟨s', hs', -, g2, g3, g4, g5, g6, g7, g8, g9, g10, g11⟩ :=
    stopTimer_running (serialPrint SerialLine.stopping
      (serialPrint SerialLine.startStopPressed s)) hrun hT0
  have g4' : s'.tasks = oneShots s.tasks := g4
  refine ⟨s', ?_, g2, g3, g4', ?_, g5, g6, g7, g8, g9, g10, g11⟩
  · rw [startStopButtonClick_running now r1 r2 r3 s hshow hrun]
    exact hs'
  · rw [g4']
    exact recurring_oneShots s.tasks

theorem stop_click_from_running_witness :
    secondTicks 1 (freshRun 10) = some tickedRun ∧
    (tickedRun.isRunning = true ∧ tickedRun.showingFinalResult = false ∧
      (1 : Int) ≤ tickedRun.targetSeconds) ∧
    tickedRun.tasks.length = 5 ∧ tickedRun.led = true ∧ tickedRun.buzzer = true ∧
    ∃ s', startStopButtonClick 1500 0 0 0 tickedRun = some s' ∧
      s'.isRunning = false ∧ s'.showingFinalResult = true ∧
      s'.tasks =
        [{ handler := Handler.shortLedOff, delay := 50, period := 0 },
         { handler := Handler.blinkDone, delay := 100, period := 0 },
         { handler := Handler.shortBuzzerOff, delay := 30, period := 0 }] ∧
      recurring s'.tasks = [] ∧
      s'.led = false ∧ s'.buzzer = false ∧ s'.targetSeconds = 10 := by
  obtain ⟨s', h1, h2, h3, h4, h5, h6, h7, -, -, -, h11, -⟩ :=
    stop_click_from_running tickedRun 1500 0 0 0 (by decide) (by decide) (by decide)
  exact ⟨by decide, ⟨by decide, by decide, by decide⟩, by decide, by decide, by decide,
    s', h1, h2, h3, h4.trans (by decide), h5, h6, h7, h11.trans (by decide)⟩

/-- C11 (as stated, refuted): a session with target 10 is started and one
second tick fires (short pattern: three one-shot events pending); the stop
click then leaves those three one-shot events in the scheduler, so not every
scheduler event has been cancelled. -/
theorem stop_click_keeps_one_shots :
    (secondTicks 1 (freshRun 10)).map
        (fun s => (s.isRunning, s.showingFinalResult, s.targetSeconds)) =
      some (true, false, 10) ∧
    ((secondTicks 1 (freshRun 10)).bind (startStopButtonClick 1500 0 0 0)).map
        (fun s => (s.isRunning, s.showingFinalResult, s.tasks)) =
      some (false, true,
        [{ handler := Handler.shortLedOff, delay := 50, period := 0 },
         { handler := Handler.blinkDone, delay := 100, period := 0 },
         { handler := Handler.shortBuzzerOff, delay := 30, period := 0 }]) ∧
    ((secondTicks 1 (freshRun 10)).bind (startStopButtonClick 1500 0 0 0)).map
        (fun s => decide (s.tasks = [])) = some false := by
  refine ⟨by decide, by decide, by decide⟩

/-! ## Click while showing the result -/

/-- C12 (code evaluated at the failing input): a start/stop click in a
ShowingResult state whose potentiometer was last sampled 50 ms earlier returns
to Idle (not running, not showing, display visible) but leaves targetSeconds
as it was, whatever the potentiometer reads now; with the
potentiometer at 1023 (which maps to 60) the target is still 11 after the
click in the run: sample (target 11), start, stop, sample at 6000 ms, click
at 6050 ms. -/
theorem forced_read_is_throttled :
    (∀ (s : State) (r1 r2 r3 : Int),
      ∃ s', startStopButtonClick 1050 r1 r2 r3
          { s with showingFinalResult := true, isRunning := false, lastPotRead := 1000 } =
          some s' ∧
        s'.isRunning = false ∧ s'.showingFinalResult = false ∧ s'.displayVisible = true ∧
        s'.targetSeconds = s.targetSeconds) ∧
    potTarget 1023 1023 1023 = 60 ∧
    (runEvents
        [Event.potSample 100 200 200 200, Event.startStopClick 200 200 200 200,
         Event.startStopClick 5000 200 200 200, Event.potSample 6000 200 200 200]
        initialState).map
      (fun s => (s.isRunning, s.showingFinalResult, s.targetSeconds, s.lastPotRead)) =
      some (false, true, 11, 6000) ∧
    (runEvents
        [Event.potSample 100 200 200 200, Event.startStopClick 200 200 200 200,
         Event.startStopClick 5000 200 200 200, Event.potSample 6000 200 200 200,
         Event.startStopClick 6050 1023 1023 1023]
        initialState).map
      (fun s => (s.isRunning, s.showingFinalResult, s.targetSeconds)) =
      some (false, false, 11) := by
  refine ⟨?_, by decide, by decide, by decide⟩
  intro s r1 r2 r3
  have hth : usub 1050 1000 < potReadInterval := by decide
  have e := startStopButtonClick_showing 1050 r1 r2 r3
    { s with showingFinalResult := true, isRunning := false, lastPotRead := 1000 } rfl
  rw [readPotentiometer_throttled 1050 r1 r2 r3 _ hth] at e
  exact ⟨_, e, rfl, rfl, rfl, rfl⟩

/-! ## Reset click -/

/-- C13 (amended): from every reachable state (Idle, ShowingResult, or Running
with targetSeconds at least 1) a reset click is defined and yields an Idle
state: isRunning false, showingFinalResult false, displayVisible true,
lastCompletedInterval 0, currentSecond, displaySecond and currentTenths 0; and
if the session was Running, all recurring scheduler events are cancelled (the
pending one-shot events stay scheduled) and LED and buzzer are low. -/
theorem reset_click_from_reachable (s : State) (now : Nat) (r1 r2 r3 : Int)
    (hreach : Reach s) (hT : s.isRunning = true → 1 ≤ s.targetSeconds) :
    ∃ s', resetButtonClick now r1 r2 r3 s = some s' ∧
      s'.isRunning = false ∧ s'.showingFinalResult = false ∧ s'.displayVisible = true ∧
      s'.lastCompletedInterval = 0 ∧
      s'.currentSecond = 0 ∧ s'.displaySecond = 0 ∧ s'.currentTenths = 0 ∧
      (s.isRunning = true →
        s'.tasks = oneShots s.tasks ∧ recurring s'.tasks = [] ∧
        s'.led = false ∧ s'.buzzer = false) := by
  obtain ⟨-, -, -, -, hn, -, -⟩ := reach_sessionInv s hreach
  have hstop : ∃ s1, stopTimer (serialPrint SerialLine.resetPressed s) = some s1 ∧
      s1.isRunning = false ∧ s1.currentSecond = 0 ∧ s1.displaySecond = 0 ∧
      s1.currentTenths = 0 ∧
      (s.isRunning = true →
        s1.tasks = oneShots s.tasks ∧ s1.led = false ∧ s1.buzzer = false) := by
    cases hr : s.isRunning
    · obtain ⟨c1, c2, c3⟩ := hn hr
      refine ⟨serialPrint SerialLine.resetPressed s, ?_, hr, c1, c2, c3, ?_⟩
      · have e : (serialPrint SerialLine.resetPressed s).isRunning = false := hr
        simp [stopTimer, e]
      · intro h0
        exact absurd h0 (by decide)
    · have hT0 : (serialPrint SerialLine.resetPressed s).targetSeconds ≠ 0 := by
        show s.targetSeconds ≠ 0
        have := hT hr
        omega
      obtain ⟨s1, hs1, -, g2, -, g4, g5, g6, g7, g8, g9, -, -⟩ :=
        stopTimer_running (serialPrint SerialLine.resetPressed s) hr hT0
      exact ⟨s1, hs1, g2, g7, g8, g9, fun _ => ⟨g4, g5, g6⟩⟩
  obtain ⟨s1, hs1, k1, k2, k3, k4, k5⟩ := hstop
  obtain ⟨f1, f2, f3, f4, f5, -, f7, f8, f9, f10, -, f12⟩ :=
    readPotentiometer_fields now r1 r2 r3
      { s1 with
        showingFinalResult := false, displayVisible := true, lastCompletedInterval := 0 }
  refine ⟨_, resetButtonClick_eq now r1 r2 r3 s s1 hs1, ?_, ?_, ?_, ?_, ?_, ?_, ?_, ?_⟩
  · exact f5.trans k1
  · rcases f12 with e | e <;> exact e
  · exact f7
  · exact f4
  · exact f1.trans k2
  · exact f2.trans k3
  · exact f3.trans k4
  · intro hr
    obtain ⟨t1, t2, t3⟩ := k5 hr
    have ht : (readPotentiometer now r1 r2 r3
        { s1 with
          showingFinalResult := false, displayVisible := true,
          lastCompletedInterval := 0 }).tasks = oneShots s.tasks := f8.trans t1
    refine ⟨ht, ?_, f9.trans t2, f10.trans t3⟩
    show recurring (readPotentiometer now r1 r2 r3
        { s1 with
          showingFinalResult := false, displayVisible := true,
          lastCompletedInterval := 0 }).tasks = []
    rw [ht]
    exact recurring_oneShots s.tasks

theorem reset_click_from_reachable_witness :
    runEvents tickedEvents initialState = some tickedReachable ∧
    Reach tickedReachable ∧
    (tickedReachable.isRunning = true ∧ (1 : Int) ≤ tickedReachable.targetSeconds) ∧
    tickedReachable.currentSecond = 1 ∧ tickedReachable.tasks.length = 5 ∧
    tickedReachable.led = true ∧
    ∃ s', resetButtonClick 1500 200 200 200 tickedReachable = some s' ∧
      s'.isRunning = false ∧ s'.showingFinalResult = false ∧ s'.displayVisible = true ∧
      s'.lastCompletedInterval = 0 ∧
      s'.currentSecond = 0 ∧ s'.displaySecond = 0 ∧ s'.currentTenths = 0 ∧
      s'.tasks =
        [{ handler := Handler.shortLedOff, delay := 50, period := 0 },
         { handler := Handler.blinkDone, delay := 100, period := 0 },
         { handler := Handler.shortBuzzerOff, delay := 30, period := 0 }] ∧
      recurring s'.tasks = [] ∧ s'.led = false ∧ s'.buzzer = false := by
  have hrun : runEvents tickedEvents initialState = some tickedReachable := by decide
  have hreach : Reach tickedReachable :=
    reach_runEvents tickedEvents initialState tickedReachable Reach.init (by decide) hrun
  obtain ⟨s', h1, h2, h3, h4, h5, h6, h7, h8, h9⟩ :=
    reset_click_from_reachable tickedReachable 1500 200 200 200 hreach (fun _ => by decide)
  obtain ⟨k1, k2, k3, k4⟩ := h9 (by decide)
  exact ⟨hrun, hreach, ⟨by decide, by decide⟩, by decide, by decide, by decide,
    s', h1, h2, h3, h4, h5, h6, h7, h8, k1.trans (by decide), k2, k3, k4⟩

/-- C13 (as stated, refuted): the potentiometer is sampled (target 11), the
session is started and one second tick fires; in this reachable Running state
a reset click leaves the three pending one-shot events of the short pattern in
the scheduler, so not all scheduler events are cancelled. -/
theorem reset_click_keeps_one_shots :
    (∀ e ∈ tickedEvents, e.inRange = true) ∧
    (runEvents tickedEvents initialState).map
        (fun s => (s.isRunning, s.targetSeconds)) = some (true, 11) ∧
    ((runEvents tickedEvents initialState).bind (resetButtonClick 1500 200 200 200)).map
        (fun s => (s.isRunning, s.showingFinalResult, s.tasks)) =
      some (false, false,
        [{ handler := Handler.shortLedOff, delay := 50, period := 0 },
         { handler := Handler.blinkDone, delay := 100, period := 0 },
         { handler := Handler.shortBuzzerOff, delay := 30, period := 0 }]) ∧
    ((runEvents tickedEvents initialState).bind (resetButtonClick 1500 200 200 200)).map
        (fun s => decide (s.tasks = [])) = some false := by
  refine ⟨by decide, by decide, by decide, by decide⟩

/-! ## Potentiometer sampling -/

/-- C14: for every non-Running state with targetSeconds in 0..60 and raw reads
in 0..1023: if the unsigned difference now - lastPotRead is below 100 ms,
readPotentiometer returns the state unchanged; otherwise it sets targetSeconds
to the mapped reading and lastPotRead to now, clears showingFinalResult exactly
when the mapped reading differs from the previous target (then reporting it on
Serial) and changes nothing else. -/
theorem readPotentiometer_frame (s : State) (now : Nat) (r1 r2 r3 : Int)
    (hrun : s.isRunning = false)
    (hT : 0 ≤ s.targetSeconds ∧ s.targetSeconds ≤ 60)
    (h1 : 0 ≤ r1 ∧ r1 ≤ 1023) (h2 : 0 ≤ r2 ∧ r2 ≤ 1023) (h3 : 0 ≤ r3 ∧ r3 ≤ 1023) :
    potReadInterval = 100 ∧
    (usub now s.lastPotRead < 100 → readPotentiometer now r1 r2 r3 s = s) ∧
    (¬ usub now s.lastPotRead < 100 →
      readPotentiometer now r1 r2 r3 s =
        { s with
          targetSeconds := potTarget r1 r2 r3,
          lastPotRead := now,
          showingFinalResult :=
            if potTarget r1 r2 r3 ≠ s.targetSeconds then false else s.showingFinalResult,
          serial :=
            if potTarget r1 r2 r3 ≠ s.targetSeconds ∧ s.showingFinalResult = true then
              s.serial ++ [SerialLine.potMoved (potTarget r1 r2 r3)]
            else s.serial } ∧
      (readPotentiometer now r1 r2 r3 s).isRunning = false) := by
  have hrun' := hrun
  have hp := potTarget_bounds r1 r2 r3 h1 h2 h3
  have hiff := target_changed_iff (potTarget r1 r2 r3) s.targetSeconds hp hT
  refine ⟨rfl, ?_, ?_⟩
  · intro hlt
    have hlt' : usub now s.lastPotRead < potReadInterval := hlt
    simp [readPotentiometer, hlt']
  · intro hge
    have hge' : ¬ usub now s.lastPotRead < potReadInterval := hge
    by_cases hne : potTarget r1 r2 r3 ≠ s.targetSeconds
    · have hch : iabs (isub (potTarget r1 r2 r3) s.targetSeconds) > 0 := hiff.2 hne
      cases hsh : s.showingFinalResult <;>
        simp [readPotentiometer, hge', hch, hne, hsh, serialPrint, hrun]
    · have hch : ¬ iabs (isub (potTarget r1 r2 r3) s.targetSeconds) > 0 :=
        fun h => hne (hiff.1 h)
      have heq : potTarget r1 r2 r3 = s.targetSeconds := by
        by_contra h
        exact hne h
      have e : readPotentiometer now r1 r2 r3 s = { s with lastPotRead := now } := by
        simp only [readPotentiometer, if_neg hge', if_neg hch]
      have c1 : (if potTarget r1 r2 r3 ≠ s.targetSeconds then false
          else s.showingFinalResult) = s.showingFinalResult := if_neg hne
      have c2 : (if potTarget r1 r2 r3 ≠ s.targetSeconds ∧ s.showingFinalResult = true then
            s.serial ++ [SerialLine.potMoved (potTarget r1 r2 r3)]
          else s.serial) = s.serial := if_neg (fun h => hne h.1)
      rw [e, c1, c2, heq]
      exact ⟨rfl, hrun⟩

theorem readPotentiometer_frame_witness :
    (initialState.isRunning = false ∧ (0 : Int) ≤ initialState.targetSeconds) ∧
    readPotentiometer 50 1023 1023 1023 initialState = initialState ∧
    (readPotentiometer 100 1023 1023 1023 initialState).targetSeconds = 60 ∧
    (readPotentiometer 100 1023 1023 1023 initialState).lastPotRead = 100 := by
  have h := readPotentiometer_frame initialState 50 1023 1023 1023 rfl
    ⟨by decide, by decide⟩ ⟨by decide, by decide⟩ ⟨by decide, by decide⟩
    ⟨by decide, by decide⟩
  exact ⟨⟨rfl, by decide⟩, h.2.1 (by decide), by decide, by decide⟩

/-! ## End of the double pattern -/

/-- C15 (code evaluated at the failing input): a double pattern started in the
power-on state (LED and buzzer low, sound enabled) whose mode switch is sampled
LOW and then HIGH before the first turn-off callback ends with the LED low and
the buzzer still high, because both turn-off callbacks lower the buzzer only if
soundEnabled holds when they run. Whatever the samples, the LED is low at the
end, and with no mode-switch change the buzzer is low as well. -/
theorem double_pattern_leaves_buzzer_on :
    initialState.led = false ∧ initialState.buzzer = false ∧
    (doublePatternRun [false, true] [] [] [] initialState).led = false ∧
    (doublePatternRun [false, true] [] [] [] initialState).buzzer = true ∧
    (doublePatternRun [false, true] [] [] [] initialState).soundEnabled = false ∧
    (doublePatternRun [] [] [] [] initialState).buzzer = false ∧
    (∀ (l1 l2 l3 l4 : List Bool) (s : State), (doublePatternRun l1 l2 l3 l4 s).led = false) := by
  refine ⟨rfl, rfl, by decide, by decide, by decide, by decide, ?_⟩
  intro l1 l2 l3 l4 s
  exact doubleOff_led _

/-! ## Range of the displayed value -/

/-- C16 (code evaluated at the failing input): the potentiometer is sampled at
1023 (target 60), the session is started, 120 second ticks fire and the session
is stopped; the state is reachable, shows the result with
lastCompletedInterval = 120, and updateDisplay renders 12000, above 9999 and
not a 4-digit value. -/
theorem display_value_exceeds_four_digits :
    ∃ s, Reach s ∧ s.showingFinalResult = true ∧ s.displayVisible = true ∧
      s.lastCompletedInterval = 120 ∧
      (updateDisplay s).display = Display.number 12000 true ∧
      ¬ ((12000 : Int) ≤ 9999) := by
  have hstart : runEvents
      [Event.potSample 100 1023 1023 1023, Event.startStopClick 200 1023 1023 1023]
      initialState = some longSessionStart := by decide
  have hr0 : Reach longSessionStart :=
    reach_runEvents _ initialState longSessionStart Reach.init (by decide) hstart
  obtain ⟨s2, hs2, hr2, ht2, hsh2, -, hc2, -, -⟩ :=
    secondTicks_fields longSessionStart rfl (by decide) rfl rfl rfl 120 (by omega)
  have ht : s2.targetSeconds = 60 := ht2.trans (by decide)
  have hsh : s2.showingFinalResult = false := hsh2
  have hreach2 : Reach s2 := reach_secondTicks 120 longSessionStart s2 hr0 hs2
  have hT0 : (serialPrint SerialLine.stopping
      (serialPrint SerialLine.startStopPressed s2)).targetSeconds ≠ 0 := by
    show s2.targetSeconds ≠ 0
    omega
  obtain ⟨s3, hs3, hl3, -, hshow3, -⟩ :=
    stopTimer_running (serialPrint SerialLine.stopping
      (serialPrint SerialLine.startStopPressed s2)) hr2 hT0
  have hclick : startStopButtonClick 130000 1023 1023 1023 s2 = some s3 := by
    rw [startStopButtonClick_running 130000 1023 1023 1023 s2 hsh hr2]
    exact hs3
  have hreach3 : Reach s3 :=
    Reach.next (Event.startStopClick 130000 1023 1023 1023) hreach2 (by decide) hclick
  have hvis : s3.displayVisible = true :=
    (stopTimer_displayVisible _ s3 hs3).trans
      (secondTicks_displayVisible 120 longSessionStart s2 hs2)
  have hlv : s3.lastCompletedInterval = 120 := by
    rw [hl3]
    show imul (wrap16 (Int.tdiv s2.currentSecond s2.targetSeconds)) s2.targetSeconds = 120
    rw [hc2, ht]
    decide
  have hd : (updateDisplay s3).display = Display.number 12000 true := by
    simp only [updateDisplay, hshow3, hvis, hlv, if_true]
    decide
  exact ⟨s3, hreach3, hshow3, hvis, hlv, hd, by decide⟩

/-! ## Mode switch history -/

/-- C17 (code evaluated at the failing input): in the power-on state the
remembered level is HIGH and soundEnabled is true; the first flip (a LOW sample)
leaves soundEnabled true; after a further HIGH sample the remembered level is
HIGH again but soundEnabled is false. Both states are reachable, so the last
sampled level does not determine soundEnabled. -/
theorem soundEnabled_depends_on_history :
    initialState.lastSwitchState = true ∧ initialState.soundEnabled = true ∧
    (readModeSwitch false initialState).soundEnabled = initialState.soundEnabled ∧
    (readModeSwitch true (readModeSwitch false initialState)).lastSwitchState =
      initialState.lastSwitchState ∧
    (readModeSwitch true (readModeSwitch false initialState)).soundEnabled = false ∧
    Reach initialState ∧
    Reach (readModeSwitch true (readModeSwitch false initialState)) := by
  refine ⟨rfl, rfl, rfl, rfl, rfl, Reach.init, ?_⟩
  exact Reach.next (Event.modeSample true)
    (Reach.next (Event.modeSample false) Reach.init rfl rfl) rfl rfl

/-! ## Tenth tick -/

/-- C18: in a Running state with currentTenths in [0,9] the tenth tick sets
currentTenths to (currentTenths + 1) mod 10, changes nothing else and returns
true; in a non-Running state it changes nothing and returns false; and
currentTenths lies in [0,9] in every reachable state. -/
theorem tenthsCallback_wraps (s : State) :
    (s.isRunning = true → 0 ≤ s.currentTenths → s.currentTenths ≤ 9 →
      tenthsCallback s = ({ s with currentTenths := (s.currentTenths + 1) % 10 }, true)) ∧
    (s.isRunning = false → tenthsCallback s = (s, false)) ∧
    (Reach s → 0 ≤ s.currentTenths ∧ s.currentTenths ≤ 9) := by
  refine ⟨?_, ?_, ?_⟩
  · intro hr h0 h9
    have hi : iadd s.currentTenths 1 = s.currentTenths + 1 :=
      wrap16_of_range (by omega) (by omega)
    by_cases hlt : s.currentTenths + 1 > 9
    · have hm : (s.currentTenths + 1) % 10 = 0 := by omega
      simp [tenthsCallback, hr, hi, hlt, hm]
    · have hm : (s.currentTenths + 1) % 10 = s.currentTenths + 1 := by omega
      simp [tenthsCallback, hr, hi, hlt, hm]
  · intro hr
    simp [tenthsCallback, hr]
  · intro h
    exact (reach_sessionInv s h).2.1

theorem tenthsCallback_wraps_witness :
    ((freshRun 10).isRunning = true ∧ (0 : Int) ≤ (freshRun 10).currentTenths) ∧
    (tenthsCallback (freshRun 10)).1.currentTenths = 1 ∧
    (tenthsCallback (freshRun 10)).2 = true ∧
    (tenthsCallback { freshRun 10 with currentTenths := 9 }).1.currentTenths = 0 ∧
    tenthsCallback initialState = (initialState, false) := by
  have h := (tenthsCallback_wraps (freshRun 10)).1 rfl (by decide) (by decide)
  have h2 := (tenthsCallback_wraps initialState).2.1 rfl
  exact ⟨⟨rfl, by decide⟩, by rw [h]; decide, by rw [h], by decide, h2⟩

/-! ## Lifecycle -/

/-- C19: in every reachable state isRunning and showingFinalResult are not both
true; moreover each of startStopButtonClick, resetButtonClick,
readPotentiometer, readModeSwitch, timerCallback and tenthsCallback, applied to
any state where they are not both true, yields (when defined) a state where
they are not both true. -/
theorem lifecycle_exclusive :
    (∀ s : State, Reach s → ¬ (s.isRunning = true ∧ s.showingFinalResult = true)) ∧
    (∀ (s s' : State) (now : Nat) (r1 r2 r3 : Int) (level : Bool) (b : Bool),
      ¬ (s.isRunning = true ∧ s.showingFinalResult = true) →
      (startStopButtonClick now r1 r2 r3 s = some s' ∨
        resetButtonClick now r1 r2 r3 s = some s' ∨
        readPotentiometer now r1 r2 r3 s = s' ∨
        readModeSwitch level s = s' ∨
        timerCallback s = some (s', b) ∨
        tenthsCallback s = (s', b)) →
      ¬ (s'.isRunning = true ∧ s'.showingFinalResult = true)) := by
  refine ⟨fun s h => (reach_sessionInv s h).2.2.2.1, ?_⟩
  intro s s' now r1 r2 r3 level b hP hop
  rcases hop with h | h | h | h | h | h
  · -- startStopButtonClick
    cases hsh : s.showingFinalResult
    · cases hr : s.isRunning
      · rw [startStopButtonClick_idle now r1 r2 r3 s hsh hr] at h
        rw [← Option.some.inj h]
        intro hb
        have := (startTimer_idle (serialPrint SerialLine.starting
          (serialPrint SerialLine.startStopPressed s)) hr).2.2.2.2.2.2.1
        rw [this] at hb
        exact Bool.false_ne_true hb.2
      · rw [startStopButtonClick_running now r1 r2 r3 s hsh hr] at h
        have hT0 : (serialPrint SerialLine.stopping
            (serialPrint SerialLine.startStopPressed s)).targetSeconds ≠ 0 := by
          intro h0
          have hr' : (serialPrint SerialLine.stopping
            (serialPrint SerialLine.startStopPressed s)).isRunning = true := hr
          simp [stopTimer, idiv, h0, hr'] at h
        obtain ⟨s2, hs2, -, g2, -⟩ := stopTimer_running (serialPrint SerialLine.stopping
          (serialPrint SerialLine.startStopPressed s)) hr hT0
        rw [h] at hs2
        rw [Option.some.inj hs2]
        intro hb
        rw [g2] at hb
        exact Bool.false_ne_true hb.1
    · rw [startStopButtonClick_showing now r1 r2 r3 s hsh] at h
      rw [← Option.some.inj h]
      obtain ⟨-, -, -, -, -, -, -, -, -, -, -, f12⟩ := readPotentiometer_fields now r1 r2 r3
        { serialPrint SerialLine.startStopPressed s with
          showingFinalResult := false, displayVisible := true }
      intro hb
      have hb2 : (readPotentiometer now r1 r2 r3
        { serialPrint SerialLine.startStopPressed s with
          showingFinalResult := false, displayVisible := true }).showingFinalResult = true :=
        hb.2
      rcases f12 with e | e <;> rw [e] at hb2 <;> exact Bool.false_ne_true hb2
  · -- resetButtonClick
    cases hst : stopTimer (serialPrint SerialLine.resetPressed s) with
    | none => simp [resetButtonClick, hst] at h
    | some s1 =>
      rw [resetButtonClick_eq now r1 r2 r3 s s1 hst] at h
      rw [← Option.some.inj h]
      obtain ⟨-, -, -, -, -, -, -, -, -, -, -, f12⟩ := readPotentiometer_fields now r1 r2 r3
        { s1 with
          showingFinalResult := false, displayVisible := true, lastCompletedInterval := 0 }
      intro hb
      have hb2 : (readPotentiometer now r1 r2 r3
        { s1 with
          showingFinalResult := false, displayVisible := true,
          lastCompletedInterval := 0 }).showingFinalResult = true := hb.2
      rcases f12 with e | e <;> rw [e] at hb2 <;> exact Bool.false_ne_true hb2
  · -- readPotentiometer
    obtain ⟨-, -, -, -, f5, -, -, -, -, -, -, f12⟩ := readPotentiometer_fields now r1 r2 r3 s
    rw [← h]
    intro hb
    rw [f5] at hb
    rcases f12 with e | e
    · rw [e] at hb
      exact hP hb
    · rw [e] at hb
      exact Bool.false_ne_true hb.2
  · -- readModeSwitch
    rw [← h]
    have e1 : (readModeSwitch level s).isRunning = s.isRunning := by
      unfold readModeSwitch serialPrint; split <;> rfl
    have e2 : (readModeSwitch level s).showingFinalResult = s.showingFinalResult := by
      unfold readModeSwitch serialPrint; split <;> rfl
    rw [e1, e2]
    exact hP
  · -- timerCallback
    cases hr : s.isRunning
    · have e : timerCallback s = some (s, false) := by simp [timerCallback, hr]
      rw [e] at h
      rw [← (Prod.mk.inj (Option.some.inj h)).1]
      exact hP
    · have hT0 : s.targetSeconds ≠ 0 := by
        intro h0
        simp [timerCallback, hr, imod, h0] at h
      obtain ⟨s2, hs2, r2, -, sh2, -⟩ := timerCallback_running s hr hT0
      rw [h] at hs2
      rw [(Prod.mk.inj (Option.some.inj hs2)).1, r2, sh2]
      intro hb
      exact hP ⟨hr, hb.2⟩
  · -- tenthsCallback
    obtain ⟨f1, -, -, -, -, f6, -⟩ := tenthsCallback_fields s
    have e : s' = (tenthsCallback s).1 := by rw [h]
    rw [e, f1, f6]
    exact hP

theorem lifecycle_exclusive_witness :
    Reach initialState ∧
    ¬ (initialState.isRunning = true ∧ initialState.showingFinalResult = true) ∧
    ¬ ((freshRun 10).isRunning = true ∧ (freshRun 10).showingFinalResult = true) := by
  have h := lifecycle_exclusive.1 initialState Reach.init
  have h2 := lifecycle_exclusive.2 initialState (freshRun 10) 0 0 0 0 true true h
  refine ⟨Reach.init, h, ?_⟩
  intro hb
  exact Bool.false_ne_true hb.2

/-! ## The last completed interval while running -/

/-- C20 (amended): in every state reached from startTimer (target in [1,60]) by
tenth ticks and at most 32767 second ticks, the session is Running and
lastCompletedInterval equals floor(currentSecond / targetSeconds) *
targetSeconds; it is a multiple of targetSeconds not exceeding currentSecond,
and stopTimer is defined and leaves lastCompletedInterval at the value it
already held. -/
theorem completed_interval_invariant (s0 s : State) (k : Nat)
    (hidle : s0.isRunning = false)
    (hT1 : 1 ≤ s0.targetSeconds) (hT60 : s0.targetSeconds ≤ 60)
    (hreach : TickReach s0 k s) (hk : k ≤ 32767) :
    s.isRunning = true ∧
    s.lastCompletedInterval = s.currentSecond / s.targetSeconds * s.targetSeconds ∧
    s.targetSeconds ∣ s.lastCompletedInterval ∧
    s.lastCompletedInterval ≤ s.currentSecond ∧
    ∃ s', stopTimer s = some s' ∧ s'.lastCompletedInterval = s.lastCompletedInterval := by
  have hT60' := hT60
  obtain ⟨hr, ht, hc, -, hl⟩ := tickReach_fields s0 hidle hT1 k s hreach hk
  have hq := ediv_bounds (a := (k : Int)) (b := s0.targetSeconds) (by omega) (by omega)
  have hqm : 0 ≤ (k : Int) / s0.targetSeconds * s0.targetSeconds :=
    Int.mul_nonneg hq.1 (by omega)
  have hqle : (k : Int) / s0.targetSeconds * s0.targetSeconds ≤ k :=
    Int.ediv_mul_le _ (by omega)
  obtain ⟨s', hs', hl', -⟩ := stopTimer_running s hr (by omega)
  refine ⟨hr, by rw [hl, hc, ht], ?_, by rw [hl, hc]; exact hqle, s', hs', ?_⟩
  · rw [hl, ht]
    exact Dvd.intro_left _ rfl
  · rw [hl', hc, ht, hl, Int.tdiv_eq_ediv (by omega) (by omega),
      wrap16_of_range (by omega) (by omega)]
    exact wrap16_of_range (by omega) (by omega)

theorem completed_interval_invariant_witness :
    ∃ s, secondTicks 25 (freshRun 10) = some s ∧
      TickReach { initialState with targetSeconds := 10 } 25 s ∧
      s.lastCompletedInterval = s.currentSecond / s.targetSeconds * s.targetSeconds ∧
      ∃ s', stopTimer s = some s' ∧ s'.lastCompletedInterval = s.lastCompletedInterval := by
  obtain ⟨s, hs, -⟩ :=
    secondTicks_fields (freshRun 10) rfl (by decide) rfl rfl rfl 25 (by omega)
  have hreach := tickReach_secondTicks { initialState with targetSeconds := 10 } 25 s hs
  obtain ⟨-, h2, -, -, h5⟩ :=
    completed_interval_invariant { initialState with targetSeconds := 10 } s 25 rfl
      (by decide) (by decide) hreach (by omega)
  exact ⟨s, hs, hreach, h2, h5⟩

/-- C20 (as stated, refuted): with target 10, after 32768 second ticks the
16-bit currentSecond has wrapped to -32768 while lastCompletedInterval still
holds 32760: it exceeds currentSecond, differs from
(currentSecond / targetSeconds) * targetSeconds under floor and under
truncating division, and stopTimer replaces it by -32760. -/
theorem completed_interval_overflow :
    ∃ s, TickReach { initialState with targetSeconds := 10 } 32768 s ∧
      s.isRunning = true ∧ s.targetSeconds = 10 ∧ s.currentSecond = -32768 ∧
      s.lastCompletedInterval = 32760 ∧
      s.lastCompletedInterval ≠ s.currentSecond / s.targetSeconds * s.targetSeconds ∧
      s.lastCompletedInterval ≠
        Int.tdiv s.currentSecond s.targetSeconds * s.targetSeconds ∧
      ¬ (s.lastCompletedInterval ≤ s.currentSecond) ∧
      ∃ s', stopTimer s = some s' ∧ s'.lastCompletedInterval = -32760 := by
  obtain ⟨s, hs, hr, ht, -, -, hc, -, hl⟩ :=
    secondTicks_fields (freshRun 10) rfl (by decide) rfl rfl rfl 32767 (by omega)
  have ht10 : s.targetSeconds = 10 := ht
  have hl0 : s.lastCompletedInterval = 32760 := by rw [hl]; decide
  have hreach := tickReach_secondTicks { initialState with targetSeconds := 10 } 32767 s hs
  obtain ⟨s1, hs1, hr1, ht1, -, -, hc1, -, -, hl1⟩ := timerCallback_running s hr (by omega)
  rw [hc, ht10, hl0] at hl1
  rw [hc] at hc1
  have hc1v : s1.currentSecond = -32768 := by rw [hc1]; decide
  have hl1v : s1.lastCompletedInterval = 32760 := by rw [hl1]; decide
  have ht1v : s1.targetSeconds = 10 := ht1.trans ht10
  obtain ⟨s', hs', hl', -⟩ := stopTimer_running s1 hr1 (by omega)
  refine ⟨s1, TickReach.second hreach hs1, hr1, ht1v, hc1v, hl1v, ?_, ?_, ?_, s', hs', ?_⟩
  · rw [hl1v, hc1v, ht1v]; decide
  · rw [hl1v, hc1v, ht1v]; decide
  · rw [hl1v, hc1v]; decide
  · rw [hl', hc1v, ht1v]; decide

/-! ## What a handler leaves in the scheduler table -/

theorem addTask_ext (t : Task) (ts base L : List Task)
    (h : ∃ new, ts = base ++ new ∧ new.Sublist L) :
    ∃ new, addTask t ts = base ++ new ∧ new.Sublist (L ++ [t]) := by
  obtain ⟨new, h1, h2⟩ := h
  unfold addTask
  split
  · exact ⟨new ++ [t], by rw [h1, List.append_assoc], List.Sublist.append h2 (List.Sublist.refl _)⟩
  · exact ⟨new, h1, h2.trans (List.sublist_append_left L [t])⟩

theorem ext_refl (ts : List Task) : ∃ new, ts = ts ++ new ∧ new.Sublist [] :=
  ⟨[], by simp, List.Sublist.refl _⟩

theorem doubleSignal_tasks (s : State) :
    (doubleSignal s).tasks =
      addTask { handler := Handler.doubleSecondPulse, delay := 100, period := 0 }
        (addTask { handler := Handler.doubleFirstOff, delay := 50, period := 0 }
          (addTask { handler := Handler.blinkDone, delay := 100, period := 0 } s.tasks)) := by
  cases hs : s.soundEnabled <;>
    simp [doubleSignal, blinkDisplay, timer_in, hs, DISPLAY_BLINK_DURATION,
      SHORT_BLINK_DURATION, DOUBLE_BLINK_INTERVAL]

theorem shortSignal_tasks (s : State) :
    (shortSignal s).tasks =
      if s.soundEnabled = true then
        addTask { handler := Handler.shortBuzzerOff, delay := 30, period := 0 }
          (addTask { handler := Handler.blinkDone, delay := 100, period := 0 }
            (addTask { handler := Handler.shortLedOff, delay := 50, period := 0 } s.tasks))
      else
        addTask { handler := Handler.blinkDone, delay := 100, period := 0 }
          (addTask { handler := Handler.shortLedOff, delay := 50, period := 0 } s.tasks) := by
  cases hs : s.soundEnabled <;>
    simp [shortSignal, blinkDisplay, timer_in, hs, DISPLAY_BLINK_DURATION,
      SHORT_BLINK_DURATION, SHORT_BEEP_DURATION]

theorem doubleSecondPulse_tasks (s : State) :
    (doubleSecondPulse s).tasks =
      addTask { handler := Handler.doubleSecondOff, delay := 50, period := 0 }
        (addTask { handler := Handler.doubleSecondBlink, delay := 10, period := 0 } s.tasks) := by
  cases hs : s.soundEnabled <;>
    simp [doubleSecondPulse, timer_in, hs, SHORT_BLINK_DURATION]

theorem doubleSignal_isRunning (s : State) : (doubleSignal s).isRunning = s.isRunning := by
  cases hs : s.soundEnabled <;> simp [doubleSignal, blinkDisplay, timer_in, hs]

theorem shortSignal_isRunning (s : State) : (shortSignal s).isRunning = s.isRunning := by
  cases hs : s.soundEnabled <;> simp [shortSignal, blinkDisplay, timer_in, hs]

theorem timerCallback_spawn (s s1 : State) (keep : Bool)
    (h : timerCallback s = some (s1, keep)) :
    (∃ new, s1.tasks = s.tasks ++ new ∧ Spawn Handler.timerCallback new) ∧
    s1.isRunning = s.isRunning ∧ (s.isRunning = true → keep = true) := by
  unfold timerCallback at h
  cases hr : s.isRunning
  · simp [hr] at h
    obtain ⟨h1, -⟩ := h
    subst h1
    exact ⟨⟨[], by simp, Or.inl (List.nil_sublist _)⟩, hr, by simp⟩
  · by_cases hT : s.targetSeconds = 0
    · simp [hr, imod, hT] at h
    · by_cases hm : Int.tmod (iadd s.currentSecond 1) s.targetSeconds = 0
      · obtain ⟨new, e, hsub⟩ := addTask_ext
          { handler := Handler.doubleSecondPulse, delay := 100, period := 0 } _ s.tasks _
          (addTask_ext { handler := Handler.doubleFirstOff, delay := 50, period := 0 } _
            s.tasks _
            (addTask_ext { handler := Handler.blinkDone, delay := 100, period := 0 } _
              s.tasks _ (ext_refl s.tasks)))
        cases hs : s.soundEnabled <;>
          simp [hr, imod, idiv, hT, hm, doubleSignal, blinkDisplay, timer_in, serialPrint, hs]
            at h <;>
          (obtain ⟨h1, h2⟩ := h; subst h1; exact ⟨⟨new, e, Or.inr hsub⟩, rfl, fun _ => h2⟩)
      · cases hs : s.soundEnabled
        · obtain ⟨new, e, hsub⟩ :=
            addTask_ext { handler := Handler.blinkDone, delay := 100, period := 0 } _
              s.tasks _
              (addTask_ext { handler := Handler.shortLedOff, delay := 50, period := 0 } _
                s.tasks _ (ext_refl s.tasks))
          simp [hr, imod, idiv, hT, hm, shortSignal, blinkDisplay, timer_in, serialPrint, hs]
            at h
          obtain ⟨h1, h2⟩ := h
          subst h1
          exact ⟨⟨new, e, Or.inl (hsub.trans (by decide))⟩, rfl, fun _ => h2⟩
        · obtain ⟨new, e, hsub⟩ :=
            addTask_ext { handler := Handler.shortBuzzerOff, delay := 30, period := 0 } _
              s.tasks _
              (addTask_ext { handler := Handler.blinkDone, delay := 100, period := 0 } _
                s.tasks _
                (addTask_ext { handler := Handler.shortLedOff, delay := 50, period := 0 } _
                  s.tasks _ (ext_refl s.tasks)))
          simp [hr, imod, idiv, hT, hm, shortSignal, blinkDisplay, timer_in, serialPrint, hs]
            at h
          obtain ⟨h1, h2⟩ := h
          subst h1
          exact ⟨⟨new, e, Or.inl hsub⟩, rfl, fun _ => h2⟩

theorem runHandler_spawn (h : Handler) (s s1 : State) (keep : Bool)
    (hr : runHandler h s = some (s1, keep)) :
    (∃ new, s1.tasks = s.tasks ++ new ∧ Spawn h new) ∧
    s1.isRunning = s.isRunning ∧
    (s.isRunning = true → h = Handler.timerCallback ∨ h = Handler.tenthsCallback →
      keep = true) := by
  cases h
  case timerCallback =>
    obtain ⟨h1, h2, h3⟩ := timerCallback_spawn s s1 keep hr
    exact ⟨h1, h2, fun hrun _ => h3 hrun⟩
  case tenthsCallback =>
    simp only [runHandler, Option.some.injEq] at hr
    have h1 := (tenthsCallback_fields s).1
    have ht : (tenthsCallback s).1.tasks = s.tasks := by
      unfold tenthsCallback
      cases hrun : s.isRunning
      · simp [hrun]
      · by_cases h9 : iadd s.currentTenths 1 > 9 <;> simp [h9, hrun]
    have hk : s.isRunning = true → (tenthsCallback s).2 = true := by
      intro hrun
      unfold tenthsCallback
      simp [hrun]
    rw [hr] at h1 ht hk
    exact ⟨⟨[], by simpa using ht, rfl⟩, h1, fun hrun _ => hk hrun⟩
  case doubleSecondPulse =>
    simp only [runHandler, Option.some.injEq, Prod.mk.injEq] at hr
    obtain ⟨h1, -⟩ := hr
    subst h1
    obtain ⟨new, e, hsub⟩ := addTask_ext
      { handler := Handler.doubleSecondOff, delay := 50, period := 0 } _ s.tasks _
      (addTask_ext { handler := Handler.doubleSecondBlink, delay := 10, period := 0 } _
        s.tasks _ (ext_refl s.tasks))
    refine ⟨⟨new, ?_, hsub⟩, ?_, ?_⟩
    · rw [doubleSecondPulse_tasks]
      exact e
    · cases hs : s.soundEnabled <;> simp [doubleSecondPulse, timer_in, hs]
    · intro _ hh
      rcases hh with hh | hh <;> exact absurd hh (by decide)
  case doubleSecondBlink =>
    simp only [runHandler, Option.some.injEq, Prod.mk.injEq] at hr
    obtain ⟨h1, -⟩ := hr
    subst h1
    obtain ⟨new, e, hsub⟩ := addTask_ext
      { handler := Handler.blinkDone, delay := 100, period := 0 } _ s.tasks _ (ext_refl s.tasks)
    refine ⟨⟨new, e, hsub⟩, rfl, ?_⟩
    intro _ hh
    rcases hh with hh | hh <;> exact absurd hh (by decide)
  all_goals
    simp only [runHandler, Option.some.injEq, Prod.mk.injEq] at hr
    obtain ⟨h1, -⟩ := hr
    subst h1
    refine ⟨⟨[], ?_, rfl⟩, ?_, ?_⟩
    · first
        | (simp; done)
        | (unfold doubleOff; cases hs : s.soundEnabled <;> simp [hs])
    · first
        | rfl
        | (unfold doubleOff; cases hs : s.soundEnabled <;> simp [hs])
    · intro _ hh
      rcases hh with hh | hh <;> exact absurd hh (by decide)

/-! ## One call of `timer.tick()` -/

theorem settle_append (keep : Bool) (l m : List Task) (h : ∃ t ∈ l, t.delay = 0) :
    settle keep (l ++ m) = settle keep l ++ m := by
  induction l with
  | nil =>
    obtain ⟨t, ht, -⟩ := h
    cases ht
  | cons a l ih =>
    by_cases ha : a.delay = 0
    · by_cases hk : keep = true ∧ a.period ≠ 0 <;> simp [settle, ha, hk]
    · obtain ⟨t, ht, h0⟩ := h
      have h' : ∃ t ∈ l, t.delay = 0 := by
        rcases List.mem_cons.1 ht with rfl | ht'
        · exact absurd h0 ha
        · exact ⟨t, ht', h0⟩
      simp [settle, ha, ih h']

theorem settle_mem (keep : Bool) (l : List Task) (x : Task) (hx : x ∈ settle keep l) :
    x ∈ l ∨ ∃ c ∈ l, c.delay = 0 ∧ c.period ≠ 0 ∧ x = { c with delay := c.period } := by
  induction l with
  | nil => simp [settle] at hx
  | cons a l ih =>
    by_cases ha : a.delay = 0
    · by_cases hk : keep = true ∧ a.period ≠ 0
      · simp only [settle, ha, hk, and_self, if_true, not_false_eq_true, ne_eq] at hx
        rcases List.mem_cons.1 hx with rfl | hx'
        · exact Or.inr ⟨a, List.mem_cons_self _ _, ha, hk.2, rfl⟩
        · exact Or.inl (List.mem_cons_of_mem _ hx')
      · simp only [settle, ha, hk, if_true, if_false] at hx
        exact Or.inl (List.mem_cons_of_mem _ hx)
    · simp only [settle, ha, if_false] at hx
      rcases List.mem_cons.1 hx with rfl | hx'
      · exact Or.inl (List.mem_cons_self _ _)
      · rcases ih hx' with h1 | ⟨c, hc, h2⟩
        · exact Or.inl (List.mem_cons_of_mem _ h1)
        · exact Or.inr ⟨c, List.mem_cons_of_mem _ hc, h2⟩

theorem taskOk_rearm (c : Task) (hok : TaskOk c) (hp : c.period ≠ 0) :
    TaskOk { c with delay := c.period } ∧
    (c.handler = Handler.timerCallback ∨ c.handler = Handler.tenthsCallback) ∧
    (c.handler = Handler.timerCallback → c.period = 1000) := by
  obtain ⟨h, d, p⟩ := c
  cases h <;> simp [TaskOk] at hok hp ⊢ <;> omega

theorem settle_countP_undue (keep : Bool) (q : Task → Bool)
    (hq : ∀ t, TaskOk t → q t = true → 0 < t.delay ∧ t.period = 0) (l : List Task)
    (hok : ∀ t ∈ l, TaskOk t) :
    (settle keep l).countP q = l.countP q := by
  induction l with
  | nil => rfl
  | cons a l ih =>
    have hoka : TaskOk a := hok a (List.mem_cons_self _ _)
    have ih' := ih (fun t ht => hok t (List.mem_cons_of_mem _ ht))
    by_cases ha : a.delay = 0
    · have hqa : q a = false := by
        cases h : q a
        · rfl
        · have := (hq a hoka h).1
          omega
      by_cases hk : keep = true ∧ a.period ≠ 0
      · have hqa' : q { a with delay := a.period } = false := by
          cases h : q { a with delay := a.period }
          · rfl
          · exact absurd (hq _ (taskOk_rearm a hoka hk.2).1 h).2 hk.2
        simp [settle, ha, hk, List.countP_cons, hqa, hqa']
      · simp [settle, ha, hk, List.countP_cons, hqa]
    · simp [settle, ha, List.countP_cons, ih']

theorem settle_countP_due (keep : Bool) (q : Task → Bool)
    (hq : ∀ t, q t = true → t.delay = 0) (l : List Task) (c : Task)
    (hf : l.find? (fun t => decide (t.delay = 0)) = some c) :
    (settle keep l).countP q + (if q c = true then 1 else 0) = l.countP q := by
  induction l with
  | nil => simp at hf
  | cons a l ih =>
    by_cases ha : a.delay = 0
    · have hca : a = c := by simpa [List.find?, ha] using hf
      subst hca
      by_cases hk : keep = true ∧ a.period ≠ 0
      · have hqa' : q { a with delay := a.period } = false := by
          cases h : q { a with delay := a.period }
          · rfl
          · exact absurd (hq _ h) hk.2
        simp [settle, ha, hk, List.countP_cons, hqa']
      · simp [settle, ha, hk, List.countP_cons]
    · have hqa : q a = false := by
        cases h : q a
        · rfl
        · exact absurd (hq a h) ha
      have hf' : l.find? (fun t => decide (t.delay = 0)) = some c := by
        simpa [List.find?, ha] using hf
      have := ih hf'
      simp only [settle, ha, if_false, List.countP_cons, hqa]
      simpa using this

theorem spawn_cases (h : Handler) (new : List Task) (hs : Spawn h new) :
    ∀ t ∈ new, 0 < t.delay ∧ t.period = 0 ∧ TaskOk t ∧
      (isSignalTask t = true → h = Handler.timerCallback) ∧
      (t.handler = Handler.doubleSecondBlink ∨ t.handler = Handler.doubleSecondOff →
        h = Handler.doubleSecondPulse) ∧
      (t.handler = Handler.blinkDone →
        h = Handler.timerCallback ∨ h = Handler.doubleSecondBlink) ∧
      (t.handler = Handler.doubleSecondPulse → t.delay = 100) ∧
      t.handler ≠ Handler.timerCallback ∧ t.handler ≠ Handler.tenthsCallback := by
  intro t ht
  cases h <;> simp only [Spawn] at hs
  case timerCallback =>
    rcases hs with hs | hs <;>
      (have hm := hs.subset ht
       simp only [List.mem_cons, List.mem_singleton, List.not_mem_nil, or_false] at hm
       rcases hm with rfl | rfl | rfl <;> simp [TaskOk, isSignalTask])
  case doubleSecondPulse =>
    have hm := hs.subset ht
    simp only [List.mem_cons, List.mem_singleton, List.not_mem_nil, or_false] at hm
    rcases hm with rfl | rfl <;> simp [TaskOk, isSignalTask]
  case doubleSecondBlink =>
    have hm := hs.subset ht
    simp only [List.mem_cons, List.mem_singleton, List.not_mem_nil, or_false] at hm
    subst hm
    simp [TaskOk, isSignalTask]
  all_goals
    subst hs
    cases ht

theorem spawn_countP (h : Handler) (new : List Task) (hs : Spawn h new) :
    new.countP isSignalTask ≤ (if h = Handler.timerCallback then 2 else 0) ∧
    new.countP (hasHandler Handler.doubleSecondPulse) ≤
      (if h = Handler.timerCallback then 1 else 0) ∧
    new.countP (hasHandler Handler.doubleSecondBlink) ≤
      (if h = Handler.doubleSecondPulse then 1 else 0) ∧
    new.countP (hasHandler Handler.doubleSecondOff) ≤
      (if h = Handler.doubleSecondPulse then 1 else 0) ∧
    new.countP (hasHandler Handler.blinkDone) ≤
      (if h = Handler.timerCallback ∨ h = Handler.doubleSecondBlink then 1 else 0) ∧
    new.countP (hasHandler Handler.timerCallback) = 0 := by
  cases h <;> simp only [Spawn] at hs
  case timerCallback =>
    rcases hs with hs | hs
    · exact ⟨(hs.countP_le _).trans (by decide), (hs.countP_le _).trans (by decide),
        (hs.countP_le _).trans (by decide), (hs.countP_le _).trans (by decide),
        (hs.countP_le _).trans (by decide), Nat.le_zero.1 ((hs.countP_le _).trans (by decide))⟩
    · exact ⟨(hs.countP_le _).trans (by decide), (hs.countP_le _).trans (by decide),
        (hs.countP_le _).trans (by decide), (hs.countP_le _).trans (by decide),
        (hs.countP_le _).trans (by decide), Nat.le_zero.1 ((hs.countP_le _).trans (by decide))⟩
  case doubleSecondPulse =>
    exact ⟨(hs.countP_le _).trans (by decide), (hs.countP_le _).trans (by decide),
        (hs.countP_le _).trans (by decide), (hs.countP_le _).trans (by decide),
        (hs.countP_le _).trans (by decide), Nat.le_zero.1 ((hs.countP_le _).trans (by decide))⟩
  case doubleSecondBlink =>
    exact ⟨(hs.countP_le _).trans (by decide), (hs.countP_le _).trans (by decide),
        (hs.countP_le _).trans (by decide), (hs.countP_le _).trans (by decide),
        (hs.countP_le _).trans (by decide), Nat.le_zero.1 ((hs.countP_le _).trans (by decide))⟩
  all_goals
    subst hs
    simp

theorem countP_due_spawn (h : Handler) (new : List Task) (hs : Spawn h new)
    (q : Task → Bool) (hq : ∀ t, q t = true → t.delay = 0) : new.countP q = 0 := by
  rw [List.countP_eq_zero]
  intro t ht hqt
  have := (spawn_cases h new hs t ht).1
  have := hq t hqt
  omega

theorem tasksOk_step (keep : Bool) (l new : List Task) (h : Handler)
    (hok : ∀ t ∈ l, TaskOk t) (hsp : Spawn h new) :
    ∀ t ∈ settle keep l ++ new, TaskOk t := by
  intro t ht
  rcases List.mem_append.1 ht with ht | ht
  · rcases settle_mem keep l t ht with h1 | ⟨c, hc, -, hp, rfl⟩
    · exact hok t h1
    · exact (taskOk_rearm c (hok c hc) hp).1
  · exact (spawn_cases h new hsp t ht).2.2.1

/-- Induction over the handlers run by one call of `timer.tick()`. -/
theorem tickLoop_induct (P : State → State → Prop)
    (hstop : ∀ s, (∀ t ∈ s.tasks, TaskOk t) → (∀ t ∈ s.tasks, 0 < t.delay) → P s s)
    (hstep : ∀ (s s1 s' : State) (c : Task) (keep : Bool) (new : List Task),
      (∀ t ∈ s.tasks, TaskOk t) →
      s.tasks.find? (fun t => decide (t.delay = 0)) = some c →
      c ∈ s.tasks → c.delay = 0 →
      runHandler c.handler s = some (s1, keep) →
      s1.tasks = s.tasks ++ new → Spawn c.handler new →
      s1.isRunning = s.isRunning →
      (s.isRunning = true →
        c.handler = Handler.timerCallback ∨ c.handler = Handler.tenthsCallback →
        keep = true) →
      P { s1 with tasks := settle keep s.tasks ++ new } s' → P s s') :
    ∀ (n : Nat) (s s' : State), (∀ t ∈ s.tasks, TaskOk t) →
      s.tasks.countP (fun t => decide (t.delay = 0)) ≤ n →
      tickLoop n s = some s' → P s s' := by
  intro n
  induction n with
  | zero =>
    intro s s' hok hn ht
    simp only [tickLoop, Option.some.injEq] at ht
    subst ht
    apply hstop _ hok
    intro t htm
    have h0 : s.tasks.countP (fun t => decide (t.delay = 0)) = 0 := Nat.le_zero.1 hn
    rw [List.countP_eq_zero] at h0
    have := h0 t htm
    simp only [decide_eq_true_eq] at this
    omega
  | succ n ih =>
    intro s s' hok hn ht
    unfold tickLoop at ht
    cases hf : s.tasks.find? (fun t => decide (t.delay = 0)) with
    | none =>
      simp only [hf, Option.some.injEq] at ht
      subst ht
      apply hstop _ hok
      intro t htm
      have := List.find?_eq_none.1 hf t htm
      simp only [decide_eq_true_eq] at this
      omega
    | some c =>
      simp only [hf] at ht
      have hcm : c ∈ s.tasks := List.mem_of_find?_eq_some hf
      have hc0 : c.delay = 0 := by
        have := List.find?_some hf
        simpa using this
      cases hr : runHandler c.handler s with
      | none =>
        simp [hr] at ht
      | some r =>
        obtain ⟨s1, keep⟩ := r
        simp only [hr] at ht
        obtain ⟨⟨new, e, hsp⟩, hrun, hkeep⟩ := runHandler_spawn c.handler s s1 keep hr
        have hset : settle keep s1.tasks = settle keep s.tasks ++ new := by
          rw [e]
          exact settle_append keep s.tasks new ⟨c, hcm, hc0⟩
        rw [hset] at ht
        apply hstep s s1 s' c keep new hok hf hcm hc0 hr e hsp hrun hkeep
        apply ih _ _ (tasksOk_step keep s.tasks new c.handler hok hsp) _ ht
        show (settle keep s.tasks ++ new).countP (fun t => decide (t.delay = 0)) ≤ n
        rw [List.countP_append,
          countP_due_spawn c.handler new hsp _ (fun t ht => by simpa using ht)]
        have := settle_countP_due keep (fun t => decide (t.delay = 0))
          (fun t ht => by simpa using ht) s.tasks c hf
        simp only [hc0, decide_True, if_true] at this
        omega

theorem settle_countP_handler (keep : Bool) (h : Handler) (l : List Task) :
    (settle keep l).countP (hasHandler h) ≤ l.countP (hasHandler h) := by
  induction l with
  | nil => simp [settle]
  | cons a l ih =>
    by_cases ha : a.delay = 0
    · by_cases hk : keep = true ∧ a.period ≠ 0
      · simp [settle, ha, hk, List.countP_cons, hasHandler]
      · simp only [settle, ha, hk, if_true, if_false, List.countP_cons]
        omega
    · simp only [settle, ha, if_false, List.countP_cons]
      omega

theorem tickLoop_isRunning (n : Nat) (s s' : State) (hok : ∀ t ∈ s.tasks, TaskOk t)
    (hn : s.tasks.countP (fun t => decide (t.delay = 0)) ≤ n)
    (ht : tickLoop n s = some s') : s'.isRunning = s.isRunning := by
  refine tickLoop_induct (fun s s' => s'.isRunning = s.isRunning) (fun _ _ _ => rfl) ?_
    n s s' hok hn ht
  intro s s1 s' c keep new _ _ _ _ _ _ _ hrun _ ih
  exact ih.trans hrun

theorem tickLoop_countP_timer (n : Nat) (s s' : State) (hok : ∀ t ∈ s.tasks, TaskOk t)
    (hn : s.tasks.countP (fun t => decide (t.delay = 0)) ≤ n)
    (ht : tickLoop n s = some s') :
    s'.tasks.countP (hasHandler Handler.timerCallback) ≤
      s.tasks.countP (hasHandler Handler.timerCallback) := by
  refine tickLoop_induct
    (fun s s' => s'.tasks.countP (hasHandler Handler.timerCallback) ≤
      s.tasks.countP (hasHandler Handler.timerCallback))
    (fun _ _ _ => Nat.le_refl _) ?_ n s s' hok hn ht
  intro s s1 s' c keep new _ _ _ _ _ _ hsp _ _ ih
  have h1 := settle_countP_handler keep Handler.timerCallback s.tasks
  have h2 := (spawn_countP c.handler new hsp).2.2.2.2.2
  simp only [List.countP_append] at ih
  omega

/-- Where the tasks pending after a call of `timer.tick()` come from: a task
that was not due, a task registered by the handler of a task that was due, or
a recurring task that was due and has been re-armed. No task is due after the
call. -/
theorem tickLoop_mem (n : Nat) (s s' : State) (hok : ∀ t ∈ s.tasks, TaskOk t)
    (hn : s.tasks.countP (fun t => decide (t.delay = 0)) ≤ n)
    (ht : tickLoop n s = some s') :
    ∀ x ∈ s'.tasks,
      (x ∈ s.tasks ∧ 0 < x.delay) ∨
      (∃ c ∈ s.tasks, c.delay = 0 ∧ ∃ new, Spawn c.handler new ∧ x ∈ new) ∨
      (∃ c ∈ s.tasks, c.delay = 0 ∧ c.period ≠ 0 ∧ x = { c with delay := c.period }) := by
  refine tickLoop_induct
    (fun s s' => ∀ x ∈ s'.tasks,
      (x ∈ s.tasks ∧ 0 < x.delay) ∨
      (∃ c ∈ s.tasks, c.delay = 0 ∧ ∃ new, Spawn c.handler new ∧ x ∈ new) ∨
      (∃ c ∈ s.tasks, c.delay = 0 ∧ c.period ≠ 0 ∧ x = { c with delay := c.period }))
    (fun s _ h x hx => Or.inl ⟨hx, h x hx⟩) ?_ n s s' hok hn ht
  intro s s1 s' c keep new _ _ hcm hc0 _ _ hsp _ _ ih x hx
  have hmem : ∀ y ∈ settle keep s.tasks ++ new,
      y ∈ s.tasks ∨ (∃ new, Spawn c.handler new ∧ y ∈ new) ∨
      (∃ c ∈ s.tasks, c.delay = 0 ∧ c.period ≠ 0 ∧ y = { c with delay := c.period }) := by
    intro y hy
    rcases List.mem_append.1 hy with hy | hy
    · rcases settle_mem keep s.tasks y hy with h1 | h1
      · exact Or.inl h1
      · exact Or.inr (Or.inr h1)
    · exact Or.inr (Or.inl ⟨new, hsp, hy⟩)
  have hdue : ∀ y ∈ settle keep s.tasks ++ new, y.delay = 0 → y ∈ s.tasks := by
    intro y hy hy0
    rcases hmem y hy with h1 | ⟨new', hsp', hy'⟩ | ⟨c', _, _, hp, rfl⟩
    · exact h1
    · have := (spawn_cases c.handler new' hsp' y hy').1
      omega
    · exact absurd hy0 hp
  rcases ih x hx with ⟨h1, h2⟩ | ⟨c', hc', hc0', h3⟩ | ⟨c', hc', hc0', h3⟩
  · rcases hmem x h1 with h4 | h4 | h4
    · exact Or.inl ⟨h4, h2⟩
    · exact Or.inr (Or.inl ⟨c, hcm, hc0, h4⟩)
    · exact Or.inr (Or.inr h4)
  · exact Or.inr (Or.inl ⟨c', hdue c' hc' hc0', hc0', h3⟩)
  · exact Or.inr (Or.inr ⟨c', hdue c' hc' hc0', hc0', h3⟩)

theorem tickLoop_countP (q : Task → Bool) (a b c : Nat)
    (hq : ∀ t, TaskOk t → q t = true → t.period = 0)
    (hcap : ∀ h new, Spawn h new → new.countP q ≤
      (if h = Handler.timerCallback then a else 0) +
      (if h = Handler.doubleSecondPulse then b else 0) +
      (if h = Handler.doubleSecondBlink then c else 0))
    (n : Nat) (s s' : State) (hok : ∀ t ∈ s.tasks, TaskOk t)
    (hn : s.tasks.countP (fun t => decide (t.delay = 0)) ≤ n)
    (ht : tickLoop n s = some s') :
    s'.tasks.countP q ≤
      s.tasks.countP (fun t => q t && decide (0 < t.delay)) +
      a * s.tasks.countP (dueWith Handler.timerCallback) +
      b * s.tasks.countP (dueWith Handler.doubleSecondPulse) +
      c * s.tasks.countP (dueWith Handler.doubleSecondBlink) := by
  refine tickLoop_induct
    (fun s s' => s'.tasks.countP q ≤
      s.tasks.countP (fun t => q t && decide (0 < t.delay)) +
      a * s.tasks.countP (dueWith Handler.timerCallback) +
      b * s.tasks.countP (dueWith Handler.doubleSecondPulse) +
      c * s.tasks.countP (dueWith Handler.doubleSecondBlink)) ?_ ?_ n s s' hok hn ht
  · intro s _ h
    have e : s.tasks.countP (fun t => q t && decide (0 < t.delay)) = s.tasks.countP q := by
      apply List.countP_congr
      intro t htm
      simp [h t htm]
    rw [e]
    omega
  · intro s s1 s' d keep new hoks hf _ hd0 _ _ hsp _ _ ih
    simp only [List.countP_append] at ih
    have hU := settle_countP_undue keep (fun t => q t && decide (0 < t.delay))
      (fun t htok h => by
        simp only [Bool.and_eq_true, decide_eq_true_eq] at h
        exact ⟨h.2, hq t htok h.1⟩) s.tasks hoks
    have hnew : new.countP (fun t => q t && decide (0 < t.delay)) ≤ new.countP q := by
      apply List.countP_mono_left
      intro t _ h
      simp only [Bool.and_eq_true] at h
      exact h.1
    have hc := hcap d.handler new hsp
    have dT := settle_countP_due keep (dueWith Handler.timerCallback)
      (fun t h => by simp only [dueWith, decide_eq_true_eq] at h; exact h.2) s.tasks d hf
    have dP := settle_countP_due keep (dueWith Handler.doubleSecondPulse)
      (fun t h => by simp only [dueWith, decide_eq_true_eq] at h; exact h.2) s.tasks d hf
    have dB := settle_countP_due keep (dueWith Handler.doubleSecondBlink)
      (fun t h => by simp only [dueWith, decide_eq_true_eq] at h; exact h.2) s.tasks d hf
    have nT := countP_due_spawn d.handler new hsp (dueWith Handler.timerCallback)
      (fun t h => by simp only [dueWith, decide_eq_true_eq] at h; exact h.2)
    have nP := countP_due_spawn d.handler new hsp (dueWith Handler.doubleSecondPulse)
      (fun t h => by simp only [dueWith, decide_eq_true_eq] at h; exact h.2)
    have nB := countP_due_spawn d.handler new hsp (dueWith Handler.doubleSecondBlink)
      (fun t h => by simp only [dueWith, decide_eq_true_eq] at h; exact h.2)
    rw [hU, nT, nP, nB] at ih
    simp only [Nat.add_zero] at ih
    have oT : (if dueWith Handler.timerCallback d = true then 1 else 0) =
        (if d.handler = Handler.timerCallback then 1 else 0) := by
      simp [dueWith, hd0]
    have oP : (if dueWith Handler.doubleSecondPulse d = true then 1 else 0) =
        (if d.handler = Handler.doubleSecondPulse then 1 else 0) := by
      simp [dueWith, hd0]
    have oB : (if dueWith Handler.doubleSecondBlink d = true then 1 else 0) =
        (if d.handler = Handler.doubleSecondBlink then 1 else 0) := by
      simp [dueWith, hd0]
    rw [oT] at dT
    rw [oP] at dP
    rw [oB] at dB
    rw [← dT, ← dP, ← dB, Nat.mul_add, Nat.mul_add, Nat.mul_add]
    by_cases h1 : d.handler = Handler.timerCallback
    · simp only [h1, if_true] at hc ⊢
      simp only [reduceCtorEq, if_false, Nat.mul_zero, Nat.mul_one, Nat.add_zero] at hc ⊢
      omega
    · by_cases h2 : d.handler = Handler.doubleSecondPulse
      · simp only [h2, if_true] at hc ⊢
        simp only [reduceCtorEq, if_false, Nat.mul_zero, Nat.mul_one, Nat.add_zero,
          Nat.zero_add] at hc ⊢
        omega
      · by_cases h3 : d.handler = Handler.doubleSecondBlink
        · simp only [h3, if_true] at hc ⊢
          simp only [reduceCtorEq, if_false, Nat.mul_zero, Nat.mul_one, Nat.add_zero,
            Nat.zero_add] at hc ⊢
          omega
        · simp only [h1, h2, h3, if_false, Nat.mul_zero, Nat.add_zero] at hc ⊢
          omega

/-- One call of `timer.tick()` runs every handler that is due: no task is due
when it returns. -/
theorem timer_tick_none_due (s s' : State) (hok : ∀ t ∈ s.tasks, TaskOk t)
    (ht : timer_tick s = some s') : ∀ t ∈ s'.tasks, 0 < t.delay := by
  intro x hx
  rcases tickLoop_mem _ s s' hok (List.countP_le_length _) ht x hx with
    ⟨-, h⟩ | ⟨c, -, -, new, hsp, hxn⟩ | ⟨c, hc, -, hp, rfl⟩
  · exact h
  · exact (spawn_cases c.handler new hsp x hxn).1
  · exact Nat.pos_of_ne_zero hp

/-! ## The scheduler table between the parts of `loop()` -/

theorem length_ge_two_of_mem {α : Type} (l : List α) (a b : α) (ha : a ∈ l) (hb : b ∈ l)
    (hab : a ≠ b) : 2 ≤ l.length := by
  match l with
  | [] => cases ha
  | [x] =>
    simp only [List.mem_singleton] at ha hb
    exact absurd (ha.trans hb.symm) hab
  | _ :: _ :: _ => simp

theorem countP_ge_two (p : Task → Bool) (l : List Task) (a b : Task) (ha : a ∈ l)
    (hb : b ∈ l) (hab : a ≠ b) (hpa : p a = true) (hpb : p b = true) : 2 ≤ l.countP p := by
  rw [List.countP_eq_length_filter]
  exact length_ge_two_of_mem _ a b (List.mem_filter.2 ⟨ha, hpa⟩) (List.mem_filter.2 ⟨hb, hpb⟩) hab

theorem countP_split (h : Handler) (l : List Task) :
    l.countP (fun t => hasHandler h t && decide (0 < t.delay)) + l.countP (dueWith h) =
      l.countP (hasHandler h) := by
  induction l with
  | nil => rfl
  | cons a l ih =>
    simp only [List.countP_cons]
    have v2 : dueWith h a = (hasHandler h a && !decide (0 < a.delay)) := by
      by_cases h1 : a.handler = h <;> by_cases h2 : a.delay = 0 <;>
        simp [dueWith, hasHandler, h1, h2, Nat.pos_iff_ne_zero]
    rw [v2]
    cases hasHandler h a <;> cases decide (0 < a.delay) <;> simp <;> omega

theorem countP_undue_le (q : Task → Bool) (l : List Task) :
    l.countP (fun t => q t && decide (0 < t.delay)) ≤ l.countP q := by
  apply List.countP_mono_left
  intro t _ h
  simp only [Bool.and_eq_true] at h
  exact h.1

theorem dueWith_pos (h : Handler) (l : List Task) (hpos : 0 < l.countP (dueWith h)) :
    ∃ c ∈ l, c.handler = h ∧ c.delay = 0 := by
  obtain ⟨c, hc, hd⟩ := List.countP_pos_iff.1 hpos
  simp only [dueWith, decide_eq_true_eq] at hd
  exact ⟨c, hc, hd⟩

theorem countP_undue_zero (q : Task → Bool) (l : List Task)
    (h : ∀ t ∈ l, q t = true → t.delay = 0) :
    l.countP (fun t => q t && decide (0 < t.delay)) = 0 := by
  rw [List.countP_eq_zero]
  intro t ht hq
  simp only [Bool.and_eq_true, decide_eq_true_eq] at hq
  have := h t ht hq.1
  omega

theorem taskOk_oneShot (c : Task) (hok : TaskOk c)
    (hh : c.handler ≠ Handler.timerCallback ∧ c.handler ≠ Handler.tenthsCallback) :
    c.period = 0 ∧ c.delay ≤ 100 ∧
    (c.handler = Handler.doubleSecondBlink ∨ c.handler = Handler.doubleSecondOff →
      c.delay ≤ 50) := by
  obtain ⟨h, d, p⟩ := c
  cases h <;> simp [TaskOk] at hok hh ⊢ <;> omega

theorem isSignalTask_handler (g : Task) (h : isSignalTask g = true) :
    g.handler ≠ Handler.timerCallback ∧ g.handler ≠ Handler.tenthsCallback := by
  simp only [isSignalTask, decide_eq_true_eq] at h
  rcases h with h | h | h | h <;> simp [h]

theorem taskOk_handler_period (t : Task) (hok : TaskOk t) (h : Handler)
    (hh : h ≠ Handler.timerCallback ∧ h ≠ Handler.tenthsCallback)
    (ht : hasHandler h t = true) : t.period = 0 := by
  simp only [hasHandler, decide_eq_true_eq] at ht
  subst ht
  exact (taskOk_oneShot t hok hh).1

theorem blinkAfter_undue (d : Nat) (l : List Task) :
    l.countP (fun t => blinkAfter d t && decide (0 < t.delay)) = l.countP (blinkAfter d) := by
  apply List.countP_congr
  intro t _
  simp only [blinkAfter, Bool.and_eq_true, decide_eq_true_eq]
  constructor
  · intro h
    exact h.1
  · intro h
    exact ⟨h, by omega⟩

theorem blink_undue (l : List Task) :
    l.countP (fun t => hasHandler Handler.blinkDone t && decide (0 < t.delay)) =
      l.countP (blinkAfter 0) := by
  apply List.countP_congr
  intro t _
  simp [blinkAfter, hasHandler]

theorem blinkAfter_mono (d e : Nat) (hde : d ≤ e) (l : List Task) :
    l.countP (blinkAfter e) ≤ l.countP (blinkAfter d) := by
  apply List.countP_mono_left
  intro t _ h
  simp only [blinkAfter, decide_eq_true_eq] at h ⊢
  exact ⟨h.1, by omega⟩

theorem blinkAfter_le (d : Nat) (l : List Task) :
    l.countP (blinkAfter d) ≤ l.countP (hasHandler Handler.blinkDone) := by
  apply List.countP_mono_left
  intro t _ h
  simp only [blinkAfter, hasHandler, decide_eq_true_eq] at h ⊢
  exact h.1

theorem blinkAfter_zero_of_bound (d : Nat) (l : List Task) (hok : ∀ t ∈ l, TaskOk t)
    (hd : 100 ≤ d) : l.countP (blinkAfter d) = 0 := by
  rw [List.countP_eq_zero]
  intro t ht hb
  simp only [blinkAfter, decide_eq_true_eq] at hb
  have := (taskOk_oneShot t (hok t ht) (by simp [hb.1])).2.1
  omega

theorem spawn_caps (h : Handler) (new : List Task) (hs : Spawn h new) :
    new.countP isSignalTask ≤
      (if h = Handler.timerCallback then 2 else 0) +
      (if h = Handler.doubleSecondPulse then 0 else 0) +
      (if h = Handler.doubleSecondBlink then 0 else 0) ∧
    new.countP (hasHandler Handler.doubleSecondPulse) ≤
      (if h = Handler.timerCallback then 1 else 0) +
      (if h = Handler.doubleSecondPulse then 0 else 0) +
      (if h = Handler.doubleSecondBlink then 0 else 0) ∧
    new.countP (hasHandler Handler.doubleSecondBlink) ≤
      (if h = Handler.timerCallback then 0 else 0) +
      (if h = Handler.doubleSecondPulse then 1 else 0) +
      (if h = Handler.doubleSecondBlink then 0 else 0) ∧
    new.countP (hasHandler Handler.doubleSecondOff) ≤
      (if h = Handler.timerCallback then 0 else 0) +
      (if h = Handler.doubleSecondPulse then 1 else 0) +
      (if h = Handler.doubleSecondBlink then 0 else 0) ∧
    new.countP (hasHandler Handler.blinkDone) ≤
      (if h = Handler.timerCallback then 1 else 0) +
      (if h = Handler.doubleSecondPulse then 0 else 0) +
      (if h = Handler.doubleSecondBlink then 1 else 0) := by
  obtain ⟨h1, h2, h3, h4, h5, -⟩ := spawn_countP h new hs
  cases h <;> simp only [reduceCtorEq, if_true, if_false, or_self, or_true, true_or] at * <;>
    omega

/-- One call of `timer.tick()` keeps the facts about the scheduler table. -/
theorem schedInv_timer_tick (s s' : State) (hinv : SchedInv s)
    (ht : timer_tick s = some s') : SchedInv s' := by
  obtain ⟨i1, i2, i3, i5, i6, i7, i8, i9, i10, i11, i12, i13⟩ := hinv
  have hn : s.tasks.countP (fun t => decide (t.delay = 0)) ≤ s.tasks.length :=
    List.countP_le_length _
  unfold timer_tick at ht
  have M := tickLoop_mem _ s s' i1 hn ht
  have hrun := tickLoop_isRunning _ s s' i1 hn ht
  have cT := tickLoop_countP_timer _ s s' i1 hn ht
  have cG := tickLoop_countP isSignalTask 2 0 0
    (fun t hok h => (taskOk_oneShot t hok (isSignalTask_handler t h)).1)
    (fun h new hs => (spawn_caps h new hs).1) _ s s' i1 hn ht
  have cP := tickLoop_countP (hasHandler Handler.doubleSecondPulse) 1 0 0
    (fun t hok h => taskOk_handler_period t hok _ (by decide) h)
    (fun h new hs => (spawn_caps h new hs).2.1) _ s s' i1 hn ht
  have cCb := tickLoop_countP (hasHandler Handler.doubleSecondBlink) 0 1 0
    (fun t hok h => taskOk_handler_period t hok _ (by decide) h)
    (fun h new hs => (spawn_caps h new hs).2.2.1) _ s s' i1 hn ht
  have cCo := tickLoop_countP (hasHandler Handler.doubleSecondOff) 0 1 0
    (fun t hok h => taskOk_handler_period t hok _ (by decide) h)
    (fun h new hs => (spawn_caps h new hs).2.2.2.1) _ s s' i1 hn ht
  have cB := tickLoop_countP (hasHandler Handler.blinkDone) 1 0 1
    (fun t hok h => taskOk_handler_period t hok _ (by decide) h)
    (fun h new hs => (spawn_caps h new hs).2.2.2.2) _ s s' i1 hn ht
  have cBA : ∀ d, s'.tasks.countP (blinkAfter d) ≤
      s.tasks.countP (blinkAfter d) +
      1 * s.tasks.countP (dueWith Handler.timerCallback) +
      0 * s.tasks.countP (dueWith Handler.doubleSecondPulse) +
      1 * s.tasks.countP (dueWith Handler.doubleSecondBlink) := by
    intro d
    have := tickLoop_countP (blinkAfter d) 1 0 1
      (fun t hok h => by
        simp only [blinkAfter, decide_eq_true_eq] at h
        exact (taskOk_oneShot t hok (by simp [h.1])).1)
      (fun h new hs => (blinkAfter_le d new).trans (spawn_caps h new hs).2.2.2.2)
      _ s s' i1 hn ht
    rw [blinkAfter_undue] at this
    exact this
  rw [blink_undue] at cB
  simp only [Nat.zero_mul, Nat.one_mul, Nat.add_zero] at cG cP cCb cCo cB cBA
  have sT := countP_split Handler.timerCallback s.tasks
  have sP := countP_split Handler.doubleSecondPulse s.tasks
  have sCb := countP_split Handler.doubleSecondBlink s.tasks
  have uG := countP_undue_le isSignalTask s.tasks
  have uCo := countP_undue_le (hasHandler Handler.doubleSecondOff) s.tasks
  -- a due second tick: every signal task is due
  have hTdue : 0 < s.tasks.countP (dueWith Handler.timerCallback) →
      s.tasks.countP (fun t => isSignalTask t && decide (0 < t.delay)) = 0 ∧
      s.tasks.countP
        (fun t => hasHandler Handler.doubleSecondPulse t && decide (0 < t.delay)) = 0 ∧
      s.tasks.countP (blinkAfter 0) +
        s.tasks.countP (hasHandler Handler.doubleSecondBlink) ≤ 2 := by
    intro hpos
    obtain ⟨r, hr, hrh, hr0⟩ := dueWith_pos _ _ hpos
    refine ⟨?_, ?_, ?_⟩
    · apply countP_undue_zero
      intro g hg hgs
      have := i10 r hr hrh g hg hgs
      omega
    · apply countP_undue_zero
      intro g hg hgs
      have hgs' : isSignalTask g = true := by
        simp only [hasHandler, decide_eq_true_eq] at hgs
        simp [isSignalTask, hgs]
      have := i10 r hr hrh g hg hgs'
      omega
    · have := i13 r hr hrh
      rw [hr0] at this
      exact this
  -- a due second pulse: every callback of the previous second pulse is due
  have hPdue : 0 < s.tasks.countP (dueWith Handler.doubleSecondPulse) →
      s.tasks.countP
        (fun t => hasHandler Handler.doubleSecondBlink t && decide (0 < t.delay)) = 0 ∧
      s.tasks.countP
        (fun t => hasHandler Handler.doubleSecondOff t && decide (0 < t.delay)) = 0 ∧
      s.tasks.countP (blinkAfter 0) +
        s.tasks.countP (hasHandler Handler.doubleSecondBlink) ≤ 1 := by
    intro hpos
    obtain ⟨p, hp, hph, hp0⟩ := dueWith_pos _ _ hpos
    refine ⟨?_, ?_, ?_⟩
    · apply countP_undue_zero
      intro c hc hch
      simp only [hasHandler, decide_eq_true_eq] at hch
      have := i11 p hp hph c hc (Or.inl hch)
      omega
    · apply countP_undue_zero
      intro c hc hch
      simp only [hasHandler, decide_eq_true_eq] at hch
      have := i11 p hp hph c hc (Or.inr hch)
      omega
    · have := i12 p hp hph
      rw [hp0] at this
      exact this
  have hok' : ∀ t ∈ s'.tasks, TaskOk t := by
    intro x hx
    rcases M x hx with ⟨h1, -⟩ | ⟨c, -, -, new, hsp, hxn⟩ | ⟨c, hc, -, hp, rfl⟩
    · exact i1 x h1
    · exact (spawn_cases c.handler new hsp x hxn).2.2.1
    · exact (taskOk_rearm c (i1 c hc) hp).1
  -- the counts after the call
  have k5 : s'.tasks.countP isSignalTask ≤ 2 := by
    by_cases hpos : 0 < s.tasks.countP (dueWith Handler.timerCallback)
    · have := (hTdue hpos).1
      omega
    · omega
  have k6 : s'.tasks.countP (hasHandler Handler.doubleSecondPulse) ≤ 1 := by
    by_cases hpos : 0 < s.tasks.countP (dueWith Handler.timerCallback)
    · have := (hTdue hpos).2.1
      omega
    · omega
  have k7 : s'.tasks.countP (hasHandler Handler.doubleSecondBlink) ≤ 1 := by
    by_cases hpos : 0 < s.tasks.countP (dueWith Handler.doubleSecondPulse)
    · have := (hPdue hpos).1
      omega
    · omega
  have k8 : s'.tasks.countP (hasHandler Handler.doubleSecondOff) ≤ 1 := by
    by_cases hpos : 0 < s.tasks.countP (dueWith Handler.doubleSecondPulse)
    · have := (hPdue hpos).2.1
      omega
    · omega
  have b0 := blinkAfter_le 0 s.tasks
  have k9 : s'.tasks.countP (hasHandler Handler.blinkDone) +
      s'.tasks.countP (hasHandler Handler.doubleSecondBlink) ≤ 3 := by
    by_cases hpos : 0 < s.tasks.countP (dueWith Handler.doubleSecondPulse)
    · have := (hPdue hpos).2.2
      omega
    · by_cases hpos' : 0 < s.tasks.countP (dueWith Handler.timerCallback)
      · have := (hTdue hpos').2.2
        omega
      · omega
  -- where a second tick and a second pulse pending after the call come from
  have hT' : ∀ r ∈ s'.tasks, r.handler = Handler.timerCallback →
      (r ∈ s.tasks ∧ 0 < r.delay) ∨ r.delay = 1000 := by
    intro r hr hrh
    rcases M r hr with h1 | ⟨c, -, -, new, hsp, hxn⟩ | ⟨c, hc, -, hp, rfl⟩
    · exact Or.inl h1
    · exact absurd hrh (spawn_cases c.handler new hsp r hxn).2.2.2.2.2.2.2.1
    · exact Or.inr ((taskOk_rearm c (i1 c hc) hp).2.2 hrh)
  have hP' : ∀ p ∈ s'.tasks, p.handler = Handler.doubleSecondPulse →
      (p ∈ s.tasks ∧ 0 < p.delay) ∨ p.delay = 100 := by
    intro p hp hph
    rcases M p hp with h1 | ⟨c, -, -, new, hsp, hxn⟩ | ⟨c, hc, -, hpp, rfl⟩
    · exact Or.inl h1
    · exact Or.inr ((spawn_cases c.handler new hsp p hxn).2.2.2.2.2.2.1 hph)
    · rcases (taskOk_rearm c (i1 c hc) hpp).2.1 with h | h <;>
        (rw [h] at hph; exact absurd hph (by decide))
  have noT : ∀ r ∈ s.tasks, r.handler = Handler.timerCallback → 0 < r.delay →
      s.tasks.countP (dueWith Handler.timerCallback) = 0 := by
    intro r hr hrh hr0
    by_contra hne
    obtain ⟨c, hc, hch, hc0⟩ := dueWith_pos _ _ (Nat.pos_of_ne_zero hne)
    have := countP_ge_two (hasHandler Handler.timerCallback) s.tasks r c hr hc
      (by intro e; rw [e] at hr0; omega) (by simp [hasHandler, hrh]) (by simp [hasHandler, hch])
    omega
  have noP : ∀ p ∈ s.tasks, p.handler = Handler.doubleSecondPulse → 0 < p.delay →
      s.tasks.countP (dueWith Handler.doubleSecondPulse) = 0 := by
    intro p hp hph hp0
    by_contra hne
    obtain ⟨c, hc, hch, hc0⟩ := dueWith_pos _ _ (Nat.pos_of_ne_zero hne)
    have := countP_ge_two (hasHandler Handler.doubleSecondPulse) s.tasks p c hp hc
      (by intro e; rw [e] at hp0; omega) (by simp [hasHandler, hph]) (by simp [hasHandler, hch])
    omega
  refine ⟨hok', ?_, by omega, k5, k6, k7, k8, k9, ?_, ?_, ?_, ?_⟩
  · intro hnr x hx
    rw [hrun] at hnr
    rcases M x hx with ⟨h1, -⟩ | ⟨c, -, -, new, hsp, hxn⟩ | ⟨c, hc, -, hp, rfl⟩
    · exact i2 hnr x h1
    · exact (spawn_cases c.handler new hsp x hxn).2.1
    · exact absurd (i2 hnr c hc) hp
  · -- signal tasks are due no later than the second tick
    intro r hr hrh g hg hgs
    have hgb := (taskOk_oneShot g (hok' g hg) (isSignalTask_handler g hgs)).2.1
    rcases hT' r hr hrh with ⟨hrm, hr0⟩ | hr1000
    · rcases M g hg with ⟨h1, -⟩ | ⟨c, hc, hc0, new, hsp, hxn⟩ | ⟨c, hc, -, hp, rfl⟩
      · exact i10 r hrm hrh g h1 hgs
      · have hch := (spawn_cases c.handler new hsp g hxn).2.2.2.1 hgs
        have h0 := noT r hrm hrh hr0
        have : 0 < s.tasks.countP (dueWith Handler.timerCallback) :=
          List.countP_pos_iff.2 ⟨c, hc, by simp [dueWith, hch, hc0]⟩
        omega
      · have hh := isSignalTask_handler _ hgs
        rcases (taskOk_rearm c (i1 c hc) hp).2.1 with h | h
        · exact absurd h hh.1
        · exact absurd h hh.2
    · omega
  · -- callbacks of a second pulse are due no later than the next second pulse
    intro p hp hph c hc hch
    have hcb := (taskOk_oneShot c (hok' c hc) (by rcases hch with h | h <;> simp [h])).2.2 hch
    rcases hP' p hp hph with ⟨hpm, hp0⟩ | hp100
    · rcases M c hc with ⟨h1, -⟩ | ⟨d, hd, hd0, new, hsp, hxn⟩ | ⟨d, hd, -, hpp, rfl⟩
      · exact i11 p hpm hph c h1 hch
      · have hdh := (spawn_cases d.handler new hsp c hxn).2.2.2.2.1 hch
        have h0 := noP p hpm hph hp0
        have : 0 < s.tasks.countP (dueWith Handler.doubleSecondPulse) :=
          List.countP_pos_iff.2 ⟨d, hd, by simp [dueWith, hdh, hd0]⟩
        omega
      · rcases (taskOk_rearm d (i1 d hd) hpp).2.1 with h | h <;>
          (rcases hch with h' | h' <;> (simp only at h'; rw [h] at h'; exact absurd h' (by decide)))
    · omega
  · -- display blinks pending beyond a second pulse
    intro p hp hph
    rcases hP' p hp hph with ⟨hpm, hp0⟩ | hp100
    · have h0 := noP p hpm hph hp0
      have hT0 : s.tasks.countP (dueWith Handler.timerCallback) = 0 := by
        by_contra hne
        obtain ⟨r, hr, hrh, hr0⟩ := dueWith_pos _ _ (Nat.pos_of_ne_zero hne)
        have := i10 r hr hrh p hpm (by simp [isSignalTask, hph])
        omega
      have := i12 p hpm hph
      have := cBA p.delay
      omega
    · have := blinkAfter_zero_of_bound p.delay s'.tasks hok' (by omega)
      omega
  · -- display blinks pending beyond the second tick
    intro r hr hrh
    rcases hT' r hr hrh with ⟨hrm, hr0⟩ | hr1000
    · have h0 := noT r hrm hrh hr0
      have := i13 r hrm hrh
      have := cBA r.delay
      have := blinkAfter_mono 0 r.delay (Nat.zero_le _) s.tasks
      by_cases hpos : 0 < s.tasks.countP (dueWith Handler.doubleSecondPulse)
      · have := (hPdue hpos).2.2
        omega
      · omega
    · have := blinkAfter_zero_of_bound r.delay s'.tasks hok' (by omega)
      omega

theorem taskOk_elapse (ms : Nat) (t : Task) (hok : TaskOk t) :
    TaskOk { t with delay := t.delay - ms } := by
  obtain ⟨h, d, p⟩ := t
  cases h <;> simp [TaskOk] at hok ⊢ <;> omega

theorem countP_elapse_handler (ms : Nat) (q : Task → Bool)
    (hq : ∀ t : Task, q { t with delay := t.delay - ms } = q t) (l : List Task) :
    (l.map (fun t => { t with delay := t.delay - ms })).countP q = l.countP q := by
  rw [List.countP_map]
  apply List.countP_congr
  intro t _
  simp only [Function.comp_apply]
  rw [hq t]

theorem countP_elapse_blinkAfter (ms d : Nat) (l : List Task) :
    (l.map (fun t => { t with delay := t.delay - ms })).countP (blinkAfter (d - ms)) ≤
      l.countP (blinkAfter d) := by
  rw [List.countP_map]
  apply List.countP_mono_left
  intro t _ h
  simp only [Function.comp_apply, blinkAfter, decide_eq_true_eq] at h ⊢
  exact ⟨h.1, by omega⟩

/-- Time passing keeps the facts about the scheduler table. -/
theorem schedInv_elapse (ms : Nat) (s : State) (hinv : SchedInv s) :
    SchedInv (elapse ms s) := by
  obtain ⟨i1, i2, i3, i5, i6, i7, i8, i9, i10, i11, i12, i13⟩ := hinv
  have eH : ∀ h, ((elapse ms s).tasks).countP (hasHandler h) = s.tasks.countP (hasHandler h) :=
    fun h => countP_elapse_handler ms (hasHandler h) (fun _ => rfl) s.tasks
  have eG : ((elapse ms s).tasks).countP isSignalTask = s.tasks.countP isSignalTask :=
    countP_elapse_handler ms isSignalTask (fun _ => rfl) s.tasks
  have hmem : ∀ x ∈ (elapse ms s).tasks,
      ∃ t ∈ s.tasks, x = { t with delay := t.delay - ms } := by
    intro x hx
    obtain ⟨t, ht, e⟩ := List.mem_map.1 hx
    exact ⟨t, ht, e.symm⟩
  refine ⟨?_, ?_, ?_, ?_, ?_, ?_, ?_, ?_, ?_, ?_, ?_, ?_⟩
  · intro x hx
    obtain ⟨t, ht, rfl⟩ := hmem x hx
    exact taskOk_elapse ms t (i1 t ht)
  · intro hnr x hx
    obtain ⟨t, ht, rfl⟩ := hmem x hx
    exact i2 hnr t ht
  · rw [eH]
    exact i3
  · rw [eG]
    exact i5
  · rw [eH]
    exact i6
  · rw [eH]
    exact i7
  · rw [eH]
    exact i8
  · rw [eH, eH]
    exact i9
  · intro r hr hrh g hg hgs
    obtain ⟨r0, hr0, rfl⟩ := hmem r hr
    obtain ⟨g0, hg0, rfl⟩ := hmem g hg
    have := i10 r0 hr0 hrh g0 hg0 hgs
    show g0.delay - ms ≤ r0.delay - ms
    omega
  · intro p hp hph c hc hch
    obtain ⟨p0, hp0, rfl⟩ := hmem p hp
    obtain ⟨c0, hc0, rfl⟩ := hmem c hc
    have := i11 p0 hp0 hph c0 hc0 hch
    show c0.delay - ms ≤ p0.delay - ms
    omega
  · intro p hp hph
    obtain ⟨p0, hp0, rfl⟩ := hmem p hp
    have := i12 p0 hp0 hph
    have := countP_elapse_blinkAfter ms p0.delay s.tasks
    rw [eH]
    show ((elapse ms s).tasks).countP (blinkAfter (p0.delay - ms)) + _ ≤ 1
    show (s.tasks.map (fun t => { t with delay := t.delay - ms })).countP
      (blinkAfter (p0.delay - ms)) + _ ≤ 1
    omega
  · intro r hr hrh
    obtain ⟨r0, hr0, rfl⟩ := hmem r hr
    have := i13 r0 hr0 hrh
    have := countP_elapse_blinkAfter ms r0.delay s.tasks
    rw [eH]
    show (s.tasks.map (fun t => { t with delay := t.delay - ms })).countP
      (blinkAfter (r0.delay - ms)) + _ ≤ 2
    omega

theorem schedInv_congr (s s' : State) (ht : s'.tasks = s.tasks)
    (hr : s'.isRunning = s.isRunning) (hinv : SchedInv s) : SchedInv s' := by
  unfold SchedInv at hinv ⊢
  rw [ht, hr]
  exact hinv

/-- Cancelling the recurring tasks keeps the facts about the scheduler
table. -/
theorem schedInv_cancel (s s' : State) (ht : s'.tasks = oneShots s.tasks)
    (hr : s'.isRunning = false) (hinv : SchedInv s) : SchedInv s' := by
  obtain ⟨i1, i2, i3, i5, i6, i7, i8, i9, i10, i11, i12, i13⟩ := hinv
  have hsub : (oneShots s.tasks).Sublist s.tasks := List.filter_sublist _
  have hmem : ∀ x ∈ oneShots s.tasks, x ∈ s.tasks ∧ x.period = 0 := by
    intro x hx
    have := List.mem_filter.1 hx
    exact ⟨this.1, by simpa using this.2⟩
  have hc : ∀ q : Task → Bool, (oneShots s.tasks).countP q ≤ s.tasks.countP q :=
    fun q => hsub.countP_le q
  unfold SchedInv
  rw [ht, hr]
  refine ⟨?_, ?_, ?_, ?_, ?_, ?_, ?_, ?_, ?_, ?_, ?_, ?_⟩
  · exact fun x hx => i1 x (hmem x hx).1
  · exact fun _ x hx => (hmem x hx).2
  · exact (hc _).trans i3
  · exact (hc _).trans i5
  · exact (hc _).trans i6
  · exact (hc _).trans i7
  · exact (hc _).trans i8
  · have := hc (hasHandler Handler.blinkDone)
    have := hc (hasHandler Handler.doubleSecondBlink)
    omega
  · exact fun r hr hrh g hg hgs => i10 r (hmem r hr).1 hrh g (hmem g hg).1 hgs
  · exact fun p hp hph c hc' hch => i11 p (hmem p hp).1 hph c (hmem c hc').1 hch
  · intro p hp hph
    have := i12 p (hmem p hp).1 hph
    have := hc (blinkAfter p.delay)
    have := hc (hasHandler Handler.doubleSecondBlink)
    omega
  · intro r hr hrh
    have := i13 r (hmem r hr).1 hrh
    have := hc (blinkAfter r.delay)
    have := hc (hasHandler Handler.doubleSecondBlink)
    omega

theorem length_le_countP (p1 p2 p3 p4 : Task → Bool) (l : List Task)
    (h : ∀ t ∈ l, p1 t = true ∨ p2 t = true ∨ p3 t = true ∨ p4 t = true) :
    l.length ≤ l.countP p1 + l.countP p2 + l.countP p3 + l.countP p4 := by
  induction l with
  | nil => simp
  | cons a l ih =>
    have ih' := ih (fun t ht => h t (List.mem_cons_of_mem _ ht))
    have ha := h a (List.mem_cons_self _ _)
    simp only [List.length_cons, List.countP_cons]
    rcases ha with ha | ha | ha | ha <;> simp only [ha, if_true] <;> omega

theorem taskOk_kind (t : Task) (hok : TaskOk t) (hp : t.period = 0) :
    isSignalTask t = true ∨ hasHandler Handler.doubleSecondOff t = true ∨
    hasHandler Handler.blinkDone t = true ∨
    hasHandler Handler.doubleSecondBlink t = true := by
  obtain ⟨h, d, p⟩ := t
  cases h <;> simp [TaskOk, isSignalTask, hasHandler] at hok hp ⊢ <;> omega

/-- While no session runs, at most six tasks are pending, all of them
one-shot tasks. -/
theorem schedInv_idle_length (s : State) (hinv : SchedInv s) (hnr : s.isRunning = false) :
    s.tasks.length ≤ 6 ∧ ∀ t ∈ s.tasks, t.period = 0 := by
  obtain ⟨i1, i2, -, i5, -, -, i8, i9, -⟩ := hinv
  refine ⟨?_, i2 hnr⟩
  have := length_le_countP isSignalTask (hasHandler Handler.doubleSecondOff)
    (hasHandler Handler.blinkDone) (hasHandler Handler.doubleSecondBlink) s.tasks
    (fun t ht => taskOk_kind t (i1 t ht) (i2 hnr t ht))
  omega

theorem stopTimer_tasks (s s' : State) (h : stopTimer s = some s') :
    (s'.tasks = s.tasks ∧ s'.isRunning = s.isRunning) ∨
    (s'.isRunning = false ∧ s'.tasks = oneShots s.tasks) := by
  by_cases hr : s.isRunning = true
  · right
    by_cases hT : s.targetSeconds = 0
    · simp [stopTimer, hr, idiv, hT] at h
    · obtain ⟨s1, h1, -, h3, -, h5, -⟩ := stopTimer_running s hr hT
      rw [h] at h1
      simp only [Option.some.injEq] at h1
      subst h1
      exact ⟨h3, h5⟩
  · left
    simp [stopTimer, hr] at h
    rw [← h]
    exact ⟨rfl, rfl⟩

theorem startTimer_tasks (s : State) (hr : s.isRunning = false) :
    (startTimer s).tasks =
      addTask { handler := Handler.tenthsCallback, delay := 100, period := 100 }
        (addTask { handler := Handler.timerCallback, delay := 1000, period := 1000 }
          s.tasks) := by
  simp [startTimer, serialPrint, timer_every, hr]

theorem startStopButtonClick_tasks (now : Nat) (r1 r2 r3 : Int) (s s' : State)
    (h : startStopButtonClick now r1 r2 r3 s = some s') :
    (s'.tasks = s.tasks ∧ s'.isRunning = s.isRunning) ∨
    (s'.isRunning = false ∧ s'.tasks = oneShots s.tasks) ∨
    (s.isRunning = false ∧ s'.isRunning = true ∧
      s'.tasks =
        addTask { handler := Handler.tenthsCallback, delay := 100, period := 100 }
          (addTask { handler := Handler.timerCallback, delay := 1000, period := 1000 }
            s.tasks)) := by
  by_cases hsh : s.showingFinalResult = true
  · rw [startStopButtonClick_showing now r1 r2 r3 s hsh] at h
    have f := readPotentiometer_fields now r1 r2 r3
      { serialPrint SerialLine.startStopPressed s with
        showingFinalResult := false, displayVisible := true }
    have e : s' = serialPrint SerialLine.returnedToSetting
        (readPotentiometer now r1 r2 r3
          { serialPrint SerialLine.startStopPressed s with
            showingFinalResult := false, displayVisible := true }) :=
      (Option.some.inj h).symm
    left
    rw [e]
    exact ⟨f.2.2.2.2.2.2.2.1, f.2.2.2.2.1⟩
  · have hsh' : s.showingFinalResult = false := by simpa using hsh
    by_cases hr : s.isRunning = true
    · rw [startStopButtonClick_running now r1 r2 r3 s hsh' hr] at h
      rcases stopTimer_tasks _ s' h with h1 | h1
      · exact Or.inl h1
      · exact Or.inr (Or.inl h1)
    · have hr' : s.isRunning = false := by simpa using hr
      rw [startStopButtonClick_idle now r1 r2 r3 s hsh' hr'] at h
      have e : s' = startTimer (serialPrint SerialLine.starting
          (serialPrint SerialLine.startStopPressed s)) := (Option.some.inj h).symm
      have hr2 : (serialPrint SerialLine.starting
          (serialPrint SerialLine.startStopPressed s)).isRunning = false := hr'
      have g1 := (startTimer_idle (serialPrint SerialLine.starting
          (serialPrint SerialLine.startStopPressed s)) hr2).1
      have g2 := startTimer_tasks (serialPrint SerialLine.starting
          (serialPrint SerialLine.startStopPressed s)) hr2
      rw [← e] at g1 g2
      exact Or.inr (Or.inr ⟨hr', g1, g2⟩)

theorem resetButtonClick_tasks (now : Nat) (r1 r2 r3 : Int) (s s' : State)
    (h : resetButtonClick now r1 r2 r3 s = some s') :
    (s'.tasks = s.tasks ∧ s'.isRunning = s.isRunning) ∨
    (s'.isRunning = false ∧ s'.tasks = oneShots s.tasks) := by
  cases hst : stopTimer (serialPrint SerialLine.resetPressed s) with
  | none => simp [resetButtonClick, hst] at h
  | some s1 =>
    rw [resetButtonClick_eq now r1 r2 r3 s s1 hst] at h
    have e : s' = serialPrint SerialLine.completeReset
        (readPotentiometer now r1 r2 r3
          { s1 with
            showingFinalResult := false, displayVisible := true,
            lastCompletedInterval := 0 }) := (Option.some.inj h).symm
    have f := readPotentiometer_fields now r1 r2 r3
      { s1 with
        showingFinalResult := false, displayVisible := true, lastCompletedInterval := 0 }
    rw [e]
    rcases stopTimer_tasks _ s1 hst with ⟨h1, h2⟩ | ⟨h1, h2⟩
    · exact Or.inl ⟨f.2.2.2.2.2.2.2.1.trans h1, f.2.2.2.2.1.trans h2⟩
    · exact Or.inr ⟨f.2.2.2.2.1.trans h1, f.2.2.2.2.2.2.2.1.trans h2⟩

theorem loopPot_tasks (now : Nat) (r1 r2 r3 : Int) (s : State) :
    (loopPot now r1 r2 r3 s).tasks = s.tasks ∧
    (loopPot now r1 r2 r3 s).isRunning = s.isRunning := by
  have f := readPotentiometer_fields now r1 r2 r3 s
  unfold loopPot
  split
  · exact ⟨f.2.2.2.2.2.2.2.1, f.2.2.2.2.1⟩
  · exact ⟨rfl, rfl⟩

theorem readModeSwitch_tasks (level : Bool) (s : State) :
    (readModeSwitch level s).tasks = s.tasks ∧
    (readModeSwitch level s).isRunning = s.isRunning := by
  constructor <;> (unfold readModeSwitch serialPrint; split <;> rfl)

theorem loopBlink_tasks (now : Nat) (s : State) :
    (loopBlink now s).tasks = s.tasks ∧ (loopBlink now s).isRunning = s.isRunning := by
  constructor <;> (unfold loopBlink; split <;> [split; skip] <;> rfl)

theorem updateDisplay_tasks (s : State) :
    (updateDisplay s).tasks = s.tasks ∧ (updateDisplay s).isRunning = s.isRunning := by
  constructor <;>
    (unfold updateDisplay
     cases s.showingFinalResult <;> cases s.displayVisible <;> cases s.isRunning <;> rfl)

/-- What a part of `loop()` other than `timer.tick()` does to the scheduler
table: nothing, a stop (the recurring tasks are cancelled), or a start. -/
theorem step_tasks (e : Event) (s s' : State) (hf : e.isFire = false)
    (h : step e s = some s') :
    (s'.tasks = s.tasks ∧ s'.isRunning = s.isRunning) ∨
    (s'.isRunning = false ∧ s'.tasks = oneShots s.tasks) ∨
    (s.isRunning = false ∧ s'.isRunning = true ∧
      s'.tasks =
        addTask { handler := Handler.tenthsCallback, delay := 100, period := 100 }
          (addTask { handler := Handler.timerCallback, delay := 1000, period := 1000 }
            s.tasks)) := by
  cases e with
  | fire hd => simp [Event.isFire] at hf
  | startStopClick now r1 r2 r3 => exact startStopButtonClick_tasks now r1 r2 r3 s s' h
  | resetClick now r1 r2 r3 =>
    rcases resetButtonClick_tasks now r1 r2 r3 s s' h with h1 | h1
    · exact Or.inl h1
    · exact Or.inr (Or.inl h1)
  | potSample now r1 r2 r3 =>
    have e : s' = loopPot now r1 r2 r3 s := (Option.some.inj h).symm
    rw [e]
    exact Or.inl (loopPot_tasks now r1 r2 r3 s)
  | modeSample level =>
    have e : s' = readModeSwitch level s := (Option.some.inj h).symm
    rw [e]
    exact Or.inl (readModeSwitch_tasks level s)
  | blink now =>
    have e : s' = loopBlink now s := (Option.some.inj h).symm
    rw [e]
    exact Or.inl (loopBlink_tasks now s)
  | display =>
    have e : s' = updateDisplay s := (Option.some.inj h).symm
    rw [e]
    exact Or.inl (updateDisplay_tasks s)

/-- Starting a session keeps the facts about the scheduler table: both
recurring tasks find room. -/
theorem schedInv_start (s s' : State) (hnr : s.isRunning = false) (hr : s'.isRunning = true)
    (ht : s'.tasks =
      addTask { handler := Handler.tenthsCallback, delay := 100, period := 100 }
        (addTask { handler := Handler.timerCallback, delay := 1000, period := 1000 } s.tasks))
    (hinv : SchedInv s) :
    SchedInv s' ∧
    s'.tasks = s.tasks ++
      [{ handler := Handler.timerCallback, delay := 1000, period := 1000 },
       { handler := Handler.tenthsCallback, delay := 100, period := 100 }] := by
  obtain ⟨hlen, hone⟩ := schedInv_idle_length s hinv hnr
  obtain ⟨i1, i2, i3, i5, i6, i7, i8, i9, i10, i11, i12, i13⟩ := hinv
  have e : s'.tasks = s.tasks ++
      [{ handler := Handler.timerCallback, delay := 1000, period := 1000 },
       { handler := Handler.tenthsCallback, delay := 100, period := 100 }] := by
    rw [ht, addTask_of_lt _ s.tasks (by unfold MAX_TASKS; omega),
      addTask_of_lt _ _
        (by simp only [List.length_append, List.length_singleton]; unfold MAX_TASKS; omega)]
    simp
  refine ⟨?_, e⟩
  have hnoT : ∀ t ∈ s.tasks, t.handler ≠ Handler.timerCallback := by
    intro t ht' hh
    have hok := i1 t ht'
    have hp := hone t ht'
    obtain ⟨h, d, p⟩ := t
    simp only at hh hp
    subst hh
    simp [TaskOk] at hok
    omega
  have hmem : ∀ x ∈ s'.tasks, x ∈ s.tasks ∨
      x = { handler := Handler.timerCallback, delay := 1000, period := 1000 } ∨
      x = { handler := Handler.tenthsCallback, delay := 100, period := 100 } := by
    intro x hx
    rw [e] at hx
    simpa using hx
  have hc : ∀ q : Task → Bool,
      q { handler := Handler.timerCallback, delay := 1000, period := 1000 } = false →
      q { handler := Handler.tenthsCallback, delay := 100, period := 100 } = false →
      s'.tasks.countP q = s.tasks.countP q := by
    intro q h1 h2
    rw [e, List.countP_append]
    simp [List.countP_cons, h1, h2]
  have hok' : ∀ t ∈ s'.tasks, TaskOk t := by
    intro x hx
    rcases hmem x hx with h | rfl | rfl
    · exact i1 x h
    · simp [TaskOk]
    · simp [TaskOk]
  have hsig : ∀ g ∈ s'.tasks, isSignalTask g = true → g ∈ s.tasks := by
    intro g hg hgs
    rcases hmem g hg with h | rfl | rfl
    · exact h
    · simp [isSignalTask] at hgs
    · simp [isSignalTask] at hgs
  have hhand : ∀ x ∈ s'.tasks, x.handler ≠ Handler.timerCallback →
      x.handler ≠ Handler.tenthsCallback → x ∈ s.tasks := by
    intro x hx h1 h2
    rcases hmem x hx with h | rfl | rfl
    · exact h
    · exact absurd rfl h1
    · exact absurd rfl h2
  have hT : ∀ r ∈ s'.tasks, r.handler = Handler.timerCallback → r.delay = 1000 := by
    intro r hr' hrh
    rcases hmem r hr' with h | rfl | rfl
    · exact absurd hrh (hnoT r h)
    · rfl
    · simp at hrh
  refine ⟨hok', ?_, ?_, ?_, ?_, ?_, ?_, ?_, ?_, ?_, ?_, ?_⟩
  · intro h
    rw [hr] at h
    cases h
  · have h0 : s.tasks.countP (hasHandler Handler.timerCallback) = 0 := by
      rw [List.countP_eq_zero]
      intro t ht' hh
      simp only [hasHandler, decide_eq_true_eq] at hh
      exact hnoT t ht' hh
    rw [e, List.countP_append, h0]
    decide
  · rw [hc _ (by decide) (by decide)]
    exact i5
  · rw [hc _ (by decide) (by decide)]
    exact i6
  · rw [hc _ (by decide) (by decide)]
    exact i7
  · rw [hc _ (by decide) (by decide)]
    exact i8
  · rw [hc _ (by decide) (by decide), hc _ (by decide) (by decide)]
    exact i9
  · intro r hr' hrh g hg hgs
    have := hT r hr' hrh
    have := (taskOk_oneShot g (hok' g hg) (isSignalTask_handler g hgs)).2.1
    omega
  · intro p hp hph c hc' hch
    have hp' := hhand p hp (by simp [hph]) (by simp [hph])
    have hc'' := hhand c hc' (by rcases hch with h | h <;> simp [h])
      (by rcases hch with h | h <;> simp [h])
    exact i11 p hp' hph c hc'' hch
  · intro p hp hph
    have hp' := hhand p hp (by simp [hph]) (by simp [hph])
    rw [hc _ (by simp [blinkAfter]) (by simp [blinkAfter]), hc _ (by decide) (by decide)]
    exact i12 p hp' hph
  · intro r hr' hrh
    have := hT r hr' hrh
    have := blinkAfter_zero_of_bound r.delay s'.tasks hok' (by omega)
    rw [hc (hasHandler Handler.doubleSecondBlink) (by decide) (by decide)]
    omega

theorem schedInv_initialState : SchedInv initialState := by
  unfold SchedInv
  simp [initialState]

/-- The facts about the scheduler table hold in every state the sketch reaches
when handlers run only for due tasks. -/
theorem timedReach_schedInv (s : State) (h : TimedReach s) : SchedInv s := by
  induction h with
  | init => exact schedInv_initialState
  | next m _ hin hst ih =>
    cases m with
    | elapse ms =>
      simp only [timedStep, Option.some.injEq] at hst
      subst hst
      exact schedInv_elapse ms _ ih
    | tick =>
      simp only [timedStep] at hst
      exact schedInv_timer_tick _ _ ih hst
    | act e =>
      simp only [timedStep] at hst
      have hf : e.isFire = false := by
        simp only [Moment.inRange, Bool.and_eq_true, Bool.not_eq_true'] at hin
        exact hin.2
      rcases step_tasks e _ _ hf hst with ⟨h1, h2⟩ | ⟨h1, h2⟩ | ⟨h1, h2, h3⟩
      · exact schedInv_congr _ _ h1 h2 ih
      · exact schedInv_cancel _ _ h2 h1 ih
      · exact (schedInv_start _ _ h1 h2 h3 ih).1

theorem timedReach_runMoments (ms : List Moment) (s s' : State) (h : TimedReach s)
    (hr : ∀ m ∈ ms, m.inRange = true) (hrun : runMoments ms s = some s') :
    TimedReach s' := by
  induction ms generalizing s with
  | nil =>
    simp [runMoments] at hrun
    rw [← hrun]
    exact h
  | cons m ms ih =>
    cases hst : timedStep m s with
    | none => simp [runMoments, hst] at hrun
    | some s1 =>
      simp [runMoments, hst] at hrun
      exact ih s1 (TimedReach.next m h (hr m (List.mem_cons_self m ms)) hst)
        (fun m' hm' => hr m' (List.mem_cons_of_mem m hm')) hrun

/-- In an Idle or ShowingResult state the sketch reaches, the scheduler table
has room for the two recurring tasks of a new session and holds no recurring
task. -/
theorem timedReach_idle_room (s : State) (h : TimedReach s) (hnr : s.isRunning = false) :
    s.tasks.length + 2 ≤ MAX_TASKS ∧ recurring s.tasks = [] := by
  obtain ⟨hlen, hone⟩ := schedInv_idle_length s (timedReach_schedInv s h) hnr
  refine ⟨by unfold MAX_TASKS; omega, ?_⟩
  unfold recurring
  apply List.filter_eq_nil_iff.2
  intro t ht
  simp [hone t ht]

theorem sessionInv_tickLoop (n : Nat) (s s' : State) (hok : ∀ t ∈ s.tasks, TaskOk t)
    (hn : s.tasks.countP (fun t => decide (t.delay = 0)) ≤ n)
    (ht : tickLoop n s = some s') (h : SessionInv s) : SessionInv s' := by
  refine tickLoop_induct (fun s s' => SessionInv s → SessionInv s') (fun _ _ _ h => h) ?_
    n s s' hok hn ht h
  intro s s1 s' c keep new _ _ _ _ hr _ _ _ _ ih h
  exact ih (sessionInv_of_fields rfl rfl rfl rfl rfl rfl
    (sessionInv_runHandler c.handler s s1 keep h hr))

/-- The facts about the session fields proved for `Reach` hold in the states
reached with the scheduler in time as well. -/
theorem timedReach_sessionInv (s : State) (h : TimedReach s) : SessionInv s := by
  induction h with
  | init => exact sessionInv_initialState
  | next m hprev hin hst ih =>
    cases m with
    | elapse ms =>
      simp only [timedStep, Option.some.injEq] at hst
      subst hst
      exact sessionInv_of_fields rfl rfl rfl rfl rfl rfl ih
    | tick =>
      simp only [timedStep] at hst
      exact sessionInv_tickLoop _ _ _ (timedReach_schedInv _ hprev).1
        (List.countP_le_length _) hst ih
    | act e =>
      simp only [timedStep] at hst
      have hr : e.inRange = true := by
        simp only [Moment.inRange, Bool.and_eq_true] at hin
        exact hin.1
      exact sessionInv_step e _ _ ih hr hst

/-! ## Start click -/

theorem recurring_append (as bs : List Task) :
    recurring (as ++ bs) = recurring as ++ recurring bs := by
  unfold recurring
  exact List.filter_append as bs

/-- C10: from every Idle state (not running, not showing a result) that the
sketch reaches, a start/stop click is defined and yields a Running state with
currentSecond, displaySecond, currentTenths and lastCompletedInterval 0,
showingFinalResult false, targetSeconds and soundEnabled unchanged; no
recurring scheduler event was registered before the click, and exactly two are
registered after it: timerCallback every 1000 ms and tenthsCallback every
100 ms (the pending one-shot events stay in the table). -/
theorem start_click_from_idle (s : State) (now : Nat) (r1 r2 r3 : Int)
    (hreach : TimedReach s)
    (hidle : s.isRunning = false) (hshow : s.showingFinalResult = false) :
    ∃ s', startStopButtonClick now r1 r2 r3 s = some s' ∧
      s'.isRunning = true ∧ s'.currentSecond = 0 ∧ s'.displaySecond = 0 ∧
      s'.currentTenths = 0 ∧ s'.lastCompletedInterval = 0 ∧
      s'.showingFinalResult = false ∧
      s'.targetSeconds = s.targetSeconds ∧ s'.soundEnabled = s.soundEnabled ∧
      recurring s.tasks = [] ∧
      s'.tasks = s.tasks ++
        [{ handler := Handler.timerCallback, delay := 1000, period := 1000 },
         { handler := Handler.tenthsCallback, delay := 100, period := 100 }] ∧
      recurring s'.tasks =
        [{ handler := Handler.timerCallback, delay := 1000, period := 1000 },
         { handler := Handler.tenthsCallback, delay := 100, period := 100 }] := by
  have hinv := timedReach_schedInv s hreach
  have hidle' : (serialPrint SerialLine.starting
      (serialPrint SerialLine.startStopPressed s)).isRunning = false := hidle
  obtain ⟨g1, g2, g3, g4, g5, g6, g7, g8⟩ :=
    startTimer_idle (serialPrint SerialLine.starting
      (serialPrint SerialLine.startStopPressed s)) hidle'
  have gt := startTimer_tasks (serialPrint SerialLine.starting
      (serialPrint SerialLine.startStopPressed s)) hidle'
  have htasks := (schedInv_start s (startTimer (serialPrint SerialLine.starting
      (serialPrint SerialLine.startStopPressed s))) hidle g1 gt hinv).2
  have hrec : recurring s.tasks = [] := (timedReach_idle_room s hreach hidle).2
  refine ⟨_, startStopButtonClick_idle now r1 r2 r3 s hshow hidle, g1, g3, g4, g5, g6, g7,
    g2, g8, hrec, htasks, ?_⟩
  rw [htasks, recurring_append, hrec]
  rfl

theorem start_click_from_idle_witness :
    (∀ m ∈ leftoverMoments, m.inRange = true) ∧
    runMoments leftoverMoments initialState = some idleWithLeftovers ∧
    (TimedReach idleWithLeftovers ∧ idleWithLeftovers.isRunning = false ∧
      idleWithLeftovers.showingFinalResult = false) ∧
    idleWithLeftovers.targetSeconds = 11 ∧
    idleWithLeftovers.tasks =
      [{ handler := Handler.shortLedOff, delay := 30, period := 0 },
       { handler := Handler.blinkDone, delay := 80, period := 0 },
       { handler := Handler.shortBuzzerOff, delay := 10, period := 0 }] ∧
    ∃ s', startStopButtonClick 3000 200 200 200 idleWithLeftovers = some s' ∧
      s'.isRunning = true ∧ s'.currentSecond = 0 ∧ s'.lastCompletedInterval = 0 ∧
      s'.showingFinalResult = false ∧ s'.targetSeconds = 11 ∧
      s'.tasks =
        [{ handler := Handler.shortLedOff, delay := 30, period := 0 },
         { handler := Handler.blinkDone, delay := 80, period := 0 },
         { handler := Handler.shortBuzzerOff, delay := 10, period := 0 },
         { handler := Handler.timerCallback, delay := 1000, period := 1000 },
         { handler := Handler.tenthsCallback, delay := 100, period := 100 }] ∧
      recurring s'.tasks =
        [{ handler := Handler.timerCallback, delay := 1000, period := 1000 },
         { handler := Handler.tenthsCallback, delay := 100, period := 100 }] := by
  have hr : ∀ m ∈ leftoverMoments, m.inRange = true := by decide
  have hrun : runMoments leftoverMoments initialState = some idleWithLeftovers := by decide
  have hreach : TimedReach idleWithLeftovers :=
    timedReach_runMoments leftoverMoments initialState idleWithLeftovers TimedReach.init hr hrun
  obtain ⟨s', h1, h2, h3, -, -, h6, h7, h8, -, -, h11, h12⟩ :=
    start_click_from_idle idleWithLeftovers 3000 200 200 200 hreach (by decide) (by decide)
  exact ⟨hr, hrun, ⟨hreach, by decide, by decide⟩, by decide, by decide,
    s', h1, h2, h3, h6, h7, h8.trans (by decide), h11.trans (by decide), h12⟩

end BleepTimer
